import Mathlib

/-!
# Commit queue job of evergreen: dependency linker and unstick monitor

A shallow embedding of `units/commit_queue.go`.  The functions of that file
(`addMergeTaskDependencies`, `TryUnstick`, `dequeue`, `logError`, `checkPR`)
are translated statement by statement.  The packages they call
(`model/task`, `model/commitqueue`, `model/patch`, `model/event`,
`thirdparty`) are declared elsewhere: what the linker needs of the task
collection is modelled as pure functions on a list of task documents, and
what the unstick monitor reads from its collaborators is an explicit record
of lookups, so that the theorems hold for every answer the collaborators may
give.

The definitions come first, the theorems after them: first the dependency
linker (claims C1 to C3), then the unstick monitor (claims C4 to C10).
-/

namespace Evergreen

/-! ## Data model -/

/-- One entry of `Task.DependsOn` (`task.Dependency`): the task depended on,
the status it must reach, and whether that status can no longer be reached. -/
structure Dependency where
  TaskId : String
  Status : String
  Unattainable : Bool := false
deriving DecidableEq, Repr

/-- The fields of a task document (`task.Task`) that the commit queue job
reads or writes. -/
structure Task where
  Id : String
  Version : String := ""
  CommitQueueMerge : Bool := false
  Activated : Bool := false
  Priority : Int := 0
  Aborted : Bool := false
  ResetWhenFinished : Bool := false
  DependsOn : List Dependency := []
  NumDependents : Nat := 0
deriving DecidableEq, Repr

/-- A module of a queue item (`commitqueue.Module`). -/
structure ItemModule where
  Module : String
  Issue : String
deriving DecidableEq, Repr

/-- An entry of the commit queue (`commitqueue.CommitQueueItem`).  Times are
nanoseconds since the epoch, `0` being the zero time. -/
structure CommitQueueItem where
  Issue : String
  PatchId : String := ""
  Version : String := ""
  EnqueueTime : Nat := 0
  ProcessingStartTime : Nat := 0
  Source : String := ""
  Modules : List ItemModule := []
  QueueLengthAtEnqueue : Nat := 0
deriving DecidableEq, Repr

/-- The queue of one project (`commitqueue.CommitQueue`). -/
structure CommitQueue where
  ProjectID : String := ""
  Queue : List CommitQueueItem := []
deriving DecidableEq, Repr

/-- Modelled from the spec: the constant `task.AllStatuses` is declared in
`model/task`, which is not among the sources; it names the dependency
condition that is met by every terminal status of the task depended on. -/
def AllStatuses : String := "*"

/-! ## The task collection -/

/-- Modelled from the spec: `task.FindMergeTaskForVersion` is declared in
`model/task`, which is not among the sources.  "Given a version id, look up
its merge task": the task document of that version which is flagged as the
commit queue merge.  The in-memory collection cannot fail, so the error of
the Go signature is never produced. -/
def FindMergeTaskForVersion (store : List Task) (version : String) :
    Except String (Option Task) :=
  .ok (store.find? (fun t => t.Version == version && t.CommitQueueMerge))

/-- Modelled from the spec: part of `(*task.Task).AddDependency`, which is
declared in `model/task`, not among the sources.  Two dependency entries name
the same edge: same task, same status. -/
def Dependency.sameEdge (d e : Dependency) : Bool :=
  e.TaskId == d.TaskId && e.Status == d.Status

/-- Modelled from the spec: part of `(*task.Task).AddDependency`, which is
declared in `model/task`, not among the sources.  The change it makes to a
document when the task holds the list `existing`: nothing new when the edge is
there already (its `Unattainable` flag is brought in line), the entry appended
otherwise. -/
def Task.withDependency (existing : List Dependency) (d : Dependency) (u : Task) : Task :=
  if existing.any d.sameEdge then
    { u with DependsOn :=
        (u.DependsOn.map (fun e => if d.sameEdge e then { e with Unattainable := d.Unattainable } else e)) }
  else
    { u with DependsOn := u.DependsOn ++ [d] }

/-- Modelled from the spec: `(*task.Task).AddDependency` is declared in
`model/task`, which is not among the sources.  "Add/update a task
dependency", used by the linker to "ensure current's merge task depends on
previous's merge task": the in-memory task and its stored document get the
entry unless an entry for the same task and status is already there, in
which case only the flag of that entry is updated. -/
def Task.AddDependency (t : Task) (store : List Task) (d : Dependency) :
    Except String (Task × List Task) :=
  .ok (t.withDependency t.DependsOn d,
       store.map (fun u => if u.Id = t.Id then u.withDependency t.DependsOn d else u))

/-- Modelled from the spec: `(*task.Task).UpdateDependsOn` is declared in
`model/task`, which is not among the sources.  The spec gives the linker two
writes to the task collection, "add/update a task dependency" and "recompute
a task's dependent count", and no other; it requires that re-running the
linker "must not duplicate edges or inflate dependent counts", and that the
merge task of an item depends on the merge task of the item before it,
"never an earlier or later one".  The call gets the status and the id of the
dependency that `AddDependency` has just ensured; in keeping with the spec it
writes nothing more, and the collection is returned as it is. -/
def Task.UpdateDependsOn (_t : Task) (store : List Task) (_status : String)
    (_newDependencyIDs : List String) : Except String (List Task) :=
  .ok store

/-- Modelled from the spec: part of `model.RecomputeNumDependents`, which is
declared in `model`, not among the sources.  The task with id `a` depends on
the task with id `b` through a chain of at most `fuel` entries of
`DependsOn`. -/
def dependsOnWithin (store : List Task) : Nat → String → String → Bool
  | 0, _, _ => false
  | fuel + 1, a, b =>
    store.any (fun u => u.Id == a &&
      u.DependsOn.any (fun d => d.TaskId == b || dependsOnWithin store fuel d.TaskId b))

/-- Modelled from the spec: part of `model.RecomputeNumDependents`, which is
declared in `model`, not among the sources.  The task with id `a` depends,
directly or through other stored tasks, on the task with id `b`.  A chain
without repetition has at most as many entries as there are stored tasks. -/
def dependsOn (store : List Task) (a b : String) : Bool :=
  dependsOnWithin store store.length a b

/-- Modelled from the spec: part of `model.RecomputeNumDependents`, which is
declared in `model`, not among the sources.  The number of stored tasks that
depend, directly or transitively, on the task with id `b`: its dependents. -/
def numDependents (store : List Task) (b : String) : Nat :=
  store.countP (fun u => dependsOn store u.Id b)

/-- Modelled from the spec: `model.RecomputeNumDependents` is declared in
`model`, which is not among the sources.  "Recompute a task's dependent
count", called on the current merge task and observed on its predecessors
(Scenario B: three linked versions report 2, 1 and 0 dependents): every
stored task in the dependency graph of `t`, that is `t`, the tasks `t`
depends on and the tasks depending on `t`, gets as `NumDependents` the
number of tasks that depend on it directly or transitively. -/
def RecomputeNumDependents (store : List Task) (t : Task) : Except String (List Task) :=
  .ok (store.map (fun u =>
    if u.Id == t.Id || dependsOn store u.Id t.Id || dependsOn store t.Id u.Id then
      { u with NumDependents := numDependents store u.Id }
    else u))

/-! ## The dependency linker -/

/-- The loop of `addMergeTaskDependencies` from queue position `i` on, with
`prevMergeTask` the id of the merge task of the item before.  The result is
the returned error, if any, and the task collection as the loop left it. -/
def addMergeTaskDependenciesFrom :
    List CommitQueueItem → Nat → String → List Task → Option String × List Task
  | [], _, _, store => (none, store)
  | currentItem :: rest, i, prevMergeTask, store =>
    if currentItem.Version = "" then (none, store)
    else
      match FindMergeTaskForVersion store currentItem.Version with
      | .error err => (some ("finding merge task from version \x27" ++ currentItem.Version ++ "\x27: " ++ err), store)
      | .ok none => (some ("merge task not found for version \x27" ++ currentItem.Version ++ "\x27"), store)
      | .ok (some mergeTask) =>
        let dependency : Dependency := { TaskId := prevMergeTask, Status := AllStatuses }
        if i = 0 then addMergeTaskDependenciesFrom rest (i + 1) mergeTask.Id store
        else
          match mergeTask.AddDependency store dependency with
          | .error err => (some ("adding dependency of merge task \x27" ++ mergeTask.Id ++
              "\x27 on previous merge task \x27" ++ dependency.TaskId ++ "\x27: " ++ err), store)
          | .ok (mergeTask, store) =>
            match mergeTask.UpdateDependsOn store dependency.Status [dependency.TaskId] with
            | .error err => (some ("updating tasks depending on merge task \x27" ++ mergeTask.Id ++
                "\x27 to also depend on previous merge task \x27" ++ dependency.TaskId ++ "\x27: " ++ err), store)
            | .ok store =>
              match RecomputeNumDependents store mergeTask with
              | .error err => (some ("recomputing number of dependencies for merge task \x27" ++ mergeTask.Id ++
                  "\x27: " ++ err), store)
              | .ok store => addMergeTaskDependenciesFrom rest (i + 1) mergeTask.Id store

/-- The linker `(*commitQueueJob).addMergeTaskDependencies`: walk the queue
from its head and make the merge task of every item depend on the merge task
of the item before it. -/
def addMergeTaskDependencies (cq : CommitQueue) (store : List Task) : Option String × List Task :=
  addMergeTaskDependenciesFrom cq.Queue 0 "" store

/-! ## The unstick monitor: collaborators -/

/-- Modelled from the spec: the constant `commitqueue.SourcePullRequest` is
declared in `model/commitqueue`, which is not among the sources; the source
kind of an item that comes from the review system. -/
def SourcePullRequest : String := "PR"

/-- Modelled from the spec: the constant `commitqueue.SourceDiff` is declared
in `model/commitqueue`, which is not among the sources; the source kind of an
item that comes from a direct diff. -/
def SourceDiff : String := "diff"

/-- Modelled from the spec: the constant `evergreen.EnqueueFailed` is
declared outside the sources; the conclusion "enqueue failed". -/
def EnqueueFailed : String := "failed to enqueue"

/-- Modelled from the spec: the constant `evergreen.MergeTestSucceeded` is
declared outside the sources; the conclusion "merge test succeeded". -/
def MergeTestSucceeded : String := "succeeded"

/-- Modelled from the spec: the constant `evergreen.MergeTestFailed` is
declared outside the sources; the conclusion "merge test failed". -/
def MergeTestFailed : String := "failed"

/-- Modelled from the spec: the constant `evergreen.PatchFailed` is declared
outside the sources; the terminal status of a patch that failed. -/
def PatchFailed : String := "failed"

/-- The state `message.GithubStateFailure` of a status posted to the review
system. -/
def GithubStateFailure : String := "failure"

/-- The state `message.GithubStatePending` of a status posted to the review
system. -/
def GithubStatePending : String := "pending"

/-- One change of a patch document (`patch.ModulePatch`): the module it
applies to, empty for the project itself, and the commit it is based on. -/
structure ModulePatch where
  ModuleName : String := ""
  Githash : String := ""
deriving DecidableEq, Repr

/-- The tasks selected on a build variant (`patch.VariantTasks`). -/
structure VariantTasks where
  Variant : String := ""
  Tasks : List String := []
deriving DecidableEq, Repr

/-- The fields of a patch document (`patch.Patch`) read or written by the
job.  `FinishTime` and `CreateTime` are in nanoseconds since the epoch, `0`
the zero time. -/
structure Patch where
  Id : String := ""
  Status : String := ""
  FinishTime : Nat := 0
  Project : String := ""
  Author : String := ""
  Alias : String := ""
  CreateTime : Nat := 0
  Githash : String := ""
  Patches : List ModulePatch := []
  BuildVariants : List String := []
  Tasks : List String := []
  VariantsTasks : List VariantTasks := []
  PatchedParserProject : String := ""
  PatchedProjectConfig : String := ""
  ProjectStorageMethod : String := ""
deriving DecidableEq, Repr

/-- A pull request as fetched from the review system
(`github.PullRequest`): its number, its author and its base reference. -/
structure PullRequest where
  Number : Int
  User : Option String := none
  BaseRef : Option String := none
deriving DecidableEq, Repr

/-- The commit queue settings of a project (`model.CommitQueueParams`). -/
structure CommitQueueParams where
  Enabled : Option Bool := none
deriving DecidableEq, Repr

/-- The coordinates of a project used by the job (`model.ProjectRef`). -/
structure ProjectRef where
  Identifier : String := ""
  Owner : String := ""
  Repo : String := ""
  Branch : String := ""
  CommitQueue : CommitQueueParams := {}
deriving DecidableEq, Repr

/-- The commit queue section of the admin settings
(`evergreen.CommitQueueConfig`). -/
structure CommitQueueConfig where
  MergeTaskDistro : String := ""
  CommitterName : String := ""
  CommitterEmail : String := ""
  BatchSize : Int := 0
deriving DecidableEq, Repr

/-- The admin settings (`evergreen.Settings`), of which the job reads the
commit queue section. -/
structure Settings where
  CommitQueue : CommitQueueConfig := {}
deriving DecidableEq, Repr

/-- The service flags (`evergreen.ServiceFlags`), of which the job reads the
switch of the commit queue. -/
structure ServiceFlags where
  CommitQueueDisabled : Bool := false
deriving DecidableEq, Repr

/-- A command of a task (`model.PluginCommandConf`); the map `Params` is the
list of its entries, and `CommandType` is the field `Type`. -/
structure PluginCommandConf where
  Command : String := ""
  CommandType : String := ""
  Params : List (String × String) := []
deriving DecidableEq, Repr

/-- A task or task group run on a build variant
(`model.BuildVariantTaskUnit`). -/
structure BuildVariantTaskUnit where
  Name : String := ""
  IsGroup : Bool := false
  CommitQueueMerge : Bool := false
deriving DecidableEq, Repr

/-- A build variant of a project (`model.BuildVariant`). -/
structure BuildVariant where
  Name : String := ""
  DisplayName : String := ""
  RunOn : List String := []
  Tasks : List BuildVariantTaskUnit := []
  Modules : List String := []
deriving DecidableEq, Repr

/-- A dependency of a task definition (`model.TaskUnitDependency`). -/
structure TaskUnitDependency where
  Name : String := ""
  Variant : String := ""
  Status : String := ""
deriving DecidableEq, Repr

/-- A task definition of a project (`model.ProjectTask`). -/
structure ProjectTask where
  Name : String := ""
  DependsOn : List TaskUnitDependency := []
  Commands : List PluginCommandConf := []
deriving DecidableEq, Repr

/-- A task group of a project (`model.TaskGroup`) with its setup and teardown
hooks. -/
structure TaskGroup where
  Name : String := ""
  Tasks : List String := []
  MaxHosts : Int := 0
  SetupGroup : List PluginCommandConf := []
  TeardownGroup : List PluginCommandConf := []
  SetupTask : List PluginCommandConf := []
  TeardownTask : List PluginCommandConf := []
deriving DecidableEq, Repr

/-- A module of a project (`model.Module`): an auxiliary repository and the
branch of it that the project tracks. -/
structure Module where
  Name : String := ""
  Repo : String := ""
  Branch : String := ""
deriving DecidableEq, Repr

/-- The in-memory definition of a project (`model.Project`). -/
structure Project where
  Identifier : String := ""
  BuildVariants : List BuildVariant := []
  Tasks : List ProjectTask := []
  TaskGroups : List TaskGroup := []
  Modules : List Module := []
deriving DecidableEq, Repr

/-- The intermediate form of a project configuration
(`model.ParserProject`), stored under the id of its patch. -/
structure ParserProject where
  Id : String := ""
  CreateTime : Nat := 0
  BuildVariants : List String := []
  Tasks : List String := []
deriving DecidableEq, Repr

/-- The second result of `model.GetPatchedProject` (`model.PatchConfig`). -/
structure PatchConfig where
  PatchedParserProject : ParserProject := {}
  PatchedProjectConfig : String := ""
deriving DecidableEq, Repr

/-- The commit at the tip of a branch (`github.RepositoryCommit`): its hash,
a pointer that may be nil. -/
structure RepositoryCommit where
  SHA : Option String := none
deriving DecidableEq, Repr

/-- A branch as reported by the review system (`github.Branch`): its tip
commit, a pointer that may be nil. -/
structure Branch where
  Commit : Option RepositoryCommit := none
deriving DecidableEq, Repr

/-- A finalized version (`model.Version`). -/
structure Version where
  Id : String := ""
deriving DecidableEq, Repr

/-- The level of a validation finding (`validator.ValidationErrorLevel`). -/
inductive ValidationErrorLevel where
  | Error
  | Warning
  | Notice
deriving DecidableEq, Repr

/-- A finding of the project validator (`validator.ValidationError`). -/
structure ValidationError where
  Level : ValidationErrorLevel := ValidationErrorLevel.Error
  Message : String := ""
deriving DecidableEq, Repr

/-- The notification preferences of a user
(`user.NotificationPreferences`). -/
structure NotificationPreferences where
  CommitQueue : String := ""
  CommitQueueID : String := ""
deriving DecidableEq, Repr

/-- The settings of a user (`user.UserSettings`). -/
structure UserSettings where
  Notifications : NotificationPreferences := {}
deriving DecidableEq, Repr

/-- A user document (`user.DBUser`). -/
structure DBUser where
  Id : String := ""
  EmailAddress : String := ""
  Settings : UserSettings := {}
deriving DecidableEq, Repr

/-- The receiver of a notification (`event.Subscriber`); `SubscriberType` is
the field `Type`. -/
structure Subscriber where
  SubscriberType : String := ""
  Target : String := ""
deriving DecidableEq, Repr

/-- A subscription to notifications (`event.Subscription`). -/
structure Subscription where
  ID : String := ""
  ResourceType : String := ""
  Subscriber : Subscriber := {}
  Owner : String := ""
deriving DecidableEq, Repr

/-- An entry of the event log written by the job (`event.LogCommitQueue...`). -/
inductive Event where
  | CommitQueueConcludeTest (version : String) (status : String)
  | CommitQueueEnqueueFailed (issue : String) (err : Option String)
  | CommitQueueStartTest (version : String)
deriving DecidableEq, Repr

/-- A status handed to the review system by
`thirdparty.SendCommitQueueGithubStatus`. -/
structure GithubStatus where
  pr : Option PullRequest
  state : String
  description : String
  versionID : String
deriving DecidableEq, Repr

/-- A call of the job that writes to a collaborator, or the start of one of
its stages, with the argument handed over. -/
inductive Call where
  | processGitHubPRItem (issue : String)
  | processCLIPatchItem (issue : String)
  | UpdateGithashProjectAndTasks (patchDoc : Patch)
  | ParserProjectUpsertOneWithS3Fallback (pp : ParserProject)
  | FinalizePatch (patchDoc : Patch)
  | UpdateVersion (item : CommitQueueItem)
  | addMergeTaskDependencies (queue : List CommitQueueItem)
deriving DecidableEq, Repr

/-- What a run of the job can observe and change: the queue `cq`, the errors
accumulated on the job with `AddError`, the event log, the statuses handed to
the review system, and the issues on which `cq.Remove` has been called, each
in the order of the calls; the task collection, the user collection, the
subscriptions created, and the calls of the kinds of `Call`, in order;
`QueueID` is the field of that name of the job, the id of its queue. -/
structure JobState where
  cq : CommitQueue
  errors : List String := []
  events : List Event := []
  statuses : List GithubStatus := []
  removeCalls : List String := []
  tasks : List Task := []
  users : List DBUser := []
  subscriptions : List Subscription := []
  calls : List Call := []
  QueueID : String := ""
deriving DecidableEq, Repr

/-- The answers of the collaborators that the job only reads: the patch
collection, the task collection and the review system.  Each field stands
for the function of the same name that is called in `commit_queue.go` and
declared outside the sources; an `Except.error` is the Go error result.
`FindOne` and `FindOneId` are those of the package `patch`, `FindQueueById`
is `commitqueue.FindOneId`, `Marshal` is `yaml.Marshal`, `Settings` is
`j.env.Settings()` and `Now` is `time.Now()`.  For a call that writes,
`UpdateVersion`, `UpdateSettings` and `UpdateGithashProjectAndTasks` give the
error of the write, `FinalizePatch` gives the version with the tasks created
for it, and `BuildProjectTVPairs` gives the build variants, the tasks and the
variant tasks that it stores in the patch document. -/
structure Env where
  IsValidId : String → Bool
  FindOne : String → Except String (Option Patch)
  FindMergeTaskForVersion : String → Except String (Option Task)
  FindAbortingAndResettingDependencies : Task → Except String (List Task)
  GetGithubPullRequest : String → String → String → Int → Except String PullRequest
  ValidatePR : PullRequest → Option String
  SendCommitQueueGithubStatus : Option PullRequest → String → String → String → Option String
  GetServiceFlags : Except String ServiceFlags := .ok {}
  FindMergedProjectRef : String → Except String (Option ProjectRef) := fun _ => .ok none
  FindQueueById : String → Except String (Option CommitQueue) := fun _ => .ok none
  GetConfig : Except String Settings := .ok {}
  GetGithubOauthToken : Settings → Except String String := fun _ => .ok ""
  Now : Nat := 0
  FindOneId : String → Except String (Option Patch) := fun _ => .ok none
  GetPatchedProject : Settings → Patch → String → Except String (Project × PatchConfig) :=
    fun _ _ _ => .ok ({}, {})
  FinalizePatch : Patch → String → String → Except String (Version × List Task) :=
    fun _ _ _ => .ok ({}, [])
  UpdateVersion : CommitQueue → CommitQueueItem → Option String := fun _ _ => none
  GetModulesFromPR : String → List ItemModule → Option Project → Except String (List PullRequest) :=
    fun _ _ _ => .ok []
  GetBranchEvent : String → String → String → String → Except String (Option Branch) :=
    fun _ _ _ _ => .ok none
  GetModuleByName : Project → String → Except String Module := fun _ _ => .ok {}
  ParseGitUrl : String → Except String (String × String) := fun _ => .ok ("", "")
  BuildProjectTVPairs : Project → Patch → String → List String × List String × List VariantTasks :=
    fun _ _ _ => ([], [], [])
  CheckProjectErrors : Project → Bool → List ValidationError := fun _ _ => []
  CheckProjectSettings : Project → ProjectRef → Bool → List ValidationError := fun _ _ _ => []
  CheckPatchedProjectConfigErrors : String → List ValidationError := fun _ => []
  Marshal : Project → Except String String := fun _ => .ok ""
  UpdateGithashProjectAndTasks : Patch → Option String := fun _ => none
  ParserProjectUpsertOneWithS3Fallback : Settings → String → ParserProject → Except String String :=
    fun _ method _ => .ok method
  CreateOrUpdateGeneralSubscription : String → String → Subscriber → String → Except String Subscription :=
    fun _ _ _ _ => .ok {}
  UpdateSettings : DBUser → UserSettings → Option String := fun _ _ => none
  Settings : Settings := {}

/-- Modelled from the spec: `(*CommitQueue).Next` is declared in
`model/commitqueue`, which is not among the sources.  "`Next()` → head item +
presence flag". -/
def CommitQueue.Next (q : CommitQueue) : CommitQueueItem × Bool :=
  match q.Queue with
  | [] => ({ Issue := "" }, false)
  | item :: _ => (item, true)

/-- Modelled from the spec: `(*CommitQueue).Remove` is declared in
`model/commitqueue`, which is not among the sources.  "`Remove(issue)` →
atomically delete by issue id, shifting remaining items"; "`Remove` on an
unknown issue fails with a not-found error and leaves the queue unchanged."
The result is the removed item and the queue without it. -/
def CommitQueue.Remove (q : CommitQueue) (issue : String) :
    Except String (CommitQueueItem × CommitQueue) :=
  match q.Queue.find? (fun item => item.Issue == issue) with
  | none => .error ("item " ++ issue ++ " not found in the queue")
  | some item => .ok (item, { q with Queue := q.Queue.eraseP (fun item => item.Issue == issue) })

/-- Modelled from the spec: `(*task.Task).Blocked` is declared in
`model/task`, which is not among the sources.  "The merge task is blocked by
one or more unattainable dependencies." -/
def Task.Blocked (t : Task) : Bool :=
  t.DependsOn.any (fun d => d.Unattainable)

/-- The function `utility.IsZeroTime`: the time is the zero value or the
epoch, both of which are the time `0` here. -/
def IsZeroTime (t : Nat) : Bool := t == 0

/-- The function `strconv.Atoi` of the Go library: an optional sign and at
least one decimal digit, the value within the range of a 64-bit `int`. -/
def Atoi (s : String) : Option Int :=
  let digits : List Char := match s.toList with
    | '-' :: r => r
    | '+' :: r => r
    | r => r
  if digits.isEmpty || !digits.all Char.isDigit then none
  else
    let n : Nat := digits.foldl (fun acc c => 10 * acc + (c.toNat - 48)) 0
    let v : Int := if s.toList.head? = some '-' then -(n : Int) else (n : Int)
    if v < -(2 : Int) ^ 63 ∨ (2 : Int) ^ 63 - 1 < v then none else some v

/-! ## The unstick monitor -/

/-- The method `AddError` of the job: a nil error adds nothing. -/
def AddError (s : JobState) (err : Option String) : JobState :=
  match err with
  | none => s
  | some e => { s with errors := s.errors ++ [e] }

/-- The method `(*commitQueueJob).logError`: nothing for a nil error,
otherwise the wrapped error is added to the job (and logged). -/
def logError (s : JobState) (err : Option String) (msg : String) : JobState :=
  match err with
  | none => s
  | some e => AddError s (some (msg ++ ": " ++ e))

/-- The method `(*commitQueueJob).dequeue`: remove the item from the queue by
its issue and log the error of the removal, if any. -/
def dequeue (s : JobState) (item : CommitQueueItem) : JobState :=
  let s := { s with removeCalls := s.removeCalls ++ [item.Issue] }
  match s.cq.Remove item.Issue with
  | .ok (_, cq) => logError { s with cq := cq } none ("error dequeuing item \x27" ++ item.Issue ++ "\x27")
  | .error err => logError s (some err) ("error dequeuing item \x27" ++ item.Issue ++ "\x27")

/-- The function `event.LogCommitQueueConcludeTest`: record the conclusion of
the version in the event log. -/
def LogCommitQueueConcludeTest (s : JobState) (version status : String) : JobState :=
  { s with events := s.events ++ [Event.CommitQueueConcludeTest version status] }

/-- The function `thirdparty.SendCommitQueueGithubStatus`: hand the status to
the review system; the result is the error of the collaborator, if any. -/
def SendCommitQueueGithubStatus (env : Env) (s : JobState) (pr : Option PullRequest)
    (state description versionID : String) : JobState × Option String :=
  ({ s with statuses := s.statuses ++ [{ pr := pr, state := state, description := description, versionID := versionID }] },
   env.SendCommitQueueGithubStatus pr state description versionID)

/-- The function `checkPR`: the pull request, whether the item is to be
dequeued, and the error. -/
def checkPR (env : Env) (githubToken issue owner repo : String) :
    Option PullRequest × Bool × Option String :=
  match Atoi issue with
  | none => (none, true, some ("parsing issue \x27" ++ issue ++ "\x27 as int"))
  | some issueInt =>
    match env.GetGithubPullRequest githubToken owner repo issueInt with
    | .error err => (none, false, some ("getting PR from GitHub: " ++ err))
    | .ok pr =>
      match env.ValidatePR pr with
      | some err => (none, true, some ("GitHub returned an incomplete PR: " ++ err))
      | none => (some pr, false, none)

/-- The checks of `TryUnstick` on the merge task of the head (the block
`if mergeTask != nil`): a merge task that cannot be dispatched, then a merge
task that is blocked while none of its dependencies is resetting. -/
def unstickMergeTask (env : Env) (s : JobState) (nextItem : CommitQueueItem)
    (mergeTask : Task) : JobState :=
  let s :=
    if !mergeTask.Activated || mergeTask.Priority < 0 then
      LogCommitQueueConcludeTest (dequeue s nextItem) nextItem.Version EnqueueFailed
    else s
  if mergeTask.Blocked then
    match env.FindAbortingAndResettingDependencies mergeTask with
    | .ok [] => LogCommitQueueConcludeTest (dequeue s nextItem) nextItem.Version EnqueueFailed
    | _ => s
  else s

/-- The method `(*commitQueueJob).TryUnstick`. -/
def TryUnstick (env : Env) (projectRef : ProjectRef) (githubToken : String)
    (s : JobState) : JobState :=
  match s.cq.Next with
  | (_, false) => s
  | (nextItem, true) =>
    if nextItem.Version = "" then s
    else if !env.IsValidId nextItem.Version then
      logError (dequeue s nextItem)
        (some ("patch ID \x27" ++ nextItem.Issue ++ "\x27 is not an object id"))
        "patch was removed from the commit queue"
    else
      match env.FindOne nextItem.Version with
      | .error err =>
        AddError s (some ("finding patch \x27" ++ nextItem.Version ++ "\x27 for commit queue \x27" ++
          s.QueueID ++ "\x27: " ++ err))
      | .ok none =>
        let s := logError (dequeue s nextItem)
          (some "patch at the top of the commit queue is nil") "patch was removed from the queue"
        if nextItem.Source = SourcePullRequest then
          match checkPR env githubToken nextItem.Issue projectRef.Owner projectRef.Repo with
          | (_, _, some err) => AddError s (some err)
          | (pr, _, none) =>
            let r := SendCommitQueueGithubStatus env s pr GithubStateFailure
              "commit queue entry was stuck with no patch" ""
            AddError r.1 r.2
        else s
      | .ok (some patchDoc) =>
        let found : Option Task × JobState :=
          match env.FindMergeTaskForVersion nextItem.Version with
          | .error err =>
            (none, AddError s (some ("finding merge task for version \x27" ++ nextItem.Version ++ "\x27: " ++ err)))
          | .ok mergeTask => (mergeTask, s)
        let s :=
          match found.1 with
          | some mergeTask => unstickMergeTask env found.2 nextItem mergeTask
          | none => found.2
        if !IsZeroTime patchDoc.FinishTime then
          let status := if patchDoc.Status = PatchFailed then MergeTestFailed else MergeTestSucceeded
          LogCommitQueueConcludeTest (dequeue s nextItem) nextItem.Version status
        else s

/-! ## The item processors: collaborators -/

/-- Modelled from the spec: the constant `evergreen.MergeTaskVariant` is
declared outside the sources; the name of the merge build variant. -/
def MergeTaskVariant : String := "commit-queue-merge"

/-- Modelled from the spec: the constant `evergreen.MergeTaskName` is declared
outside the sources; the name of the merge task. -/
def MergeTaskName : String := "merge-patch"

/-- Modelled from the spec: the constant `evergreen.MergeTaskGroup` is
declared outside the sources; the name of the task group of the merge task. -/
def MergeTaskGroup : String := "merge-task-group"

/-- Modelled from the spec: the constant `evergreen.MergeTestRequester` is
declared outside the sources; the requester of a version made for the commit
queue. -/
def MergeTestRequester : String := "merge_test"

/-- Modelled from the spec: the constant `evergreen.CommandTypeSetup` is
declared outside the sources; the type of a setup command. -/
def CommandTypeSetup : String := "setup"

/-- Modelled from the spec: the constant `evergreen.ProjectStorageMethodDB`
is declared outside the sources; parser projects stored in the database. -/
def ProjectStorageMethodDB : String := "db"

/-- Modelled from the spec: the constant `user.PreferenceEmail` is declared
outside the sources; notification by e-mail. -/
def PreferenceEmail : String := "email"

/-- Modelled from the spec: the constant
`event.GeneralSubscriptionCommitQueue` is declared outside the sources; the
resource type of a commit queue subscription. -/
def GeneralSubscriptionCommitQueue : String := "commit-queue"

/-- Modelled from the spec: the constant `event.EmailSubscriberType` is
declared outside the sources; a subscriber reached by e-mail. -/
def EmailSubscriberType : String := "email"

/-- The value of a failed nil dereference: the run-time panic of Go. -/
def nilPointerDereference : String :=
  "panic: runtime error: invalid memory address or nil pointer dereference"

/-- Modelled from the spec: `(*CommitQueue).Processing` is declared in
`model/commitqueue`, which is not among the sources.  "If the head is still
processing (non-empty `Version`, not yet concluded), stop". -/
def CommitQueue.Processing (q : CommitQueue) : Bool :=
  match q.Queue with
  | [] => false
  | item :: _ => item.Version != ""

/-- Modelled from the spec: `(*CommitQueue).NextUnprocessed` is declared in
`model/commitqueue`, which is not among the sources.  "`NextUnprocessed(n)` →
up to `n` items with empty `Version`, in original order". -/
def CommitQueue.NextUnprocessed (q : CommitQueue) (n : Int) : List CommitQueueItem :=
  (q.Queue.filter (fun item => item.Version == "")).take n.toNat

/-- Modelled from the spec: `(*CommitQueue).UpdateVersion` is declared in
`model/commitqueue`, which is not among the sources.  "`UpdateVersion(item)`
→ atomically set `Version`/`ProcessingStartTime` on the matching stored
item". -/
def CommitQueue.UpdateVersion (q : CommitQueue) (item : CommitQueueItem) : CommitQueue :=
  { q with Queue := q.Queue.map (fun stored =>
      if stored.Issue = item.Issue then
        { stored with Version := item.Version, ProcessingStartTime := item.ProcessingStartTime }
      else stored) }

/-- Modelled from the spec: `(*CommitQueueParams).IsEnabled` is declared in
`model`, which is not among the sources; the project "has commit-queue
processing" enabled, a nil flag counting as disabled. -/
def CommitQueueParams.IsEnabled (c : CommitQueueParams) : Bool :=
  c.Enabled.getD false

/-- Modelled from the spec: `ValidationErrors.AtLevel` is declared in
`validator`, which is not among the sources; the findings of the given
level. -/
def AtLevel (errs : List ValidationError) (level : ValidationErrorLevel) : List ValidationError :=
  errs.filter (fun e => e.Level == level)

/-- Modelled from the spec: `user.FindOneById` is declared in `model/user`,
which is not among the sources; the user document with the given id, if
any. -/
def FindOneById (users : List DBUser) (id : String) : Except String (Option DBUser) :=
  .ok (users.find? (fun u => u.Id == id))

/-- Modelled from the spec: `(*DBUser).Email` is declared in `model/user`,
which is not among the sources; the e-mail address of the user. -/
def DBUser.Email (u : DBUser) : String := u.EmailAddress

/-- Modelled from the spec: `event.NewEmailSubscriber` is declared in
`model/event`, which is not among the sources; the subscriber with the given
address. -/
def NewEmailSubscriber (address : String) : Subscriber :=
  { SubscriberType := EmailSubscriberType, Target := address }

/-- Modelled from the spec: `(*ParserProject).Init` is declared in `model`,
which is not among the sources; it sets the id and the creation time. -/
def ParserProject.Init (pp : ParserProject) (id : String) (createTime : Nat) : ParserProject :=
  { pp with Id := id, CreateTime := createTime }

/-- Append a call to the record of calls. -/
def JobState.record (s : JobState) (c : Call) : JobState :=
  { s with calls := s.calls ++ [c] }

/-- The function `event.LogCommitQueueEnqueueFailed`: record in the event log
that the issue could not be enqueued for testing, with the error given. -/
def LogCommitQueueEnqueueFailed (s : JobState) (issue : String) (err : Option String) : JobState :=
  { s with events := s.events ++ [Event.CommitQueueEnqueueFailed issue err] }

/-- The function `event.LogCommitQueueStartTestEvent`: record in the event
log that the test of the version has started. -/
def LogCommitQueueStartTestEvent (s : JobState) (version : String) : JobState :=
  { s with events := s.events ++ [Event.CommitQueueStartTest version] }

/-- The function `model.FinalizePatch`: the call is recorded, and the version
comes with its tasks in the task collection. -/
def FinalizePatch (env : Env) (s : JobState) (patchDoc : Patch) (requester githubToken : String) :
    JobState × Except String Version :=
  let s := s.record (Call.FinalizePatch patchDoc)
  match env.FinalizePatch patchDoc requester githubToken with
  | .error err => (s, .error err)
  | .ok (v, created) => ({ s with tasks := s.tasks ++ created }, .ok v)

/-- The call `cq.UpdateVersion(nextItem)`: the call is recorded, and unless
the write fails the stored item has the version and the start time. -/
def UpdateVersion (env : Env) (s : JobState) (item : CommitQueueItem) : JobState × Option String :=
  let s := s.record (Call.UpdateVersion item)
  match env.UpdateVersion s.cq item with
  | some err => (s, some err)
  | none => ({ s with cq := s.cq.UpdateVersion item }, none)

/-! ## Refreshing a patch against the tip of its branch -/

/-- The function `validateBranch`. -/
def validateBranch (branch : Option Branch) : Option String :=
  match branch with
  | none => some "branch is nil"
  | some b =>
    match b.Commit with
    | none => some "commit is nil"
    | some c =>
      match c.SHA with
      | none => some "SHA is nil"
      | some _ => none

/-- The expression `branch.Commit.SHA` with its two dereferences: the pointer
to the hash, or `none` for the panic of a nil dereference of `branch` or of
`branch.Commit`. -/
def branchCommitSHA (branch : Option Branch) : Option (Option String) :=
  match branch with
  | none => none
  | some b =>
    match b.Commit with
    | none => none
    | some c => some c.SHA

/-- The function `utility.FromStringPtr`: the empty string for nil. -/
def FromStringPtr (p : Option String) : String := p.getD ""

/-- The function `getBranchCommitHash`. -/
def getBranchCommitHash (env : Env) (repo moduleBranch token : String) : Except String String :=
  match env.ParseGitUrl repo with
  | .error err => .error ("repo is misconfigured (malformed URL): " ++ err)
  | .ok (owner, repo) =>
    match env.GetBranchEvent token owner repo moduleBranch with
    | .error err => .error ("getting branch: " ++ err)
    | .ok branch =>
      match validateBranch branch with
      | some err => .error ("GitHub returned invalid branch: " ++ err)
      | none =>
        match branchCommitSHA branch with
        | none => .error nilPointerDereference
        | some sha => .ok (FromStringPtr sha)

/-- The loop `for i, mod := range patchDoc.Patches` of `updatePatch`, with
the variable `sha` of the function as its state: the entries after the loop,
and the error that ended it, if any. -/
def updatePatchModules (env : Env) (project : Project) (githubToken : String) :
    List ModulePatch → String → List ModulePatch × Option String
  | [], _ => ([], none)
  | mod :: rest, sha =>
    if mod.ModuleName = "" then
      let r := updatePatchModules env project githubToken rest sha
      ({ mod with Githash := sha } :: r.1, r.2)
    else
      match env.GetModuleByName project mod.ModuleName with
      | .error err => (mod :: rest, some ("getting module \x27" ++ mod.ModuleName ++ "\x27: " ++ err))
      | .ok projectModule =>
        match getBranchCommitHash env projectModule.Repo projectModule.Branch githubToken with
        | .error err =>
          (mod :: rest, some ("getting commit hash for branch \x27" ++ projectModule.Branch ++ "\x27: " ++ err))
        | .ok sha =>
          let r := updatePatchModules env project githubToken rest sha
          ({ mod with Githash := sha } :: r.1, r.2)

/-- The function `updatePatch`: the patch document as the call leaves it, and
the project with its parser project, or the error. -/
def updatePatch (env : Env) (settings : Settings) (githubToken : String) (projectRef : ProjectRef)
    (patchDoc : Patch) : Patch × Except String (Project × ParserProject) :=
  match env.GetBranchEvent githubToken projectRef.Owner projectRef.Repo projectRef.Branch with
  | .error err => (patchDoc, .error ("getting branch: " ++ err))
  | .ok branch =>
    match validateBranch branch with
    | some err => (patchDoc, .error ("GitHub returned an invalid branch: " ++ err))
    | none =>
      match (branchCommitSHA branch).join with
      | none => (patchDoc, .error nilPointerDereference)
      | some sha =>
        let patchDoc := { patchDoc with
          Githash := sha, ProjectStorageMethod := "", PatchedParserProject := "",
          PatchedProjectConfig := "" }
        match env.GetPatchedProject settings patchDoc githubToken with
        | .error err => (patchDoc, .error ("getting updated project config: " ++ err))
        | .ok (project, patchConfig) =>
          let patchDoc := { patchDoc with PatchedProjectConfig := patchConfig.PatchedProjectConfig }
          match updatePatchModules env project githubToken patchDoc.Patches sha with
          | (patches, some err) => ({ patchDoc with Patches := patches }, .error err)
          | (patches, none) =>
            let patchDoc := { patchDoc with
              Patches := patches, BuildVariants := [], VariantsTasks := [], Tasks := [] }
            let selection := env.BuildProjectTVPairs project patchDoc patchDoc.Alias
            ({ patchDoc with
                BuildVariants := selection.1, Tasks := selection.2.1,
                VariantsTasks := selection.2.2 },
             .ok (project, patchConfig.PatchedParserProject))

/-! ## The merge task -/

/-- The function `getMergeTaskCommands`: the commands and the error. -/
def getMergeTaskCommands (settings : Settings) (source : String) :
    List PluginCommandConf × Option String :=
  if source = SourceDiff then
    ([{ Command := "git.get_project", CommandType := CommandTypeSetup,
        Params := [("directory", "src"),
                   ("committer_name", settings.CommitQueue.CommitterName),
                   ("committer_email", settings.CommitQueue.CommitterEmail)] },
      { Command := "git.push", Params := [("directory", "src")] }], none)
  else if source = SourcePullRequest then
    ([{ Command := "git.merge_pr" }], none)
  else ([], some ("unknown commit queue source \x27" ++ source ++ "\x27"))

/-- The function `AddMergeTaskAndVariant`: the patch document and the project
as the call leaves them, and the error. -/
def AddMergeTaskAndVariant (env : Env) (patchDoc : Patch) (project : Project)
    (projectRef : ProjectRef) (source : String) : Patch × Project × Option String :=
  match env.GetConfig with
  | .error err => (patchDoc, project, some ("retrieving admin settings: " ++ err))
  | .ok settings =>
    let modules : List String :=
      (patchDoc.Patches.filter (fun m => m.ModuleName != "")).map (fun m => m.ModuleName)
    let mergeBuildVariant : BuildVariant :=
      { Name := MergeTaskVariant, DisplayName := "Commit Queue Merge",
        RunOn := [settings.CommitQueue.MergeTaskDistro],
        Tasks := [{ Name := MergeTaskGroup, IsGroup := true, CommitQueueMerge := true }],
        Modules := modules }
    let dependencies : List TaskUnitDependency :=
      patchDoc.VariantsTasks.flatMap (fun vt =>
        vt.Tasks.map (fun t => { Name := t, Variant := vt.Variant, Status := "" }))
    match getMergeTaskCommands settings source with
    | (_, some err) => (patchDoc, project, some ("getting merge task commands: " ++ err))
    | (mergeTaskCmds, none) =>
      let mergeTask : ProjectTask :=
        { Name := MergeTaskName, DependsOn := dependencies, Commands := mergeTaskCmds }
      let mergeTaskGroup : TaskGroup :=
        { Name := MergeTaskGroup, Tasks := [MergeTaskName], MaxHosts := 1 }
      let project := { project with
        BuildVariants := project.BuildVariants ++ [mergeBuildVariant],
        Tasks := project.Tasks ++ [mergeTask],
        TaskGroups := project.TaskGroups ++ [mergeTaskGroup] }
      let validationErrors :=
        env.CheckProjectErrors project true ++ env.CheckProjectSettings project projectRef false ++
          env.CheckPatchedProjectConfigErrors patchDoc.PatchedProjectConfig
      let caught := AtLevel validationErrors ValidationErrorLevel.Error
      if !caught.isEmpty then
        (patchDoc, project,
          some ("validating project: " ++ String.intercalate "\n" (caught.map (fun e => e.Message))))
      else
        match env.Marshal project with
        | .error err => (patchDoc, project, some ("marshalling remote config file: " ++ err))
        | .ok yamlBytes =>
          ({ patchDoc with
              PatchedParserProject := yamlBytes,
              BuildVariants := patchDoc.BuildVariants ++ [MergeTaskVariant],
              Tasks := patchDoc.Tasks ++ [MergeTaskName],
              VariantsTasks := patchDoc.VariantsTasks ++
                [{ Variant := MergeTaskVariant, Tasks := [MergeTaskName] }] },
           project, none)

/-! ## The default notification of a user -/

/-- The function `setDefaultNotification` on the user collection of the
state. -/
def setDefaultNotification (env : Env) (s : JobState) (username : String) : JobState × Option String :=
  match FindOneById s.users username with
  | .error err => (s, some ("finding user \x27" ++ username ++ "\x27: " ++ err))
  | .ok none => (s, some ("user \x27" ++ username ++ "\x27 not found"))
  | .ok (some u) =>
    if u.Settings.Notifications.CommitQueue = "" then
      let commitQueueSubscriber := NewEmailSubscriber u.Email
      match env.CreateOrUpdateGeneralSubscription GeneralSubscriptionCommitQueue ""
          commitQueueSubscriber u.Id with
      | .error err => (s, some ("creating default email subscription: " ++ err))
      | .ok commitQueueSubscription =>
        let s := { s with subscriptions := s.subscriptions ++ [commitQueueSubscription] }
        let settings : UserSettings :=
          { u.Settings with Notifications :=
              { u.Settings.Notifications with
                CommitQueue := PreferenceEmail, CommitQueueID := commitQueueSubscription.ID } }
        match env.UpdateSettings u settings with
        | some err => (s, some err)
        | none =>
          ({ s with users := s.users.map (fun stored =>
              if stored.Id = u.Id then { stored with Settings := settings } else stored) }, none)
    else (s, none)

/-! ## The item processors -/

/-- The method `(*commitQueueJob).processGitHubPRItem`. -/
def processGitHubPRItem (env : Env) (projectRef : ProjectRef) (githubToken : String)
    (s : JobState) (nextItem : CommitQueueItem) : JobState :=
  let s := s.record (Call.processGitHubPRItem nextItem.Issue)
  match checkPR env githubToken nextItem.Issue projectRef.Owner projectRef.Repo with
  | (pr, dequeueItem, some err) =>
    let s := logError s (some err) "PR not valid for merge"
    if dequeueItem then
      let s :=
        match pr with
        | some _ =>
          let r := SendCommitQueueGithubStatus env s pr GithubStateFailure "PR not valid for merge" ""
          AddError r.1 r.2
        | none => s
      dequeue s nextItem
    else s
  | (pr, _, none) =>
    match env.FindOneId nextItem.PatchId with
    | .error err =>
      let s := AddError s (some ("finding patch \x27" ++ nextItem.Version ++ "\x27: " ++ err))
      let r := SendCommitQueueGithubStatus env s pr GithubStateFailure "no patch found" ""
      dequeue (AddError r.1 r.2) nextItem
    | .ok none =>
      let s := AddError s (some ("patch \x27" ++ nextItem.Version ++ "\x27 not found"))
      let r := SendCommitQueueGithubStatus env s pr GithubStateFailure "no patch found" ""
      dequeue (AddError r.1 r.2) nextItem
    | .ok (some patchDoc) =>
      let got : Option Project × JobState :=
        match env.GetPatchedProject env.Settings patchDoc githubToken with
        | .error err =>
          let s := dequeue (logError s (some err) "problem getting patched project") nextItem
          let r := SendCommitQueueGithubStatus env s pr GithubStateFailure
            "can\x27t get project config" ""
          (none, AddError r.1 r.2)
        | .ok (projectConfig, _) => (some projectConfig, s)
      let finalized := FinalizePatch env got.2 patchDoc MergeTestRequester githubToken
      match finalized.2 with
      | .error err =>
        let s := dequeue (logError finalized.1 (some err) "can\x27t finalize patch") nextItem
        let r := SendCommitQueueGithubStatus env s pr GithubStateFailure "can\x27t finalize patch" ""
        AddError r.1 r.2
      | .ok v =>
        let nextItem := { nextItem with Version := v.Id, ProcessingStartTime := env.Now }
        let updated := UpdateVersion env finalized.1 nextItem
        match updated.2 with
        | some err =>
          let s := dequeue (logError updated.1 (some err) "problem saving version") nextItem
          let r := SendCommitQueueGithubStatus env s pr GithubStateFailure
            "can\x27t update commit queue item" ""
          AddError r.1 r.2
        | none =>
          let r := SendCommitQueueGithubStatus env updated.1 pr GithubStatePending
            "preparing to test merge" v.Id
          let s := AddError r.1 r.2
          match env.GetModulesFromPR githubToken nextItem.Modules got.1 with
          | .error err =>
            let s := logError s (some err) "can\x27t get modules"
            let r := SendCommitQueueGithubStatus env s pr GithubStateFailure "can\x27t get modules" ""
            dequeue (AddError r.1 r.2) nextItem
          | .ok modulePRs =>
            let s := modulePRs.foldl (fun s modulePR =>
              let r := SendCommitQueueGithubStatus env s (some modulePR) GithubStatePending
                "preparing to test merge" patchDoc.Id
              AddError r.1 r.2) s
            LogCommitQueueStartTestEvent s v.Id

/-- The steps of `processCLIPatchItem` on every failure but that of saving
the version: log the error, record that the issue could not be enqueued, and
dequeue the item. -/
def failCLIPatchItem (s : JobState) (nextItem : CommitQueueItem) (err : Option String)
    (msg : String) : JobState :=
  dequeue (LogCommitQueueEnqueueFailed (logError s err msg) nextItem.Issue err) nextItem

/-- The method `(*commitQueueJob).processCLIPatchItem`. -/
def processCLIPatchItem (env : Env) (projectRef : ProjectRef) (githubToken : String)
    (s : JobState) (nextItem : CommitQueueItem) : JobState :=
  let s := s.record (Call.processCLIPatchItem nextItem.Issue)
  match env.FindOneId nextItem.Issue with
  | .error err => failCLIPatchItem s nextItem (some err) "can\x27t find patch"
  | .ok none => failCLIPatchItem s nextItem none "patch not found"
  | .ok (some patchDoc) =>
    match updatePatch env env.Settings githubToken projectRef patchDoc with
    | (_, .error err) => failCLIPatchItem s nextItem (some err) "can\x27t update patch"
    | (patchDoc, .ok (project, pp)) =>
      match AddMergeTaskAndVariant env patchDoc project projectRef SourceDiff with
      | (_, _, some err) =>
        failCLIPatchItem s nextItem (some err) "can\x27t set patch project config"
      | (patchDoc, _, none) =>
        let s := s.record (Call.UpdateGithashProjectAndTasks patchDoc)
        match env.UpdateGithashProjectAndTasks patchDoc with
        | some err => failCLIPatchItem s nextItem (some err) "can\x27t update patch in db"
        | none =>
          let pp := pp.Init patchDoc.Id patchDoc.CreateTime
          let s := s.record (Call.ParserProjectUpsertOneWithS3Fallback pp)
          match env.ParserProjectUpsertOneWithS3Fallback env.Settings ProjectStorageMethodDB pp with
          | .error err =>
            failCLIPatchItem s nextItem (some err) "cannot upsert parser project for patch"
          | .ok ppStorageMethod =>
            let patchDoc := { patchDoc with ProjectStorageMethod := ppStorageMethod }
            let finalized := FinalizePatch env s patchDoc MergeTestRequester githubToken
            match finalized.2 with
            | .error err =>
              failCLIPatchItem finalized.1 nextItem (some err) "can\x27t finalize patch"
            | .ok v =>
              let nextItem := { nextItem with Version := v.Id, ProcessingStartTime := env.Now }
              let updated := UpdateVersion env finalized.1 nextItem
              match updated.2 with
              | some err =>
                dequeue (logError updated.1 (some err) "problem saving version") nextItem
              | none =>
                let notified := setDefaultNotification env updated.1 patchDoc.Author
                let s := logError notified.1 notified.2 "failed to set default notification"
                LogCommitQueueStartTestEvent s v.Id

/-! ## The scheduler -/

/-- The statement `j.AddError(j.addMergeTaskDependencies(*cq))` of `Run`: the
linker runs over the queue on the task collection of the state, and its error
is added to the job. -/
def linkMergeTasks (s : JobState) : JobState :=
  let r := addMergeTaskDependencies s.cq s.tasks
  AddError { s with tasks := r.2, calls := s.calls ++ [Call.addMergeTaskDependencies s.cq.Queue] } r.1

/-- The loop `for _, nextItem := range nextItems` of `Run` with the statement
after it: an item that has a version ends the run after a call of the linker;
the others go to the processor of their source, and after the last one the
linker is called. -/
def processBatch (env : Env) (projectRef : ProjectRef) (githubToken : String) :
    List CommitQueueItem → JobState → JobState
  | [], s => linkMergeTasks s
  | nextItem :: rest, s =>
    if nextItem.Version ≠ "" then linkMergeTasks s
    else if nextItem.Source = SourcePullRequest then
      processBatch env projectRef githubToken rest
        (processGitHubPRItem env projectRef githubToken s nextItem)
    else if nextItem.Source = SourceDiff then
      processBatch env projectRef githubToken rest
        (processCLIPatchItem env projectRef githubToken s nextItem)
    else processBatch env projectRef githubToken rest s

/-- The method `(*commitQueueJob).Run`: the queue of the state is the one
loaded with `commitqueue.FindOneId` for the queue `j.QueueID` of the job. -/
def Run (env : Env) (s : JobState) : JobState :=
  match env.GetServiceFlags with
  | .error err => AddError s (some ("getting service flags: " ++ err))
  | .ok flags =>
    if flags.CommitQueueDisabled then s
    else
      match env.FindMergedProjectRef s.QueueID with
      | .error err =>
        AddError s (some ("finding project for commit queue \x27" ++ s.QueueID ++ "\x27: " ++ err))
      | .ok none => AddError s (some ("project not found for commit queue \x27" ++ s.QueueID ++ "\x27"))
      | .ok (some projectRef) =>
        if !projectRef.CommitQueue.IsEnabled then s
        else
          match env.FindQueueById s.QueueID with
          | .error err => AddError s (some ("finding commit queue \x27" ++ s.QueueID ++ "\x27: " ++ err))
          | .ok none => AddError s (some ("commit queue \x27" ++ s.QueueID ++ "\x27 not found"))
          | .ok (some cq) =>
            let s := { s with cq := cq }
            match env.GetConfig with
            | .error err => AddError s (some ("getting admin settings: " ++ err))
            | .ok conf =>
              match env.GetGithubOauthToken conf with
              | .error err => AddError s (some ("getting global GitHub OAuth token: " ++ err))
              | .ok githubToken =>
                let s := TryUnstick env projectRef githubToken s
                if s.cq.Processing then s
                else
                  let batchSize := if conf.CommitQueue.BatchSize < 1 then 1 else conf.CommitQueue.BatchSize
                  let nextItems := s.cq.NextUnprocessed batchSize
                  if nextItems.length = 0 then s
                  else processBatch env projectRef githubToken nextItems s

/-! ## The queue store as the REST layer uses it -/

/-- Modelled from the spec: `(*CommitQueue).Enqueue` and `EnqueueAtFront` are
declared in `model/commitqueue`, which is not among the sources.
"`Enqueue(item, atFront bool)` → append or prepend, rejecting duplicate issue
ids"; "item created on enqueue (position = end, or 0 for priority)".  The
result is the position of the item and the queue with it. -/
def CommitQueue.Enqueue (q : CommitQueue) (item : CommitQueueItem) (atFront : Bool) :
    Except String (Nat × CommitQueue) :=
  if q.Queue.any (fun i => i.Issue == item.Issue) then
    .error ("item " ++ item.Issue ++ " is already in the queue")
  else if atFront then .ok (0, { q with Queue := item :: q.Queue })
  else .ok (q.Queue.length, { q with Queue := q.Queue ++ [item] })

/-- Modelled from the spec: `EnqueueItem` is declared in `rest/data`, of which
only the tests are among the sources.  It enqueues the item in the stored
queue, at the front when `enqueueNext` is set: the position and the error
returned, and the stored queue after the call. -/
def EnqueueItem (q : CommitQueue) (item : CommitQueueItem) (enqueueNext : Bool) :
    (Nat × Option String) × CommitQueue :=
  match q.Enqueue item enqueueNext with
  | .ok (position, q2) => ((position, none), q2)
  | .error err => ((0, some err), q)

/-- Modelled from the spec: `CommitQueueRemoveItem` is declared in
`rest/data`, of which only the tests are among the sources.  It removes the
item of the given issue from the stored queue: the item found and the error
returned, and the stored queue after the call. -/
def CommitQueueRemoveItem (q : CommitQueue) (issue : String) :
    (Option CommitQueueItem × Option String) × CommitQueue :=
  match q.Remove issue with
  | .ok (item, q2) => ((some item, none), q2)
  | .error err => ((none, some err), q)

/-! ## Scenarios

Concrete collaborators and queues, after the tests of `commit_queue_test.go`,
on which the theorems below are instantiated. -/

/-- Collaborators that answer every lookup with the same given result: the
validity of the version id, the patch lookup, the merge task lookup and the
lookup of resetting dependencies; the review system returns the pull request
asked for and accepts every status. -/
def constEnv (valid : Bool) (patchDoc : Except String (Option Patch))
    (mergeTask : Except String (Option Task)) (resetting : Except String (List Task)) : Env :=
  { IsValidId := fun _ => valid
    FindOne := fun _ => patchDoc
    FindMergeTaskForVersion := fun _ => mergeTask
    FindAbortingAndResettingDependencies := fun _ => resetting
    GetGithubPullRequest := fun _ _ _ number => .ok { Number := number }
    ValidatePR := fun _ => none
    SendCommitQueueGithubStatus := fun _ _ _ _ => none }

/-- The project of the test suite. -/
def mciRef : ProjectRef := { Identifier := "mci", Owner := "baxterthehacker", Repo := "public-repo" }

/-- A queue whose head is a diff item in processing, followed by an
unprocessed item. -/
def processingQueue : JobState :=
  { cq := { ProjectID := "mci",
            Queue := [{ Issue := "aabbccddeeff112233445566", Source := SourceDiff,
                        Version := "aabbccddeeff112233445566" },
                      { Issue := "2", Source := SourceDiff }] } }

/-- A queue whose head is a pull request item in processing, followed by an
unprocessed item. -/
def processingPRQueue : JobState :=
  { cq := { ProjectID := "mci",
            Queue := [{ Issue := "1234", Source := SourcePullRequest,
                        Version := "aabbccddeeff112233445566" },
                      { Issue := "2", Source := SourceDiff }] } }

/-- The merge task of `TestTryUnstickFixesBlockedMergeTask`: activated and
blocked by an unattainable dependency. -/
def blockedMergeTask : Task :=
  { Id := "merge_task", Activated := true, CommitQueueMerge := true,
    Version := "aabbccddeeff112233445566",
    DependsOn := [{ TaskId := "some_dependency", Status := "", Unattainable := true }] }

/-- The dependency of
`TestTryUnstickDoesNotUnstickMergeTaskBlockedByResettingDependencies`:
aborted and scheduled to reset. -/
def resettingTask : Task :=
  { Id := "some_dependency", Activated := true, Aborted := true, ResetWhenFinished := true }

/-- Collaborators for a head whose patch record is missing while the review
system cannot be reached: fetching the pull request fails. -/
def unreachableGithubEnv : Env :=
  { constEnv true (.ok none) (.ok none) (.ok []) with
    GetGithubPullRequest := fun _ _ _ _ => .error "connection timed out" }

/-- The merge task of `TestAddMergeTaskDependencies` with the given id, for
the version `"v" ++ id`. -/
def mergeTaskOf (id : String) : Task :=
  { Id := id, Version := "v" ++ id, CommitQueueMerge := true }

/-- The task collection of `TestAddMergeTaskDependencies`: three merge tasks
without dependencies. -/
def threeMergeTasks : List Task := [mergeTaskOf "1", mergeTaskOf "2", mergeTaskOf "3"]

/-- The queue of `TestAddMergeTaskDependencies`: three items with the
versions of the three merge tasks. -/
def threeVersions : CommitQueue :=
  { Queue := [{ Issue := "1", Version := "v1" }, { Issue := "2", Version := "v2" },
              { Issue := "3", Version := "v3" }] }

/-- Collaborators of `TestAddMergeTaskAndVariant`: the merge tasks run on the
distro `d`, and every other collaborator answers without error. -/
def mergeDistroEnv : Env :=
  { constEnv true (.ok none) (.ok none) (.ok []) with
    GetConfig := .ok { CommitQueue := { MergeTaskDistro := "d" } } }

/-- Collaborators whose project validator reports a finding of level `Error`
on every project. -/
def rejectingEnv : Env :=
  { mergeDistroEnv with
    CheckProjectErrors := fun _ _ =>
      [{ Level := ValidationErrorLevel.Error, Message := "task has no commands" }] }

/-- The project of `TestUpdatePatch`. -/
def evergreenRef : ProjectRef :=
  { Identifier := "evergreen", Owner := "evergreen-ci", Repo := "evergreen", Branch := "main" }

/-- Collaborators for a project `evergreen` with a module `sample`: the tip of
the branch of the project is the commit `aaa`, the tip of the branch of the
module is the commit `bbb`. -/
def moduleEnv : Env :=
  { mergeDistroEnv with
    GetBranchEvent := fun _ _ repo _ =>
      if repo = "evergreen" then .ok (some { Commit := some { SHA := some "aaa" } })
      else .ok (some { Commit := some { SHA := some "bbb" } })
    GetPatchedProject := fun _ _ _ =>
      .ok ({ Identifier := "evergreen",
             Modules := [{ Name := "sample", Repo := "git@github.com:evergreen-ci/sample.git",
                           Branch := "main" }] }, {})
    GetModuleByName := fun project name =>
      match project.Modules.find? (fun m => m.Name == name) with
      | some m => .ok m
      | none => .error "no such module"
    ParseGitUrl := fun _ => .ok ("evergreen-ci", "sample") }

/-- A patch document with a change to the module `sample` followed by the
change to the project itself. -/
def moduleFirstPatch : Patch :=
  { Id := "aabbccddeeff112233445566", Project := "evergreen",
    Patches := [{ ModuleName := "sample", Githash := "0" }, { ModuleName := "", Githash := "0" }] }

/-- The project of the test suite with the commit queue enabled. -/
def mciEnabledRef : ProjectRef := { mciRef with CommitQueue := { Enabled := some true } }

/-- A queue of two unprocessed diff items. -/
def twoDiffItems : CommitQueue :=
  { ProjectID := "mci",
    Queue := [{ Issue := "1", Source := SourceDiff }, { Issue := "2", Source := SourceDiff }] }

/-- Collaborators of a run on `twoDiffItems` with a batch size of two: the
project and the queue are found, and no patch document exists for any
item. -/
def missingPatchesEnv : Env :=
  { constEnv true (.ok none) (.ok none) (.ok []) with
    FindMergedProjectRef := fun _ => .ok (some mciEnabledRef)
    FindQueueById := fun _ => .ok (some twoDiffItems)
    GetConfig := .ok { CommitQueue := { BatchSize := 2 } } }

/-- A batch whose first item carries a version already, followed by an
unprocessed diff item. -/
def versionedFirst : List CommitQueueItem :=
  [{ Issue := "1", Source := SourceDiff, Version := "v1" }, { Issue := "2", Source := SourceDiff }]

/-- A queue with one unprocessed pull request item whose issue is not a
number. -/
def malformedIssueQueue : JobState :=
  { cq := { ProjectID := "mci", Queue := [{ Issue := "not-a-number", Source := SourcePullRequest }] } }

/-- A queue with one unprocessed pull request item. -/
def pullRequestQueue : JobState :=
  { cq := { ProjectID := "mci", Queue := [{ Issue := "1234", Source := SourcePullRequest }] } }

/-- A queue with one unprocessed diff item. -/
def diffQueue : JobState :=
  { cq := { ProjectID := "mci", Queue := [{ Issue := "aabbccddeeff112233445566", Source := SourceDiff }] } }

/-- Collaborators whose patch collection cannot be reached: every lookup of
a patch document fails. -/
def patchStoreDownEnv : Env :=
  { constEnv true (.error "connection reset by peer") (.ok none) (.ok []) with
    FindOneId := fun _ => .error "connection reset by peer" }

/-- Collaborators for a diff item whose patch document exists, while the
parser project cannot be stored. -/
def upsertFailsEnv : Env :=
  { moduleEnv with
    FindOneId := fun _ => .ok (some { Id := "aabbccddeeff112233445566", Project := "evergreen" })
    ParserProjectUpsertOneWithS3Fallback := fun _ _ _ => .error "document too large" }

/-- The queue of `TestCommitQueueRemoveFinalizedItem`: three items with their
versions. -/
def threeFinalizedItems : CommitQueue :=
  { ProjectID := "mci",
    Queue := [{ Issue := "0", Source := SourceDiff, Version := "v0" },
              { Issue := "1", Source := SourceDiff, Version := "v1" },
              { Issue := "2", Source := SourceDiff, Version := "v2" }] }

/-- The users of `TestSetDefaultNotification`: `u1` has never saved
notification settings, `u2` has opted out. -/
def twoUsers : JobState :=
  { cq := {},
    users := [{ Id := "u1" },
              { Id := "u2", Settings := { Notifications := { CommitQueue := "none" } } }] }

/-- Collaborators whose event store gives every subscription the id
`5f0c1a2b3c4d5e6f70819203`. -/
def subscribingEnv : Env :=
  { mergeDistroEnv with
    CreateOrUpdateGeneralSubscription := fun resourceType _ subscriber owner =>
      .ok { ID := "5f0c1a2b3c4d5e6f70819203", ResourceType := resourceType,
            Subscriber := subscriber, Owner := owner } }

/-- Collaborators for a pull request item whose patch document is found while
its patched project cannot be fetched; the patch is finalized all the same,
as the version `v1234`. -/
def configFetchFailsEnv : Env :=
  { constEnv true (.ok none) (.ok none) (.ok []) with
    FindOneId := fun _ => .ok (some { Id := "aabbccddeeff112233445566" })
    GetPatchedProject := fun _ _ _ => .error "yaml: line 3: mapping values are not allowed"
    FinalizePatch := fun _ _ _ => .ok ({ Id := "v1234" }, []) }

/-- Collaborators like `configFetchFailsEnv`, but the patch cannot be
finalized either. -/
def configAndFinalizeFailEnv : Env :=
  { configFetchFailsEnv with
    FinalizePatch := fun _ _ _ => .error "no builds or tasks for commit queue version" }

/-- A patch document that already selects the merge task on the merge
variant, after a compile and a test task. -/
def mergeSelectedPatch : Patch :=
  { Id := "aabbccddeeff112233445566",
    VariantsTasks := [{ Variant := "ubuntu", Tasks := ["compile", "test"] },
                      { Variant := MergeTaskVariant, Tasks := [MergeTaskName] }] }

/-- Collaborators whose event store cannot be reached: no subscription can be
created. -/
def subscriptionFailsEnv : Env :=
  { mergeDistroEnv with
    CreateOrUpdateGeneralSubscription := fun _ _ _ _ => .error "connection reset by peer" }

/-- A queue of three unprocessed diff items for the project `evergreen`. -/
def threeDiffItems : CommitQueue :=
  { ProjectID := "evergreen",
    Queue := [{ Issue := "1", Source := SourceDiff }, { Issue := "2", Source := SourceDiff },
              { Issue := "3", Source := SourceDiff }] }

/-- Collaborators of a run on `threeDiffItems` with a batch size of three: no
patch document exists for the item `1`; the patch documents of the other
items, of the author `me`, exist and are finalized without error, each into a
version with its merge task. -/
def oneMissingPatchEnv : Env :=
  { moduleEnv with
    FindMergedProjectRef := fun _ =>
      .ok (some { evergreenRef with CommitQueue := { Enabled := some true } })
    FindQueueById := fun _ => .ok (some threeDiffItems)
    GetConfig := .ok { CommitQueue := { MergeTaskDistro := "d", BatchSize := 3 } }
    FindOneId := fun id =>
      if id = "1" then .ok none else .ok (some { Id := id, Project := "evergreen", Author := "me" })
    FinalizePatch := fun patchDoc _ _ =>
      .ok ({ Id := "v" ++ patchDoc.Id },
           [{ Id := "merge" ++ patchDoc.Id, Version := "v" ++ patchDoc.Id,
              CommitQueueMerge := true }]) }

/-- The job for the queue `evergreen` before a run: the author `me` has
opted out of notifications. -/
def evergreenJob : JobState :=
  { cq := {}, QueueID := "evergreen",
    users := [{ Id := "me", Settings := { Notifications := { CommitQueue := "none" } } }] }

/-- The dependency entry that the linker asks for: on the merge task before,
whatever its terminal status. -/
def linkEntry (prevMergeTask : String) : Dependency :=
  { TaskId := prevMergeTask, Status := AllStatuses }

/-- The task collection after the update `AddDependency` of one iteration of
the loop of `addMergeTaskDependencies`, for a merge task found at a position
`i > 0`; `UpdateDependsOn` leaves it as it is. -/
def linkDependsOn (store : List Task) (mergeTask : Task) (prevMergeTask : String) : List Task :=
  store.map (fun u =>
    if u.Id = mergeTask.Id then u.withDependency mergeTask.DependsOn (linkEntry prevMergeTask)
    else u)

/-- The task collection after one iteration of the loop of
`addMergeTaskDependencies` for a merge task found at a position `i > 0`: the
updates `AddDependency`, `UpdateDependsOn` and `RecomputeNumDependents` in
sequence. -/
def linkStep (store : List Task) (mergeTask : Task) (prevMergeTask : String) : List Task :=
  (linkDependsOn store mergeTask prevMergeTask).map (fun u =>
    if u.Id == mergeTask.Id || dependsOn (linkDependsOn store mergeTask prevMergeTask) u.Id mergeTask.Id ||
        dependsOn (linkDependsOn store mergeTask prevMergeTask) mergeTask.Id u.Id then
      { u with NumDependents := numDependents (linkDependsOn store mergeTask prevMergeTask) u.Id }
    else u)

/-- The document `u` is the document `u0` up to its dependencies and its
number of dependents, the two fields the linker writes. -/
def SameDocument (u0 u : Task) : Prop :=
  u.Id = u0.Id ∧ u.Version = u0.Version ∧ u.CommitQueueMerge = u0.CommitQueueMerge

/-- Every dependency on one of the merge tasks `ids` (in queue order) is held
by a merge task later in the queue. -/
def DownwardOnly (ids : List String) (store : List Task) : Prop :=
  ∀ u ∈ store, ∀ d ∈ u.DependsOn, ∀ k : Nat, ids[k]? = some d.TaskId →
    ∃ l : Nat, k < l ∧ ids[l]? = some u.Id

/-- Each of the first `c` merge tasks `ids` but the first one depends on the
merge task right before it. -/
def Chained (ids : List String) (c : Nat) (store : List Task) : Prop :=
  ∀ j : Nat, j + 1 < c → ∃ u ∈ store, ids[j + 1]? = some u.Id ∧
    ∃ d ∈ u.DependsOn, ids[j]? = some d.TaskId

/-- The entries a first run of the linker adds to the document with id `x`
while it handles the first `c` items, whose merge tasks are `ids` in queue
order: the entry for the merge task right before `x`, if `x` is one of these
merge tasks and not the first. -/
def linkedDeps (ids : List String) (c : Nat) (x : String) : List Dependency :=
  if 1 ≤ ids.indexOf x ∧ ids.indexOf x < c ∧ ids.indexOf x < ids.length then
    [linkEntry (ids.getD (ids.indexOf x - 1) "")]
  else []

/-- The document `u` is the document `u0` of the collection before the run,
none of whose dependencies is on a merge task of the queue, after the linker
has handled the first `c` items. -/
def LinkedUpTo (ids : List String) (c : Nat) (u0 u : Task) : Prop :=
  SameDocument u0 u ∧ (∀ d ∈ u0.DependsOn, d.TaskId ∉ ids) ∧
    u.DependsOn = u0.DependsOn ++ linkedDeps ids c u0.Id

/-- The queue item has a version, and `a` is the id of its merge task in the
collection. -/
def ItemOf (store : List Task) (item : CommitQueueItem) (a : String) : Prop :=
  item.Version ≠ "" ∧
    ∃ m, store.find? (fun t => t.Version == item.Version && t.CommitQueueMerge) = some m ∧ m.Id = a

/-- The merge tasks at the first `c` positions report their current number
of dependents (once the linker has recomputed them, from the second item
on). -/
def Accurate (ids : List String) (c : Nat) (store : List Task) : Prop :=
  2 ≤ c → ∀ u ∈ store, ∀ k : Nat, k < c → ids[k]? = some u.Id →
    u.NumDependents = numDependents store u.Id

/-! ## Notions used to state the claims on the scheduler -/

/-- The call is the start of an item processor or a run of the linker. -/
def Call.isStage : Call → Bool
  | Call.processGitHubPRItem _ => true
  | Call.processCLIPatchItem _ => true
  | Call.addMergeTaskDependencies _ => true
  | _ => false

/-- The processor that the loop of `Run` hands the item to, as the call that
is recorded: that of its source, and none for an unknown source. -/
def stageOf (item : CommitQueueItem) : Option Call :=
  if item.Source = SourcePullRequest then some (Call.processGitHubPRItem item.Issue)
  else if item.Source = SourceDiff then some (Call.processCLIPatchItem item.Issue)
  else none

/-- The queue `after` is the queue `before` without the item of the given
issue, the other items being kept as they are and in their order. -/
def Evicted (before after : CommitQueue) (issue : String) : Prop :=
  after = { before with Queue := before.Queue.eraseP (fun i => i.Issue == issue) } ∧
    issue ∉ after.Queue.map (fun i => i.Issue)

/-! ## Notions used to state the claims on patches and on the linker -/

/-- The dependency of a task definition on the merge task itself: the task
`MergeTaskName` on the variant `MergeTaskVariant`. -/
def onMergeTask : TaskUnitDependency :=
  { Name := MergeTaskName, Variant := MergeTaskVariant, Status := "" }

theorem dependsOnWithin_succ (store : List Task) (fuel : Nat) (a b : String) :
    dependsOnWithin store (fuel + 1) a b = true ↔
      ∃ u ∈ store, u.Id = a ∧ ∃ d ∈ u.DependsOn,
        d.TaskId = b ∨ dependsOnWithin store fuel d.TaskId b = true := by
  simp [dependsOnWithin]

/-- Whoever depends on a merge task is a merge task later in the queue. -/
theorem dependsOnWithin_later (ids : List String) (store : List Task)
    (hdown : DownwardOnly ids store) :
    ∀ (fuel : Nat) (x y : String), dependsOnWithin store fuel x y = true →
      ∀ k : Nat, ids[k]? = some y → ∃ l : Nat, k < l ∧ ids[l]? = some x := by
  intro fuel
  induction fuel with
  | zero => intro x y h; simp [dependsOnWithin] at h
  | succ fuel ih =>
    intro x y h k hk
    rw [dependsOnWithin_succ] at h
    obtain ⟨u, hu, hux, d, hd, hdy⟩ := h
    rcases hdy with hdy | hdy
    · obtain ⟨l, hl, hl2⟩ := hdown u hu d hd k (by rw [hdy]; exact hk)
      exact ⟨l, hl, by rw [← hux]; exact hl2⟩
    · obtain ⟨l1, hl1, hl1b⟩ := ih d.TaskId y hdy k hk
      obtain ⟨l, hl, hl2⟩ := hdown u hu d hd l1 hl1b
      exact ⟨l, by omega, by rw [← hux]; exact hl2⟩

/-- Along the chain, a merge task depends on every merge task before it. -/
theorem dependsOnWithin_chain (ids : List String) (c : Nat) (store : List Task)
    (hchain : Chained ids c store) :
    ∀ (dist k fuel : Nat) (x y : String), k + dist + 1 < c → dist + 1 ≤ fuel →
      ids[k + dist + 1]? = some x → ids[k]? = some y →
      dependsOnWithin store fuel x y = true := by
  intro dist
  induction dist with
  | zero =>
    intro k fuel x y hc hfuel hx hy
    obtain ⟨fuel1, rfl⟩ : ∃ f, fuel = f + 1 := ⟨fuel - 1, by omega⟩
    obtain ⟨u, hu, hu1, d, hd, hd1⟩ := hchain k (by omega)
    rw [dependsOnWithin_succ]
    refine ⟨u, hu, ?_, d, hd, Or.inl ?_⟩
    · have := hu1.symm.trans hx
      simpa using this
    · have := hd1.symm.trans hy
      simpa using this
  | succ dist ih =>
    intro k fuel x y hc hfuel hx hy
    obtain ⟨fuel1, rfl⟩ : ∃ f, fuel = f + 1 := ⟨fuel - 1, by omega⟩
    obtain ⟨u, hu, hu1, d, hd, hd1⟩ := hchain (k + dist + 1) (by omega)
    rw [dependsOnWithin_succ]
    refine ⟨u, hu, ?_, d, hd, Or.inr ?_⟩
    · have := hu1.symm.trans hx
      simpa using this
    · exact ih k fuel1 d.TaskId y (by omega) (by omega) hd1 hy

/-- Counting the documents whose id is in a given list. -/
theorem countP_ids (store : List Task) (l : List String)
    (hstore : (store.map (fun u => u.Id)).Nodup) (hl : l.Nodup)
    (hsub : ∀ x ∈ l, x ∈ store.map (fun u => u.Id)) :
    store.countP (fun u => decide (u.Id ∈ l)) = l.length := by
  have h1 : store.countP (fun u => decide (u.Id ∈ l)) =
      (store.map (fun u => u.Id)).countP (fun x => decide (x ∈ l)) := by
    rw [List.countP_map]; rfl
  rw [h1, List.countP_eq_length_filter]
  apply List.Perm.length_eq
  rw [List.perm_ext_iff_of_nodup (hstore.filter _) hl]
  intro x
  simp only [List.mem_filter, decide_eq_true_eq]
  exact ⟨fun h => h.2, fun h => ⟨hsub x h, h⟩⟩

theorem length_le_of_ids (store : List Task) (l : List String) (hl : l.Nodup)
    (hsub : ∀ x ∈ l, x ∈ store.map (fun u => u.Id)) : l.length ≤ store.length := by
  have := (List.subperm_of_subset hl hsub).length_le
  simpa using this

/-- In a collection where the dependencies on the merge tasks `ids` come from
later merge tasks only and every merge task depends on the one before it, the
merge task at position `k` has exactly the `n - 1 - k` later merge tasks as
dependents. -/
theorem numDependents_chain (ids : List String) (store : List Task)
    (hstore : (store.map (fun u => u.Id)).Nodup) (hids : ids.Nodup)
    (hsub : ∀ x ∈ ids, x ∈ store.map (fun u => u.Id))
    (hdown : DownwardOnly ids store) (hchain : Chained ids ids.length store)
    (k : Nat) (y : String) (hk : ids[k]? = some y) :
    numDependents store y = ids.length - 1 - k := by
  have hlen := length_le_of_ids store ids hids hsub
  have hklt : k < ids.length := by
    rcases Nat.lt_or_ge k ids.length with h | h
    · exact h
    · rw [List.getElem?_eq_none h] at hk; exact absurd hk (by simp)
  unfold numDependents
  have hcongr : store.countP (fun u => dependsOn store u.Id y) =
      store.countP (fun u => decide (u.Id ∈ ids.drop (k + 1))) := by
    apply List.countP_congr
    intro u _
    simp only [decide_eq_true_eq]
    constructor
    · intro h
      obtain ⟨l, hl, hl2⟩ := dependsOnWithin_later ids store hdown _ _ _ h k hk
      rw [List.mem_iff_getElem?]
      refine ⟨l - (k + 1), ?_⟩
      rw [List.getElem?_drop]
      have : k + 1 + (l - (k + 1)) = l := by omega
      rw [this]; exact hl2
    · intro h
      rw [List.mem_iff_getElem?] at h
      obtain ⟨j, hj⟩ := h
      rw [List.getElem?_drop] at hj
      have hjlt : k + 1 + j < ids.length := by
        rcases Nat.lt_or_ge (k + 1 + j) ids.length with h | h
        · exact h
        · rw [List.getElem?_eq_none h] at hj; exact absurd hj (by simp)
      exact dependsOnWithin_chain ids ids.length store hchain j k store.length u.Id y
        (by omega) (by omega) (by rw [← hj]; congr 1; omega) hk
  rw [hcongr, countP_ids store (ids.drop (k + 1)) hstore (hids.sublist (List.drop_sublist _ _))
    (fun x hx => hsub x (List.mem_of_mem_drop hx))]
  simp; omega

/-! ## Updates of the collection that keep the documents in place -/

theorem dependsOnWithin_map (store : List Task) (g : Task → Task)
    (hid : ∀ u, (g u).Id = u.Id) (hdep : ∀ u, (g u).DependsOn = u.DependsOn) :
    ∀ (fuel : Nat) (a b : String),
      dependsOnWithin (store.map g) fuel a b = dependsOnWithin store fuel a b := by
  intro fuel
  induction fuel with
  | zero => intro a b; rfl
  | succ fuel ih =>
    intro a b
    simp only [dependsOnWithin, List.any_map]
    congr 1
    funext u
    simp only [Function.comp, hid, hdep, ih]

theorem numDependents_map (store : List Task) (g : Task → Task)
    (hid : ∀ u, (g u).Id = u.Id) (hdep : ∀ u, (g u).DependsOn = u.DependsOn) (b : String) :
    numDependents (store.map g) b = numDependents store b := by
  unfold numDependents dependsOn
  rw [List.countP_map, List.length_map]
  congr 1
  funext u
  simp only [Function.comp, hid, dependsOnWithin_map store g hid hdep]

theorem forall₂_map_right_of {R R2 : Task → Task → Prop} (g : Task → Task)
    {store0 store : List Task} (h : List.Forall₂ R store0 store)
    (hg : ∀ u0 u, R u0 u → R2 u0 (g u)) : List.Forall₂ R2 store0 (store.map g) := by
  rw [List.forall₂_map_right_iff]
  exact h.imp hg

theorem forall₂_ids {R : Task → Task → Prop} {store0 store : List Task}
    (h : List.Forall₂ R store0 store) (hid : ∀ u0 u, R u0 u → u.Id = u0.Id) :
    store.map (fun u => u.Id) = store0.map (fun u => u.Id) := by
  induction h with
  | nil => rfl
  | cons hr _ ih => simp [hid _ _ hr, ih]

theorem forall₂_mem_right {R : Task → Task → Prop} {store0 store : List Task}
    (h : List.Forall₂ R store0 store) {u : Task} (hu : u ∈ store) :
    ∃ u0 ∈ store0, R u0 u := by
  induction h with
  | nil => simp at hu
  | cons hr _ ih =>
    rcases List.mem_cons.mp hu with rfl | hu
    · exact ⟨_, List.mem_cons_self _ _, hr⟩
    · obtain ⟨u0, hu0, hr0⟩ := ih hu
      exact ⟨u0, List.mem_cons_of_mem _ hu0, hr0⟩

theorem forall₂_mem_left {R : Task → Task → Prop} {store0 store : List Task}
    (h : List.Forall₂ R store0 store) {u0 : Task} (hu : u0 ∈ store0) :
    ∃ u ∈ store, R u0 u := by
  induction h with
  | nil => simp at hu
  | cons hr _ ih =>
    rcases List.mem_cons.mp hu with rfl | hu
    · exact ⟨_, List.mem_cons_self _ _, hr⟩
    · obtain ⟨u, hu1, hr0⟩ := ih hu
      exact ⟨u, List.mem_cons_of_mem _ hu1, hr0⟩

theorem forall₂_find {R : Task → Task → Prop} {store0 store : List Task}
    (h : List.Forall₂ R store0 store) (p : Task → Bool)
    (hp : ∀ u0 u, R u0 u → p u = p u0) {m0 : Task} (hm : store0.find? p = some m0) :
    ∃ m, store.find? p = some m ∧ R m0 m := by
  induction h with
  | nil => simp at hm
  | @cons a b l1 l2 hr _ ih =>
    rw [List.find?_cons] at hm ⊢
    rw [hp a b hr]
    cases hpa : p a with
    | true =>
      rw [hpa] at hm
      simp only [Option.some.injEq] at hm
      subst hm
      exact ⟨b, rfl, hr⟩
    | false =>
      rw [hpa] at hm
      exact ih hm

/-- Two documents of a collection with the same id are the same document. -/
theorem eq_of_id_eq (store : List Task) (hstore : (store.map (fun u => u.Id)).Nodup)
    {u w : Task} (hu : u ∈ store) (hw : w ∈ store) (h : u.Id = w.Id) : u = w :=
  List.inj_on_of_nodup_map hstore hu hw h

/-! ## Unfolding the loop of the linker -/

theorem addMergeTaskDependenciesFrom_first (item : CommitQueueItem)
    (rest : List CommitQueueItem) (prev : String) (store : List Task) (m : Task)
    (hv : item.Version ≠ "")
    (hm : FindMergeTaskForVersion store item.Version = .ok (some m)) :
    addMergeTaskDependenciesFrom (item :: rest) 0 prev store =
      addMergeTaskDependenciesFrom rest 1 m.Id store := by
  simp [addMergeTaskDependenciesFrom, hv, hm]

theorem addMergeTaskDependenciesFrom_next (item : CommitQueueItem)
    (rest : List CommitQueueItem) (i : Nat) (prev : String) (store : List Task) (m : Task)
    (hv : item.Version ≠ "")
    (hm : FindMergeTaskForVersion store item.Version = .ok (some m)) (hi : i ≠ 0) :
    addMergeTaskDependenciesFrom (item :: rest) i prev store =
      addMergeTaskDependenciesFrom rest (i + 1) m.Id (linkStep store m prev) := by
  have hid : (m.withDependency m.DependsOn { TaskId := prev, Status := AllStatuses }).Id = m.Id := by
    unfold Task.withDependency; split <;> rfl
  simp only [addMergeTaskDependenciesFrom, hv, hm, hi, if_false, Task.AddDependency,
    Task.UpdateDependsOn, RecomputeNumDependents, hid]
  rfl

theorem addMergeTaskDependenciesFrom_stop (item : CommitQueueItem)
    (rest : List CommitQueueItem) (i : Nat) (prev : String) (store : List Task)
    (hv : item.Version = "") :
    addMergeTaskDependenciesFrom (item :: rest) i prev store = (none, store) := by
  simp [addMergeTaskDependenciesFrom, hv]

/-! ## The entries added by a first run -/

theorem indexOf_of_getElem? (ids : List String) (hids : ids.Nodup) (k : Nat) (x : String)
    (hk : ids[k]? = some x) : ids.indexOf x = k ∧ k < ids.length := by
  have hlt : k < ids.length := by
    rcases Nat.lt_or_ge k ids.length with h | h
    · exact h
    · rw [List.getElem?_eq_none h] at hk; exact absurd hk (by simp)
  rw [List.getElem?_eq_getElem hlt] at hk
  simp only [Option.some.injEq] at hk
  subst hk
  exact ⟨List.indexOf_getElem hids k hlt, hlt⟩

theorem getElem?_indexOf_of_mem (ids : List String) (x : String) (hx : x ∈ ids) :
    ids[ids.indexOf x]? = some x := List.getElem?_indexOf hx

theorem linkedDeps_at (ids : List String) (hids : ids.Nodup) (c k : Nat) (x p : String)
    (hk : ids[k]? = some x) (h1 : 1 ≤ k) (hc : k < c) (hp : ids[k - 1]? = some p) :
    linkedDeps ids c x = [linkEntry p] := by
  obtain ⟨hi, hlt⟩ := indexOf_of_getElem? ids hids k x hk
  unfold linkedDeps
  rw [hi, if_pos ⟨h1, hc, hlt⟩]
  simp [List.getD, hp]

theorem linkedDeps_none (ids : List String) (c : Nat) (x : String)
    (h : ∀ k : Nat, ids[k]? = some x → k = 0 ∨ c ≤ k) : linkedDeps ids c x = [] := by
  unfold linkedDeps
  split
  · rename_i hcond
    obtain ⟨h1, h2, h3⟩ := hcond
    have hmem : x ∈ ids := List.indexOf_lt_length.mp h3
    rcases h _ (getElem?_indexOf_of_mem ids x hmem) with h0 | h0 <;> omega
  · rfl

theorem mem_linkedDeps (ids : List String) (c : Nat) (x : String) (d : Dependency)
    (hd : d ∈ linkedDeps ids c x) :
    ∃ k : Nat, 1 ≤ k ∧ k < c ∧ ids[k]? = some x ∧ ids[k - 1]? = some d.TaskId ∧
      d = linkEntry d.TaskId := by
  unfold linkedDeps at hd
  split at hd
  · rename_i hcond
    obtain ⟨h1, h2, h3⟩ := hcond
    simp only [List.mem_singleton] at hd
    have hmem : x ∈ ids := List.indexOf_lt_length.mp h3
    have hprev : ids[ids.indexOf x - 1]? = some (ids.getD (ids.indexOf x - 1) "") := by
      have hlt : ids.indexOf x - 1 < ids.length := by omega
      simp [List.getD, List.getElem?_eq_getElem hlt]
    refine ⟨ids.indexOf x, h1, h2, getElem?_indexOf_of_mem ids x hmem, ?_, ?_⟩
    · rw [hd]; exact hprev
    · rw [hd]; rfl
  · simp at hd

theorem linkedDeps_succ_ne (ids : List String) (c : Nat) (x : String)
    (h : ids[c]? ≠ some x) : linkedDeps ids (c + 1) x = linkedDeps ids c x := by
  unfold linkedDeps
  by_cases hcond : 1 ≤ ids.indexOf x ∧ ids.indexOf x < c ∧ ids.indexOf x < ids.length
  · rw [if_pos hcond, if_pos ⟨hcond.1, by omega, hcond.2.2⟩]
  · rw [if_neg hcond, if_neg]
    rintro ⟨h1, h2, h3⟩
    have hmem : x ∈ ids := List.indexOf_lt_length.mp h3
    have heq : ids.indexOf x = c := by
      rcases Nat.lt_or_ge (ids.indexOf x) c with h4 | h4
      · exact absurd ⟨h1, h4, h3⟩ hcond
      · omega
    apply h
    rw [← heq]
    exact getElem?_indexOf_of_mem ids x hmem

theorem linkedDeps_of_length_le (ids : List String) (c : Nat) (x : String)
    (hc : ids.length ≤ c) : linkedDeps ids c x = linkedDeps ids ids.length x := by
  unfold linkedDeps
  by_cases hcond : 1 ≤ ids.indexOf x ∧ ids.indexOf x < ids.length ∧ ids.indexOf x < ids.length
  · rw [if_pos hcond, if_pos ⟨hcond.1, by omega, hcond.2.2⟩]
  · rw [if_neg hcond, if_neg]
    rintro ⟨h1, _, h3⟩
    exact hcond ⟨h1, h3, h3⟩

/-! ## What the relation to the collection before the run gives -/

theorem linkedUpTo_downwardOnly (ids : List String) (hids : ids.Nodup) (c : Nat)
    (store0 store : List Task) (h : List.Forall₂ (LinkedUpTo ids c) store0 store) :
    DownwardOnly ids store := by
  intro u hu d hd k hk
  obtain ⟨u0, _, hsame, hfresh, hdeps⟩ := forall₂_mem_right h hu
  rw [hdeps] at hd
  rcases List.mem_append.mp hd with hd | hd
  · exact absurd (List.mem_iff_getElem?.mpr ⟨k, hk⟩) (hfresh d hd)
  · obtain ⟨k2, h1, _, hk2, hprev, _⟩ := mem_linkedDeps ids c u0.Id d hd
    have hklt : k < ids.length := (indexOf_of_getElem? ids hids k _ hk).2
    have : k = k2 - 1 := List.getElem?_inj hklt hids (hk.trans hprev.symm)
    exact ⟨k2, by omega, by rw [hsame.1]; exact hk2⟩

theorem linkedUpTo_chained (ids : List String) (hids : ids.Nodup) (c : Nat)
    (hc : c ≤ ids.length) (store0 store : List Task)
    (hsub : ∀ x ∈ ids, x ∈ store0.map (fun u => u.Id))
    (h : List.Forall₂ (LinkedUpTo ids c) store0 store) : Chained ids c store := by
  intro j hj
  have hj1 : j + 1 < ids.length := by omega
  have hx : ids[j + 1]? = some ids[j + 1] := List.getElem?_eq_getElem hj1
  have hp : ids[j]? = some ids[j] := List.getElem?_eq_getElem (by omega)
  obtain ⟨u0, hu0, hid0⟩ := List.mem_map.mp (hsub _ (List.getElem_mem hj1))
  obtain ⟨u, hu, hsame, _, hdeps⟩ := forall₂_mem_left h hu0
  refine ⟨u, hu, by rw [hsame.1, hid0]; exact hx, linkEntry ids[j], ?_, hp⟩
  rw [hdeps, linkedDeps_at ids hids c (j + 1) u0.Id ids[j] (by rw [hid0]; exact hx) (by omega) hj
    (by simp)]
  exact List.mem_append_right _ (List.mem_singleton_self _)

theorem linkedUpTo_ids_eq (ids : List String) (c : Nat) (store0 store : List Task)
    (h : List.Forall₂ (LinkedUpTo ids c) store0 store) :
    store.map (fun u => u.Id) = store0.map (fun u => u.Id) :=
  forall₂_ids h (fun _ _ hr => hr.1.1)

/-! ## One iteration of a first run -/

/-- The last of the three updates, on a collection `store2` that stands in a
relation to the collection before the run which does not look at the number
of dependents: the relation is kept, and the merge tasks up to the current
one report their number of dependents. -/
theorem recompute_accurate (ids : List String) (hids : ids.Nodup) (c : Nat)
    (R : Task → Task → Prop)
    (hR : ∀ u0 u n, R u0 u → R u0 { u with NumDependents := n })
    (store0 store2 : List Task)
    (hsub : ∀ x ∈ ids, x ∈ store2.map (fun u => u.Id))
    (h2 : List.Forall₂ R store0 store2)
    (hchain : Chained ids (c + 1) store2) (mid : String) (hmid : ids[c]? = some mid) :
    List.Forall₂ R store0 (store2.map (fun u =>
      if u.Id == mid || dependsOn store2 u.Id mid || dependsOn store2 mid u.Id then
        { u with NumDependents := numDependents store2 u.Id }
      else u)) ∧
    Accurate ids (c + 1) (store2.map (fun u =>
      if u.Id == mid || dependsOn store2 u.Id mid || dependsOn store2 mid u.Id then
        { u with NumDependents := numDependents store2 u.Id }
      else u)) := by
  constructor
  · apply forall₂_map_right_of _ h2
    intro u0 u hr
    split
    · exact hR u0 u _ hr
    · exact hr
  · intro _ u3 hu3 k hk hku
    obtain ⟨u2, hu2, rfl⟩ := List.mem_map.mp hu3
    have hnum : ∀ b, numDependents (store2.map (fun u =>
        if u.Id == mid || dependsOn store2 u.Id mid || dependsOn store2 mid u.Id then
          { u with NumDependents := numDependents store2 u.Id }
        else u)) b = numDependents store2 b := by
      intro b
      apply numDependents_map
      · intro u; split <;> rfl
      · intro u; split <;> rfl
    have hid : (if (u2.Id == mid || dependsOn store2 u2.Id mid || dependsOn store2 mid u2.Id) = true then
          { u2 with NumDependents := numDependents store2 u2.Id }
        else u2).Id = u2.Id := by split <;> rfl
    rw [hid] at hku
    rw [hnum, hid]
    have hrel : (u2.Id == mid || dependsOn store2 u2.Id mid || dependsOn store2 mid u2.Id) = true := by
      rcases Nat.lt_or_ge k c with hlt | hge
      · have hlen := length_le_of_ids store2 ids hids hsub
        have hclt : c < ids.length := (indexOf_of_getElem? ids hids c mid hmid).2
        have : dependsOn store2 mid u2.Id = true :=
          dependsOnWithin_chain ids (c + 1) store2 hchain (c - k - 1) k store2.length mid u2.Id
            (by omega) (by omega) (by rw [← hmid]; congr 1; omega) hku
        simp [this]
      · have hkc : k = c := by omega
        subst hkc
        have : u2.Id = mid := by
          have := hku.symm.trans hmid
          simpa using this
        simp [this]
    rw [if_pos hrel]

theorem linkedUpTo_numDependents_irrelevant (ids : List String) (c : Nat) (u0 u : Task) (n : Nat)
    (h : LinkedUpTo ids c u0 u) : LinkedUpTo ids c u0 { u with NumDependents := n } :=
  ⟨⟨h.1.1, h.1.2.1, h.1.2.2⟩, h.2.1, h.2.2⟩

/-- No entry written by a first run up to position `c` is on the merge task
at position `c` or later, and no entry of the collection before the run
either. -/
theorem linkedUpTo_no_entry_on (ids : List String) (hids : ids.Nodup) (c : Nat)
    (u0 u : Task) (h : LinkedUpTo ids c u0 u) (k : Nat) (x : String) (hk : ids[k]? = some x)
    (hck : c ≤ k + 1) : ∀ d ∈ u.DependsOn, d.TaskId ≠ x := by
  intro d hd hdx
  rw [h.2.2] at hd
  rcases List.mem_append.mp hd with hd | hd
  · exact h.2.1 d hd (by rw [hdx]; exact List.mem_iff_getElem?.mpr ⟨k, hk⟩)
  · obtain ⟨k2, h1, h2, _, hprev, _⟩ := mem_linkedDeps ids c u0.Id d hd
    have hklt : k < ids.length := (indexOf_of_getElem? ids hids k _ hk).2
    have : k = k2 - 1 := List.getElem?_inj hklt hids (by rw [hk, hprev, hdx])
    omega

/-- One iteration of a first run, for the item at position `c ≥ 1` with merge
task `m`: the merge task gets the entry for the merge task before it, no
other list changes, and the merge tasks up to position `c` report their
number of dependents. -/
theorem linkStep_first_run (ids : List String) (hids : ids.Nodup) (c : Nat) (hc : 1 ≤ c)
    (store0 store : List Task)
    (hsub : ∀ x ∈ ids, x ∈ store0.map (fun u => u.Id))
    (h : List.Forall₂ (LinkedUpTo ids c) store0 store)
    (m0 m : Task) (hm : LinkedUpTo ids c m0 m) (hmid : ids[c]? = some m.Id)
    (prev : String) (hprev : ids[c - 1]? = some prev) :
    List.Forall₂ (LinkedUpTo ids (c + 1)) store0 (linkStep store m prev) ∧
    Accurate ids (c + 1) (linkStep store m prev) := by
  have hclt : c < ids.length := (indexOf_of_getElem? ids hids c m.Id hmid).2
  have hprevne : prev ≠ m.Id := by
    intro heq
    have hlt : c - 1 < ids.length := by omega
    have : c - 1 = c := List.getElem?_inj hlt hids (by rw [hprev, hmid, heq])
    omega
  -- the merge task does not hold the entry yet
  have hnew : m.DependsOn.any (linkEntry prev).sameEdge = false := by
    rw [List.any_eq_false]
    intro e he hsame
    have hne := linkedUpTo_no_entry_on ids hids c m0 m hm (c - 1) prev hprev (by omega) e he
    apply hne
    simp only [Dependency.sameEdge, linkEntry, Bool.and_eq_true, beq_iff_eq] at hsame
    exact hsame.1
  -- the update of the dependencies, document by document
  have key : ∀ u0 u, LinkedUpTo ids c u0 u →
      LinkedUpTo ids (c + 1) u0
        (if u.Id = m.Id then u.withDependency m.DependsOn (linkEntry prev) else u) := by
    intro u0 u hr
    by_cases hu : u.Id = m.Id
    · rw [if_pos hu]
      unfold Task.withDependency
      rw [hnew]
      simp only [Bool.false_eq_true, if_false]
      refine ⟨⟨hr.1.1, hr.1.2.1, hr.1.2.2⟩, hr.2.1, ?_⟩
      have hu0 : ids[c]? = some u0.Id := by rw [← hr.1.1, hu]; exact hmid
      have hnone : linkedDeps ids c u0.Id = [] := by
        apply linkedDeps_none
        intro k hk
        have hklt : k < ids.length := (indexOf_of_getElem? ids hids k _ hk).2
        have : k = c := List.getElem?_inj hklt hids (hk.trans hu0.symm)
        omega
      show u.DependsOn ++ [linkEntry prev] = u0.DependsOn ++ linkedDeps ids (c + 1) u0.Id
      rw [linkedDeps_at ids hids (c + 1) c u0.Id prev hu0 hc (by omega) hprev, hr.2.2, hnone]
      simp
    · rw [if_neg hu]
      refine ⟨hr.1, hr.2.1, ?_⟩
      rw [linkedDeps_succ_ne ids c u0.Id, hr.2.2]
      intro hcontra
      apply hu
      rw [hr.1.1]
      have := hcontra.symm.trans hmid
      simpa using this
  have hS2 : List.Forall₂ (LinkedUpTo ids (c + 1)) store0 (linkDependsOn store m prev) :=
    forall₂_map_right_of _ h key
  have hids2 := linkedUpTo_ids_eq ids (c + 1) _ _ hS2
  have hchain := linkedUpTo_chained ids hids (c + 1) (by omega) _ _ hsub hS2
  exact recompute_accurate ids hids c (LinkedUpTo ids (c + 1))
    (fun u0 u n hr => linkedUpTo_numDependents_irrelevant ids (c + 1) u0 u n hr)
    store0 _ (by rw [hids2]; exact hsub) hS2 hchain m.Id hmid

/-! ## A first run of the linker -/

theorem addMergeTaskDependenciesFrom_rest (rest : List CommitQueueItem)
    (hrest : ∀ item ∈ rest.head?, item.Version = "") (i : Nat) (prev : String)
    (store : List Task) :
    addMergeTaskDependenciesFrom rest i prev store = (none, store) := by
  cases rest with
  | nil => rfl
  | cons item tl => exact addMergeTaskDependenciesFrom_stop item tl i prev store (hrest item (by simp))

/-- The loop of a first run from position `c ≥ 1` on: it ends without error,
every merge task but the first has got the entry for the merge task before
it, no other list has changed, and the numbers of dependents are up to
date. -/
theorem first_run_from (ids : List String) (hids : ids.Nodup) (store0 : List Task)
    (hsub : ∀ x ∈ ids, x ∈ store0.map (fun u => u.Id))
    (rest : List CommitQueueItem) (hrest : ∀ item ∈ rest.head?, item.Version = "") :
    ∀ (xs : List CommitQueueItem) (c : Nat) (prev : String) (store : List Task),
      1 ≤ c → List.Forall₂ (ItemOf store0) xs (ids.drop c) → ids[c - 1]? = some prev →
      List.Forall₂ (LinkedUpTo ids c) store0 store → Accurate ids c store →
      ∃ store2, addMergeTaskDependenciesFrom (xs ++ rest) c prev store = (none, store2) ∧
        List.Forall₂ (LinkedUpTo ids ids.length) store0 store2 ∧
        Accurate ids ids.length store2 := by
  intro xs
  induction xs with
  | nil =>
    intro c prev store hc hxs hprev h hacc
    have hdrop : ids.drop c = [] := List.forall₂_nil_left_iff.mp hxs
    have hle : ids.length ≤ c := by simpa using hdrop
    have hlt : c - 1 < ids.length := (indexOf_of_getElem? ids hids (c - 1) prev hprev).2
    have hceq : c = ids.length := by omega
    subst hceq
    exact ⟨store, by simpa using addMergeTaskDependenciesFrom_rest rest hrest _ prev store, h, hacc⟩
  | cons item xs ih =>
    intro c prev store hc hxs hprev h hacc
    have hclt : c < ids.length := by
      rcases Nat.lt_or_ge c ids.length with hlt | hge
      · exact hlt
      · rw [List.drop_eq_nil_of_le hge] at hxs
        exact absurd (List.forall₂_nil_right_iff.mp hxs) (by simp)
    rw [List.drop_eq_getElem_cons hclt] at hxs
    obtain ⟨hitem, hxs2⟩ := List.forall₂_cons.mp hxs
    obtain ⟨hv, m0, hm0, hm0id⟩ := hitem
    obtain ⟨m, hm, hrel⟩ := forall₂_find h
      (fun t => t.Version == item.Version && t.CommitQueueMerge)
      (fun u0 u hr => by simp only [hr.1.2.1, hr.1.2.2]) hm0
    have hfind : FindMergeTaskForVersion store item.Version = .ok (some m) := by
      unfold FindMergeTaskForVersion; rw [hm]
    have hmid : ids[c]? = some m.Id := by
      rw [hrel.1.1, hm0id]; exact List.getElem?_eq_getElem hclt
    obtain ⟨hstep, hacc2⟩ := linkStep_first_run ids hids c hc store0 store hsub h m0 m hrel hmid
      prev hprev
    obtain ⟨store2, hrun, hfin, haccfin⟩ := ih (c + 1) m.Id (linkStep store m prev) (by omega) hxs2
      (by simpa using hmid) hstep hacc2
    refine ⟨store2, ?_, hfin, haccfin⟩
    rw [List.cons_append, addMergeTaskDependenciesFrom_next item (xs ++ rest) c prev store m hv hfind
      (by omega)]
    exact hrun

/-- A first run of the linker on a queue that starts with the items `pre`,
all with a version and a merge task, and goes on with `rest`, which is empty
or starts with an item without version. -/
theorem first_run (ids : List String) (hids : ids.Nodup) (store0 : List Task)
    (hsub : ∀ x ∈ ids, x ∈ store0.map (fun u => u.Id))
    (hfresh : ∀ u ∈ store0, ∀ d ∈ u.DependsOn, d.TaskId ∉ ids)
    (pre rest : List CommitQueueItem) (hrest : ∀ item ∈ rest.head?, item.Version = "")
    (hpre : List.Forall₂ (ItemOf store0) pre ids) :
    ∃ store2, addMergeTaskDependenciesFrom (pre ++ rest) 0 "" store0 = (none, store2) ∧
      List.Forall₂ (LinkedUpTo ids ids.length) store0 store2 ∧
      (2 ≤ ids.length → Accurate ids ids.length store2) ∧
      (ids.length ≤ 1 → store2 = store0) := by
  have hstart : ∀ c, c ≤ 1 → List.Forall₂ (LinkedUpTo ids c) store0 store0 := by
    intro c hc
    rw [List.forall₂_same]
    intro u hu
    refine ⟨⟨rfl, rfl, rfl⟩, hfresh u hu, ?_⟩
    rw [linkedDeps_none ids c u.Id (fun k _ => by omega)]
    simp
  cases hpre with
  | nil =>
    exact ⟨store0, by simpa using addMergeTaskDependenciesFrom_rest rest hrest 0 "" store0,
      hstart 0 (by simp), by simp, fun _ => rfl⟩
  | @cons item a xs tl hitem hxs =>
    obtain ⟨hv, m0, hm0, hm0id⟩ := hitem
    have hfind : FindMergeTaskForVersion store0 item.Version = .ok (some m0) := by
      unfold FindMergeTaskForVersion; rw [hm0]
    obtain ⟨store2, hrun, hfin, hacc⟩ := first_run_from (a :: tl) hids store0 hsub rest hrest xs 1
      m0.Id store0 (by omega) (by simpa using hxs) (by simp [hm0id]) (hstart 1 (by omega))
      (by intro h2; omega)
    refine ⟨store2, ?_, hfin, fun _ => hacc, ?_⟩
    · rw [List.cons_append, addMergeTaskDependenciesFrom_first item (xs ++ rest) "" store0 m0 hv hfind]
      exact hrun
    · intro hlen
      have hxs0 : xs = [] := by
        cases hxs with
        | nil => rfl
        | cons _ _ => simp at hlen
      subst hxs0
      rw [List.nil_append, addMergeTaskDependenciesFrom_rest rest hrest] at hrun
      exact (Prod.mk.inj hrun).2.symm

/-! ## From the queue to the ids of its merge tasks -/

theorem forall₂_getElem?_left {α β : Type} {R : α → β → Prop} {l1 : List α} {l2 : List β}
    (h : List.Forall₂ R l1 l2) :
    ∀ (i : Nat) (x : α), l1[i]? = some x → ∃ y, l2[i]? = some y ∧ R x y := by
  induction h with
  | nil => intro i x hx; simp at hx
  | cons hr _ ih =>
    intro i x hx
    cases i with
    | zero =>
      simp only [List.getElem?_cons_zero, Option.some.injEq] at hx
      subst hx
      exact ⟨_, by simp, hr⟩
    | succ i =>
      simp only [List.getElem?_cons_succ] at hx ⊢
      exact ih i x hx

theorem forall₂_exists_left {α β : Type} {R : α → β → Prop} {l1 : List α} {l2 : List β}
    (h : List.Forall₂ R l1 l2) {y : β} (hy : y ∈ l2) : ∃ x ∈ l1, R x y := by
  induction h with
  | nil => simp at hy
  | cons hr _ ih =>
    rcases List.mem_cons.mp hy with rfl | hy
    · exact ⟨_, List.mem_cons_self _ _, hr⟩
    · obtain ⟨x, hx, hr0⟩ := ih hy
      exact ⟨x, List.mem_cons_of_mem _ hx, hr0⟩

theorem itemOf_of_find (store : List Task) (item : CommitQueueItem) (m : Task)
    (hv : item.Version ≠ "")
    (hm : FindMergeTaskForVersion store item.Version = .ok (some m)) :
    ItemOf store item m.Id := by
  refine ⟨hv, m, ?_, rfl⟩
  unfold FindMergeTaskForVersion at hm
  injection hm

theorem itemOf_find (store : List Task) (item : CommitQueueItem) (a : String) (m : Task)
    (h : ItemOf store item a)
    (hm : FindMergeTaskForVersion store item.Version = .ok (some m)) :
    a = m.Id ∧ m ∈ store ∧ m.Version = item.Version := by
  obtain ⟨_, m1, hm1, hid⟩ := h
  unfold FindMergeTaskForVersion at hm
  have hm2 : store.find? (fun t => t.Version == item.Version && t.CommitQueueMerge) = some m := by
    injection hm
  rw [hm1] at hm2
  simp only [Option.some.injEq] at hm2
  subst hm2
  have hp := List.find?_some hm1
  simp only [Bool.and_eq_true, beq_iff_eq] at hp
  exact ⟨hid.symm, List.mem_of_find?_eq_some hm1, hp.1⟩

/-- The merge tasks of queue items with pairwise distinct versions, all found
in a collection with unique ids, have pairwise distinct ids. -/
theorem exists_merge_task_ids (store : List Task)
    (hstore : (store.map (fun u => u.Id)).Nodup) :
    ∀ (pre : List CommitQueueItem), (pre.map (fun item => item.Version)).Nodup →
      (∀ item ∈ pre, item.Version ≠ "" ∧
        ∃ m, FindMergeTaskForVersion store item.Version = .ok (some m)) →
      ∃ ids : List String, ids.Nodup ∧ List.Forall₂ (ItemOf store) pre ids ∧
        ∀ x ∈ ids, x ∈ store.map (fun u => u.Id) := by
  intro pre
  induction pre with
  | nil => intro _ _; exact ⟨[], List.nodup_nil, List.Forall₂.nil, by simp⟩
  | cons item xs ih =>
    intro hver hpre
    rw [List.map_cons, List.nodup_cons] at hver
    obtain ⟨ids, hids, hrel, hsub⟩ := ih hver.2 (fun it hit => hpre it (List.mem_cons_of_mem _ hit))
    obtain ⟨hv, m, hm⟩ := hpre item (List.mem_cons_self _ _)
    have hitem := itemOf_of_find store item m hv hm
    obtain ⟨_, hmem, hmv⟩ := itemOf_find store item m.Id m hitem hm
    refine ⟨m.Id :: ids, List.nodup_cons.mpr ⟨?_, hids⟩, List.Forall₂.cons hitem hrel, ?_⟩
    · intro hin
      obtain ⟨it, hit, hv2, m2, hm2, hid2⟩ := forall₂_exists_left hrel hin
      have hm2mem : m2 ∈ store := List.mem_of_find?_eq_some hm2
      have hp := List.find?_some hm2
      simp only [Bool.and_eq_true, beq_iff_eq] at hp
      have : m2 = m := eq_of_id_eq store hstore hm2mem hmem hid2
      apply hver.1
      rw [List.mem_map]
      exact ⟨it, hit, by rw [← hp.1, this, hmv]⟩
    · intro x hx
      rcases List.mem_cons.mp hx with rfl | hx
      · exact List.mem_map.mpr ⟨m, hmem, rfl⟩
      · exact hsub x hx

/-! ## The claims on the dependency linker -/

/-- C2: for every queue of `n` items that all have a version, pairwise
distinct, and a merge task, in a collection with unique ids where these merge
tasks start with no dependencies and no dependents (none recorded, and no
task depending on them), `addMergeTaskDependencies` returns without error and
afterwards the merge task of the item at position `k` reports `n - 1 - k`
dependents; the merge task of the first item has an empty dependency list and
every later one has exactly one dependency. -/
theorem C2_dependents_along_a_fresh_chain (cq : CommitQueue) (store : List Task)
    (hstore : (store.map (fun u => u.Id)).Nodup)
    (hver : (cq.Queue.map (fun item => item.Version)).Nodup)
    (hitems : ∀ item ∈ cq.Queue, item.Version ≠ "" ∧
      ∃ m, FindMergeTaskForVersion store item.Version = .ok (some m) ∧
        m.DependsOn = [] ∧ m.NumDependents = 0 ∧
        ∀ u ∈ store, ∀ d ∈ u.DependsOn, d.TaskId ≠ m.Id)
    (k : Nat) (item : CommitQueueItem) (hk : cq.Queue[k]? = some item) :
    (addMergeTaskDependencies cq store).1 = none ∧
    ∃ m2, FindMergeTaskForVersion (addMergeTaskDependencies cq store).2 item.Version =
        .ok (some m2) ∧
      m2.NumDependents = cq.Queue.length - 1 - k ∧
      (k = 0 → m2.DependsOn = []) ∧ (0 < k → m2.DependsOn.length = 1) := by
  obtain ⟨ids, hids, hrel, hsub⟩ := exists_merge_task_ids store hstore cq.Queue hver
    (fun it hit => ⟨(hitems it hit).1, (hitems it hit).2.choose, (hitems it hit).2.choose_spec.1⟩)
  have hfresh : ∀ u ∈ store, ∀ d ∈ u.DependsOn, d.TaskId ∉ ids := by
    intro u hu d hd hin
    obtain ⟨it, hit, hitemof⟩ := forall₂_exists_left hrel hin
    obtain ⟨_, mm, hmm, _, _, hfr⟩ := hitems it hit
    have := (itemOf_find store it d.TaskId mm hitemof hmm).1
    exact hfr u hu d hd this
  obtain ⟨store2, hrun, hfin, hacc, hsame⟩ := first_run ids hids store hsub hfresh cq.Queue []
    (by simp) hrel
  have hres : addMergeTaskDependencies cq store = (none, store2) := by
    unfold addMergeTaskDependencies
    rw [List.append_nil] at hrun
    exact hrun
  rw [hres]
  refine ⟨rfl, ?_⟩
  have hlen : cq.Queue.length = ids.length := hrel.length_eq
  obtain ⟨a, ha, hia⟩ := forall₂_getElem?_left hrel k item hk
  obtain ⟨_, m, hm, hmdeps, hmnum, _⟩ := hitems item (List.mem_iff_getElem?.mpr ⟨k, hk⟩)
  obtain ⟨haid, _, _⟩ := itemOf_find store item a m hia hm
  have hm0 : store.find? (fun t => t.Version == item.Version && t.CommitQueueMerge) = some m := by
    unfold FindMergeTaskForVersion at hm; injection hm
  obtain ⟨m2, hm2, hrel2⟩ := forall₂_find hfin
    (fun t => t.Version == item.Version && t.CommitQueueMerge)
    (fun u0 u hr => by simp only [hr.1.2.1, hr.1.2.2]) hm0
  have hklt : k < ids.length := (indexOf_of_getElem? ids hids k a ha).2
  have hkm : ids[k]? = some m.Id := by rw [← haid]; exact ha
  have hkm2 : ids[k]? = some m2.Id := by rw [hrel2.1.1]; exact hkm
  refine ⟨m2, by unfold FindMergeTaskForVersion; rw [hm2], ?_, ?_, ?_⟩
  · rw [hlen]
    rcases Nat.lt_or_ge 1 ids.length with h2 | h1
    · have hids2 := linkedUpTo_ids_eq ids ids.length store store2 hfin
      rw [hacc h2 h2 m2 (List.mem_of_find?_eq_some hm2) k hklt hkm2]
      exact numDependents_chain ids store2 (by rw [hids2]; exact hstore) hids
        (by rw [hids2]; exact hsub)
        (linkedUpTo_downwardOnly ids hids ids.length store store2 hfin)
        (linkedUpTo_chained ids hids ids.length (le_refl _) store store2 hsub hfin) k m2.Id hkm2
    · have hst := hsame h1
      subst hst
      rw [hm0] at hm2
      simp only [Option.some.injEq] at hm2
      subst hm2
      rw [hmnum]; omega
  · intro hk0
    subst hk0
    rw [hrel2.2.2, hmdeps, linkedDeps_none ids ids.length m.Id]
    · rfl
    · intro k2 hk2
      have hk2lt : k2 < ids.length := (indexOf_of_getElem? ids hids k2 _ hk2).2
      exact Or.inl (List.getElem?_inj hk2lt hids (hk2.trans hkm.symm))
  · intro hkpos
    rw [hrel2.2.2, hmdeps, linkedDeps_at ids hids ids.length k m.Id ids[k - 1] hkm hkpos hklt
      (List.getElem?_eq_getElem (by omega))]
    rfl

/-- C2, witness: the queue and the collection of
`TestAddMergeTaskDependencies`; the merge task of the first of the three
items reports two dependents. -/
theorem C2_dependents_along_a_fresh_chain_witness :
    (addMergeTaskDependencies threeVersions threeMergeTasks).1 = none ∧
    ∃ m2, FindMergeTaskForVersion (addMergeTaskDependencies threeVersions threeMergeTasks).2 "v1" =
        .ok (some m2) ∧
      m2.NumDependents = 3 - 1 - 0 ∧
      (0 = 0 → m2.DependsOn = []) ∧ (0 < 0 → m2.DependsOn.length = 1) :=
  C2_dependents_along_a_fresh_chain threeVersions threeMergeTasks (by decide) (by decide)
    (by
      intro item hitem
      simp only [threeVersions, List.mem_cons, List.mem_singleton, List.not_mem_nil, or_false] at hitem
      rcases hitem with rfl | rfl | rfl
      · exact ⟨by decide, mergeTaskOf "1", rfl, rfl, rfl, by decide⟩
      · exact ⟨by decide, mergeTaskOf "2", rfl, rfl, rfl, by decide⟩
      · exact ⟨by decide, mergeTaskOf "3", rfl, rfl, rfl, by decide⟩)
    0 { Issue := "1", Version := "v1" } (by decide)

/-! ## Facts about the queue operations -/

theorem Remove_head (q : CommitQueue) (head : CommitQueueItem) (tail : List CommitQueueItem)
    (h : q.Queue = head :: tail) :
    q.Remove head.Issue = .ok (head, { q with Queue := tail }) := by
  simp [CommitQueue.Remove, h, List.eraseP]

theorem Remove_absent (q : CommitQueue) (issue : String)
    (h : issue ∉ q.Queue.map (fun item => item.Issue)) :
    q.Remove issue = .error ("item " ++ issue ++ " not found in the queue") := by
  have hfind : q.Queue.find? (fun item => item.Issue == issue) = none := by
    rw [List.find?_eq_none]
    intro item hitem hEq
    apply h
    simp only [List.mem_map]
    exact ⟨item, hitem, by simpa using hEq⟩
  simp [CommitQueue.Remove, hfind]

theorem dequeue_head (s : JobState) (head : CommitQueueItem) (tail : List CommitQueueItem)
    (h : s.cq.Queue = head :: tail) :
    dequeue s head =
      { s with cq := { s.cq with Queue := tail }, removeCalls := s.removeCalls ++ [head.Issue] } := by
  have hr : ({ s with removeCalls := s.removeCalls ++ [head.Issue] } : JobState).cq.Remove head.Issue =
      .ok (head, { s.cq with Queue := tail }) := Remove_head s.cq head tail h
  simp [dequeue, hr, logError]

theorem dequeue_absent (s : JobState) (item : CommitQueueItem)
    (h : item.Issue ∉ s.cq.Queue.map (fun i => i.Issue)) :
    dequeue s item =
      { s with
        errors := s.errors ++ [("error dequeuing item \x27" ++ item.Issue ++ "\x27") ++ ": " ++
          ("item " ++ item.Issue ++ " not found in the queue")],
        removeCalls := s.removeCalls ++ [item.Issue] } := by
  have hr : ({ s with removeCalls := s.removeCalls ++ [item.Issue] } : JobState).cq.Remove item.Issue =
      .error ("item " ++ item.Issue ++ " not found in the queue") := Remove_absent s.cq item.Issue h
  simp [dequeue, hr, logError, AddError]

/-- Whether the head is still in the queue or has been removed already,
`dequeue` leaves the tail of the queue, the events and the statuses as they
are. -/
theorem dequeue_evicts (s : JobState) (head : CommitQueueItem) (tail : List CommitQueueItem)
    (hnot : head.Issue ∉ tail.map (fun i => i.Issue))
    (h : s.cq.Queue = head :: tail ∨ s.cq.Queue = tail) :
    (dequeue s head).cq = { s.cq with Queue := tail } ∧
    (dequeue s head).events = s.events ∧
    (dequeue s head).statuses = s.statuses := by
  rcases h with h | h
  · rw [dequeue_head s head tail h]; simp
  · rw [dequeue_absent s head (by rw [h]; exact hnot)]
    refine ⟨?_, rfl, rfl⟩
    cases s with
    | mk cq errors events statuses removeCalls tasks users subscriptions calls queueID =>
      cases cq with
      | mk pid q => simp at h; simp [h]

/-- One eviction with its conclusion: the queue becomes the tail and exactly
one event is appended. -/
theorem evict_conclude (s : JobState) (head : CommitQueueItem) (tail : List CommitQueueItem)
    (status : String)
    (hnot : head.Issue ∉ tail.map (fun i => i.Issue))
    (h : s.cq.Queue = head :: tail ∨ s.cq.Queue = tail) :
    (LogCommitQueueConcludeTest (dequeue s head) head.Version status).cq = { s.cq with Queue := tail } ∧
    (LogCommitQueueConcludeTest (dequeue s head) head.Version status).events =
      s.events ++ [Event.CommitQueueConcludeTest head.Version status] ∧
    (LogCommitQueueConcludeTest (dequeue s head) head.Version status).statuses = s.statuses := by
  obtain ⟨h1, h2, h3⟩ := dequeue_evicts s head tail hnot h
  simp [LogCommitQueueConcludeTest, h1, h2, h3]

/-- The checks on the merge task remove nothing but the head and record
nothing but "enqueue failed" conclusions of the head's version. -/
theorem unstickMergeTask_spec (env : Env) (s : JobState) (head : CommitQueueItem)
    (tail : List CommitQueueItem) (mergeTask : Task)
    (hnot : head.Issue ∉ tail.map (fun i => i.Issue))
    (h : s.cq.Queue = head :: tail ∨ s.cq.Queue = tail) :
    ((unstickMergeTask env s head mergeTask).cq.Queue = head :: tail ∨
      (unstickMergeTask env s head mergeTask).cq.Queue = tail) ∧
    (unstickMergeTask env s head mergeTask).cq.ProjectID = s.cq.ProjectID ∧
    (∃ ev, (unstickMergeTask env s head mergeTask).events = s.events ++ ev ∧
      ∀ e ∈ ev, e = Event.CommitQueueConcludeTest head.Version EnqueueFailed) ∧
    (unstickMergeTask env s head mergeTask).statuses = s.statuses := by
  -- the state after the dispatchability check
  have step1 : ∀ s1 : JobState,
      s1 = (if (!mergeTask.Activated || decide (mergeTask.Priority < 0)) = true then
              LogCommitQueueConcludeTest (dequeue s head) head.Version EnqueueFailed else s) →
      (s1.cq.Queue = head :: tail ∨ s1.cq.Queue = tail) ∧ s1.cq.ProjectID = s.cq.ProjectID ∧
      (∃ ev, s1.events = s.events ++ ev ∧ ∀ e ∈ ev, e = Event.CommitQueueConcludeTest head.Version EnqueueFailed) ∧
      s1.statuses = s.statuses := by
    intro s1 hs1
    split at hs1
    · obtain ⟨h1, h2, h3⟩ := evict_conclude s head tail EnqueueFailed hnot h
      subst hs1
      refine ⟨Or.inr (by rw [h1]), by rw [h1], ⟨[Event.CommitQueueConcludeTest head.Version EnqueueFailed], h2, by simp⟩, h3⟩
    · subst hs1
      exact ⟨h, rfl, ⟨[], by simp, by simp⟩, rfl⟩
  obtain ⟨a1, a2, ⟨ev1, a3, a4⟩, a5⟩ := step1 _ rfl
  unfold unstickMergeTask
  simp only []
  split
  · split
    · obtain ⟨h1, h2, h3⟩ := evict_conclude _ head tail EnqueueFailed hnot a1
      refine ⟨Or.inr (by rw [h1]), by rw [h1]; exact a2,
        ⟨ev1 ++ [Event.CommitQueueConcludeTest head.Version EnqueueFailed], ?_, ?_⟩, by rw [h3]; exact a5⟩
      · rw [h2, a3, List.append_assoc]
      · intro e he
        rcases List.mem_append.mp he with he | he
        · exact a4 e he
        · simpa using he
    · exact ⟨a1, a2, ⟨ev1, a3, a4⟩, a5⟩
  · exact ⟨a1, a2, ⟨ev1, a3, a4⟩, a5⟩

/-- The run of `TryUnstick` on a head with a valid version whose patch is
found: the checks on the merge task, then the check of the finish time. -/
theorem TryUnstick_of_patch (env : Env) (projectRef : ProjectRef) (githubToken : String)
    (s : JobState) (head : CommitQueueItem) (tail : List CommitQueueItem) (patchDoc : Patch)
    (hq : s.cq.Queue = head :: tail) (hv : head.Version ≠ "")
    (hvalid : env.IsValidId head.Version = true)
    (hp : env.FindOne head.Version = .ok (some patchDoc)) :
    TryUnstick env projectRef githubToken s =
      (if IsZeroTime patchDoc.FinishTime = false then
        LogCommitQueueConcludeTest
          (dequeue
            (match env.FindMergeTaskForVersion head.Version with
              | .error err =>
                AddError s (some ("finding merge task for version \x27" ++ head.Version ++ "\x27: " ++ err))
              | .ok none => s
              | .ok (some mergeTask) => unstickMergeTask env s head mergeTask)
            head)
          head.Version
          (if patchDoc.Status = PatchFailed then MergeTestFailed else MergeTestSucceeded)
      else
        (match env.FindMergeTaskForVersion head.Version with
          | .error err =>
            AddError s (some ("finding merge task for version \x27" ++ head.Version ++ "\x27: " ++ err))
          | .ok none => s
          | .ok (some mergeTask) => unstickMergeTask env s head mergeTask)) := by
  unfold TryUnstick
  simp only [CommitQueue.Next, hq, hv, hvalid, hp, if_false, Bool.not_true]
  cases hm : env.FindMergeTaskForVersion head.Version with
  | error err => cases hz : IsZeroTime patchDoc.FinishTime <;> simp
  | ok mt =>
    cases mt with
    | none => cases hz : IsZeroTime patchDoc.FinishTime <;> simp
    | some mergeTask => cases hz : IsZeroTime patchDoc.FinishTime <;> simp

/-- The state after the checks on the merge task: nothing but the head is
removed, nothing but "enqueue failed" conclusions are recorded. -/
theorem mergeTaskChecks_spec (env : Env) (s : JobState) (head : CommitQueueItem)
    (tail : List CommitQueueItem)
    (hnot : head.Issue ∉ tail.map (fun i => i.Issue))
    (hq : s.cq.Queue = head :: tail) (s2 : JobState)
    (hs2 : s2 = (match env.FindMergeTaskForVersion head.Version with
              | .error err =>
                AddError s (some ("finding merge task for version \x27" ++ head.Version ++ "\x27: " ++ err))
              | .ok none => s
              | .ok (some mergeTask) => unstickMergeTask env s head mergeTask)) :
    (s2.cq.Queue = head :: tail ∨ s2.cq.Queue = tail) ∧ s2.cq.ProjectID = s.cq.ProjectID ∧
    (∃ ev, s2.events = s.events ++ ev ∧
      ∀ e ∈ ev, e = Event.CommitQueueConcludeTest head.Version EnqueueFailed) ∧
    s2.statuses = s.statuses := by
  subst hs2
  split
  · exact ⟨Or.inl (by simpa [AddError] using hq), by simp [AddError], ⟨[], by simp [AddError], by simp⟩,
      by simp [AddError]⟩
  · exact ⟨Or.inl hq, rfl, ⟨[], by simp, by simp⟩, rfl⟩
  · exact unstickMergeTask_spec env s head tail _ hnot (Or.inl hq)

/-- C4: for every queue (of pairwise distinct issues) whose head has a valid
version whose patch record has a non-zero finish time, `TryUnstick` evicts
exactly that head, whatever the merge task lookup and the checks on the merge
task give: the queue becomes its tail, in the original order, and the last
event recorded is the conclusion of the head's version, "merge test failed"
when the patch status is failed and "merge test succeeded" otherwise; the
only events recorded before it are "enqueue failed" conclusions. -/
theorem C4_finished_head_is_evicted (env : Env) (projectRef : ProjectRef) (githubToken : String)
    (s : JobState) (head : CommitQueueItem) (tail : List CommitQueueItem) (patchDoc : Patch)
    (hq : s.cq.Queue = head :: tail)
    (hnodup : (s.cq.Queue.map (fun i => i.Issue)).Nodup)
    (hv : head.Version ≠ "") (hvalid : env.IsValidId head.Version = true)
    (hp : env.FindOne head.Version = .ok (some patchDoc))
    (hfin : IsZeroTime patchDoc.FinishTime = false) :
    (TryUnstick env projectRef githubToken s).cq = { s.cq with Queue := tail } ∧
    ∃ earlier, (TryUnstick env projectRef githubToken s).events =
        s.events ++ earlier ++ [Event.CommitQueueConcludeTest head.Version
          (if patchDoc.Status = PatchFailed then MergeTestFailed else MergeTestSucceeded)] ∧
      ∀ e ∈ earlier, e = Event.CommitQueueConcludeTest head.Version EnqueueFailed := by
  have hnot : head.Issue ∉ tail.map (fun i => i.Issue) := by
    rw [hq] at hnodup
    simpa using (List.nodup_cons.mp hnodup).1
  rw [TryUnstick_of_patch env projectRef githubToken s head tail patchDoc hq hv hvalid hp, if_pos hfin]
  obtain ⟨b1, b2, ⟨ev, b3, b4⟩, _⟩ := mergeTaskChecks_spec env s head tail hnot hq _ rfl
  obtain ⟨c1, c2, _⟩ := evict_conclude _ head tail
    (if patchDoc.Status = PatchFailed then MergeTestFailed else MergeTestSucceeded) hnot b1
  refine ⟨?_, ev, ?_, b4⟩
  · rw [c1]
    generalize (match env.FindMergeTaskForVersion head.Version with
              | .error err =>
                AddError s (some ("finding merge task for version \x27" ++ head.Version ++ "\x27: " ++ err))
              | .ok none => s
              | .ok (some mergeTask) => unstickMergeTask env s head mergeTask) = s2 at b2
    cases s with
    | mk cq errors events statuses removeCalls tasks users subscriptions calls queueID =>
      cases s2 with
      | mk cq2 e2 ev2 st2 rc2 tk2 us2 sb2 cl2 =>
        cases cq; cases cq2; simp at b2; simp [b2]
  · rw [c2, b3]

/-- C4, witness: the head of `processingQueue` with a finished, failed patch
and no merge task is evicted and "merge test failed" is recorded. -/
theorem C4_finished_head_is_evicted_witness :
    (TryUnstick (constEnv true (.ok (some { Status := PatchFailed, FinishTime := 1 })) (.ok none) (.ok []))
        mciRef "" processingQueue).cq =
      { ProjectID := "mci", Queue := [{ Issue := "2", Source := SourceDiff }] } ∧
    ∃ earlier,
      (TryUnstick (constEnv true (.ok (some { Status := PatchFailed, FinishTime := 1 })) (.ok none) (.ok []))
        mciRef "" processingQueue).events =
        [] ++ earlier ++ [Event.CommitQueueConcludeTest "aabbccddeeff112233445566" MergeTestFailed] ∧
      ∀ e ∈ earlier, e = Event.CommitQueueConcludeTest "aabbccddeeff112233445566" EnqueueFailed :=
  C4_finished_head_is_evicted
    (constEnv true (.ok (some { Status := PatchFailed, FinishTime := 1 })) (.ok none) (.ok []))
    mciRef "" processingQueue
    { Issue := "aabbccddeeff112233445566", Source := SourceDiff, Version := "aabbccddeeff112233445566" }
    [{ Issue := "2", Source := SourceDiff }]
    { Status := PatchFailed, FinishTime := 1 }
    rfl (by decide) (by decide) rfl rfl rfl

/-- C5, counterexample: the merge task of the head is blocked by an
unattainable dependency and one of its dependencies is mid-reset.  When the
patch of the head has a finish time, `TryUnstick` evicts the head and records
the conclusion of the merge test; when the merge task is not activated, it
evicts the head and records "enqueue failed"; when the version of the head is
not a valid id, or has no patch record, it evicts the head and adds an error
to the job. -/
theorem C5_blocked_head_with_resetting_dependency_is_evicted :
    blockedMergeTask.Blocked = true ∧
    (resettingTask.Aborted = true ∧ resettingTask.ResetWhenFinished = true) ∧
    (TryUnstick
        (constEnv true (.ok (some { FinishTime := 1 })) (.ok (some blockedMergeTask))
          (.ok [resettingTask]))
        mciRef "" processingQueue).cq.Queue = [{ Issue := "2", Source := SourceDiff }] ∧
    (TryUnstick
        (constEnv true (.ok (some { FinishTime := 1 })) (.ok (some blockedMergeTask))
          (.ok [resettingTask]))
        mciRef "" processingQueue).events =
      [Event.CommitQueueConcludeTest "aabbccddeeff112233445566" MergeTestSucceeded] ∧
    (TryUnstick
        (constEnv true (.ok (some {})) (.ok (some { blockedMergeTask with Activated := false }))
          (.ok [resettingTask]))
        mciRef "" processingQueue).cq.Queue = [{ Issue := "2", Source := SourceDiff }] ∧
    (TryUnstick
        (constEnv true (.ok (some {})) (.ok (some { blockedMergeTask with Activated := false }))
          (.ok [resettingTask]))
        mciRef "" processingQueue).events =
      [Event.CommitQueueConcludeTest "aabbccddeeff112233445566" EnqueueFailed] ∧
    (TryUnstick
        (constEnv false (.ok (some {})) (.ok (some blockedMergeTask)) (.ok [resettingTask]))
        mciRef "" processingQueue).cq.Queue = [{ Issue := "2", Source := SourceDiff }] ∧
    (TryUnstick
        (constEnv false (.ok (some {})) (.ok (some blockedMergeTask)) (.ok [resettingTask]))
        mciRef "" processingQueue).errors.length = 1 ∧
    (TryUnstick
        (constEnv true (.ok none) (.ok (some blockedMergeTask)) (.ok [resettingTask]))
        mciRef "" processingQueue).cq.Queue = [{ Issue := "2", Source := SourceDiff }] ∧
    (TryUnstick
        (constEnv true (.ok none) (.ok (some blockedMergeTask)) (.ok [resettingTask]))
        mciRef "" processingQueue).errors.length = 1 := by
  decide

/-- C5, amended: for every queue whose head has a valid version, a patch
record without finish time and an activated merge task of non-negative
priority that is blocked, if the lookup of its aborting and resetting
dependencies does not answer "none" (at least one dependency is mid-reset, or
the lookup fails), `TryUnstick` changes nothing: the queue is unchanged, no
conclusion event is recorded, no error is added, nothing is removed or
sent. -/
theorem C5_resetting_dependencies_defer (env : Env) (projectRef : ProjectRef)
    (githubToken : String) (s : JobState) (head : CommitQueueItem)
    (tail : List CommitQueueItem) (patchDoc : Patch) (mergeTask : Task)
    (hq : s.cq.Queue = head :: tail) (hv : head.Version ≠ "")
    (hvalid : env.IsValidId head.Version = true)
    (hp : env.FindOne head.Version = .ok (some patchDoc))
    (hfin : IsZeroTime patchDoc.FinishTime = true)
    (hm : env.FindMergeTaskForVersion head.Version = .ok (some mergeTask))
    (hact : mergeTask.Activated = true) (hprio : 0 ≤ mergeTask.Priority)
    (hblocked : mergeTask.Blocked = true)
    (hreset : env.FindAbortingAndResettingDependencies mergeTask ≠ .ok []) :
    TryUnstick env projectRef githubToken s = s := by
  rw [TryUnstick_of_patch env projectRef githubToken s head tail patchDoc hq hv hvalid hp]
  have hprio2 : ¬ mergeTask.Priority < 0 := by omega
  cases hr : env.FindAbortingAndResettingDependencies mergeTask with
  | error err => simp [hfin, hm, unstickMergeTask, hact, hblocked, hprio2, hr]
  | ok resetting =>
    cases resetting with
    | nil => exact absurd hr hreset
    | cons t ts => simp [hfin, hm, unstickMergeTask, hact, hblocked, hprio2, hr]

/-- C5, witness: the scenario of
`TestTryUnstickDoesNotUnstickMergeTaskBlockedByResettingDependencies`. -/
theorem C5_resetting_dependencies_defer_witness :
    TryUnstick (constEnv true (.ok (some {})) (.ok (some blockedMergeTask)) (.ok [resettingTask]))
      mciRef "" processingQueue = processingQueue :=
  C5_resetting_dependencies_defer
    (constEnv true (.ok (some {})) (.ok (some blockedMergeTask)) (.ok [resettingTask]))
    mciRef "" processingQueue
    { Issue := "aabbccddeeff112233445566", Source := SourceDiff, Version := "aabbccddeeff112233445566" }
    [{ Issue := "2", Source := SourceDiff }] {} blockedMergeTask
    rfl (by decide) rfl rfl rfl rfl rfl (by decide) rfl (by simp [constEnv])

/-- C7: for every queue (of pairwise distinct issues) whose head has a valid
version with an existing patch record and a merge task that is not activated
or has negative priority, `TryUnstick` evicts the head, the queue becoming
its tail, and records the conclusion "enqueue failed" for the head's version,
as the first event of the call. -/
theorem C7_undispatchable_merge_task_is_evicted (env : Env) (projectRef : ProjectRef)
    (githubToken : String) (s : JobState) (head : CommitQueueItem)
    (tail : List CommitQueueItem) (patchDoc : Patch) (mergeTask : Task)
    (hq : s.cq.Queue = head :: tail)
    (hnodup : (s.cq.Queue.map (fun i => i.Issue)).Nodup)
    (hv : head.Version ≠ "") (hvalid : env.IsValidId head.Version = true)
    (hp : env.FindOne head.Version = .ok (some patchDoc))
    (hm : env.FindMergeTaskForVersion head.Version = .ok (some mergeTask))
    (hund : mergeTask.Activated = false ∨ mergeTask.Priority < 0) :
    (TryUnstick env projectRef githubToken s).cq = { s.cq with Queue := tail } ∧
    ∃ later, (TryUnstick env projectRef githubToken s).events =
      s.events ++ [Event.CommitQueueConcludeTest head.Version EnqueueFailed] ++ later := by
  have hnot : head.Issue ∉ tail.map (fun i => i.Issue) := by
    rw [hq] at hnodup
    simpa using (List.nodup_cons.mp hnodup).1
  have hund2 : (!mergeTask.Activated || decide (mergeTask.Priority < 0)) = true := by
    rcases hund with h | h <;> simp [h]
  obtain ⟨a1, a2, _⟩ := evict_conclude s head tail EnqueueFailed hnot (Or.inl hq)
  have h2 : (unstickMergeTask env s head mergeTask).cq = { s.cq with Queue := tail } ∧
      ∃ later, (unstickMergeTask env s head mergeTask).events =
        s.events ++ [Event.CommitQueueConcludeTest head.Version EnqueueFailed] ++ later := by
    unfold unstickMergeTask
    simp only [hund2, if_true]
    split
    · split
      · obtain ⟨b1, b2, _⟩ := evict_conclude
          (LogCommitQueueConcludeTest (dequeue s head) head.Version EnqueueFailed) head tail
          EnqueueFailed hnot (Or.inr (by rw [a1]))
        exact ⟨by rw [b1, a1], [Event.CommitQueueConcludeTest head.Version EnqueueFailed], by rw [b2, a2]⟩
      · exact ⟨a1, [], by simp [a2]⟩
    · exact ⟨a1, [], by simp [a2]⟩
  obtain ⟨c1, later, c2⟩ := h2
  rw [TryUnstick_of_patch env projectRef githubToken s head tail patchDoc hq hv hvalid hp]
  simp only [hm]
  split
  · obtain ⟨d1, d2, _⟩ := evict_conclude (unstickMergeTask env s head mergeTask) head tail
      (if patchDoc.Status = PatchFailed then MergeTestFailed else MergeTestSucceeded) hnot
      (Or.inr (by rw [c1]))
    exact ⟨by rw [d1, c1], later ++ [Event.CommitQueueConcludeTest head.Version
      (if patchDoc.Status = PatchFailed then MergeTestFailed else MergeTestSucceeded)],
      by rw [d2, c2, List.append_assoc]⟩
  · exact ⟨c1, later, c2⟩

/-- C7, witness: a deactivated merge task at the head of `processingQueue`. -/
theorem C7_undispatchable_merge_task_is_evicted_witness :
    (TryUnstick (constEnv true (.ok (some {})) (.ok (some { Id := "merge_task" })) (.ok []))
        mciRef "" processingQueue).cq =
      { ProjectID := "mci", Queue := [{ Issue := "2", Source := SourceDiff }] } ∧
    ∃ later,
      (TryUnstick (constEnv true (.ok (some {})) (.ok (some { Id := "merge_task" })) (.ok []))
        mciRef "" processingQueue).events =
        [] ++ [Event.CommitQueueConcludeTest "aabbccddeeff112233445566" EnqueueFailed] ++ later :=
  C7_undispatchable_merge_task_is_evicted
    (constEnv true (.ok (some {})) (.ok (some { Id := "merge_task" })) (.ok []))
    mciRef "" processingQueue
    { Issue := "aabbccddeeff112233445566", Source := SourceDiff, Version := "aabbccddeeff112233445566" }
    [{ Issue := "2", Source := SourceDiff }] {} { Id := "merge_task" }
    rfl (by decide) (by decide) rfl rfl rfl (Or.inl rfl)

/-- C8, at the failing input: the head has a valid version and a finished
patch, and its merge task is deactivated and blocked while no dependency is
resetting.  All three unstick cases match and none stops the call: `Remove`
is called on the head three times and three conclusions are recorded for the
same version. -/
theorem C8_three_evictions_in_one_call :
    (TryUnstick
        (constEnv true (.ok (some { FinishTime := 1 }))
          (.ok (some { blockedMergeTask with Activated := false })) (.ok []))
        mciRef "" processingQueue).removeCalls =
      ["aabbccddeeff112233445566", "aabbccddeeff112233445566", "aabbccddeeff112233445566"] ∧
    (TryUnstick
        (constEnv true (.ok (some { FinishTime := 1 }))
          (.ok (some { blockedMergeTask with Activated := false })) (.ok []))
        mciRef "" processingQueue).events =
      [Event.CommitQueueConcludeTest "aabbccddeeff112233445566" EnqueueFailed,
       Event.CommitQueueConcludeTest "aabbccddeeff112233445566" EnqueueFailed,
       Event.CommitQueueConcludeTest "aabbccddeeff112233445566" MergeTestSucceeded] := by
  decide

/-- C9, counterexample: the head of `processingPRQueue` is sourced from a
pull request and its version is not a valid id; `TryUnstick` evicts it and
adds an error to the job, but hands no status to the review system. -/
theorem C9_invalid_version_sends_no_status :
    (processingPRQueue.cq.Queue.map (fun i => i.Source)).head? = some SourcePullRequest ∧
    (TryUnstick (constEnv false (.ok none) (.ok none) (.ok [])) mciRef "" processingPRQueue).cq.Queue =
      [{ Issue := "2", Source := SourceDiff }] ∧
    (TryUnstick (constEnv false (.ok none) (.ok none) (.ok [])) mciRef "" processingPRQueue).statuses = [] := by
  decide

/-- C9, amended: for every queue whose head has a non-empty version that is
not a structurally valid version identifier, `TryUnstick` evicts the head and
adds the error "patch was removed from the commit queue" to the job; whatever
the source of the head, no status is handed to the review system and no event
is recorded, and the outcome does not depend on any patch or merge task
lookup. -/
theorem C9_invalid_version_is_evicted (env : Env) (projectRef : ProjectRef)
    (githubToken : String) (s : JobState) (head : CommitQueueItem)
    (tail : List CommitQueueItem)
    (hq : s.cq.Queue = head :: tail) (hv : head.Version ≠ "")
    (hinvalid : env.IsValidId head.Version = false) :
    TryUnstick env projectRef githubToken s =
      { s with
        cq := { s.cq with Queue := tail },
        errors := s.errors ++ ["patch was removed from the commit queue" ++ ": " ++
          ("patch ID \x27" ++ head.Issue ++ "\x27 is not an object id")],
        removeCalls := s.removeCalls ++ [head.Issue] } := by
  unfold TryUnstick
  simp only [CommitQueue.Next, hq, hv, hinvalid, if_false, Bool.not_false, if_true]
  rw [dequeue_head s head tail hq]
  simp [logError, AddError]

/-- C9, witness: the head of `processingPRQueue` with an invalid version. -/
theorem C9_invalid_version_is_evicted_witness :
    TryUnstick (constEnv false (.ok none) (.ok none) (.ok [])) mciRef "" processingPRQueue =
      { processingPRQueue with
        cq := { processingPRQueue.cq with Queue := [{ Issue := "2", Source := SourceDiff }] },
        errors := processingPRQueue.errors ++ ["patch was removed from the commit queue" ++ ": " ++
          ("patch ID \x27" ++ "1234" ++ "\x27 is not an object id")],
        removeCalls := processingPRQueue.removeCalls ++ ["1234"] } :=
  C9_invalid_version_is_evicted (constEnv false (.ok none) (.ok none) (.ok [])) mciRef ""
    processingPRQueue
    { Issue := "1234", Source := SourcePullRequest, Version := "aabbccddeeff112233445566" }
    [{ Issue := "2", Source := SourceDiff }] rfl (by decide) rfl

/-- C10, counterexample: the head of `processingPRQueue` is sourced from a
pull request and has no patch record, and the pull request cannot be fetched;
`TryUnstick` evicts the head and adds the errors to the job, but no status
reaches the review system. -/
theorem C10_unfetchable_pull_request_is_not_notified :
    (processingPRQueue.cq.Queue.map (fun i => i.Source)).head? = some SourcePullRequest ∧
    (TryUnstick unreachableGithubEnv mciRef "" processingPRQueue).cq.Queue =
      [{ Issue := "2", Source := SourceDiff }] ∧
    (TryUnstick unreachableGithubEnv mciRef "" processingPRQueue).statuses = [] := by
  decide

/-- C10, amended: for every queue whose head has a valid version for which
no patch record exists, `TryUnstick` evicts the head.  For a head that is not
sourced from a pull request no status is sent.  For a head sourced from a
pull request the review system is notified of the failure "commit queue entry
was stuck with no patch" when `checkPR` succeeds; when `checkPR` fails, its
error is added to the job and no status is sent. -/
theorem C10_missing_patch_is_evicted (env : Env) (projectRef : ProjectRef)
    (githubToken : String) (s : JobState) (head : CommitQueueItem)
    (tail : List CommitQueueItem)
    (hq : s.cq.Queue = head :: tail) (hv : head.Version ≠ "")
    (hvalid : env.IsValidId head.Version = true)
    (hp : env.FindOne head.Version = .ok none) :
    (TryUnstick env projectRef githubToken s).cq = { s.cq with Queue := tail } ∧
    (head.Source ≠ SourcePullRequest →
      (TryUnstick env projectRef githubToken s).statuses = s.statuses) ∧
    (head.Source = SourcePullRequest →
      (∀ err, (checkPR env githubToken head.Issue projectRef.Owner projectRef.Repo).2.2 = some err →
        (TryUnstick env projectRef githubToken s).statuses = s.statuses ∧
        (TryUnstick env projectRef githubToken s).errors =
          s.errors ++ ["patch was removed from the queue" ++ ": " ++
            "patch at the top of the commit queue is nil", err]) ∧
      ((checkPR env githubToken head.Issue projectRef.Owner projectRef.Repo).2.2 = none →
        (TryUnstick env projectRef githubToken s).statuses =
          s.statuses ++ [{ pr := (checkPR env githubToken head.Issue projectRef.Owner projectRef.Repo).1,
                           state := GithubStateFailure,
                           description := "commit queue entry was stuck with no patch",
                           versionID := "" }])) := by
  unfold TryUnstick
  simp only [CommitQueue.Next, hq, hv, hvalid, hp, if_false, Bool.not_true]
  rw [dequeue_head s head tail hq]
  by_cases hsrc : head.Source = SourcePullRequest
  · simp only [hsrc, if_true]
    rcases hc : checkPR env githubToken head.Issue projectRef.Owner projectRef.Repo with ⟨pr, dq, err⟩
    cases err with
    | none =>
      simp [logError, AddError, SendCommitQueueGithubStatus]
      cases env.SendCommitQueueGithubStatus pr GithubStateFailure
        "commit queue entry was stuck with no patch" "" <;> simp
    | some e => simp [logError, AddError]
  · simp [hsrc, logError, AddError]

/-- C10, witness: the head of `processingPRQueue` without a patch record,
its pull request being fetched and valid. -/
theorem C10_missing_patch_is_evicted_witness :
    (TryUnstick (constEnv true (.ok none) (.ok none) (.ok [])) mciRef "" processingPRQueue).cq.Queue =
      [{ Issue := "2", Source := SourceDiff }] ∧
    (TryUnstick (constEnv true (.ok none) (.ok none) (.ok [])) mciRef "" processingPRQueue).statuses =
      [{ pr := some { Number := 1234 }, state := GithubStateFailure,
         description := "commit queue entry was stuck with no patch", versionID := "" }] := by
  have h := C10_missing_patch_is_evicted (constEnv true (.ok none) (.ok none) (.ok [])) mciRef ""
    processingPRQueue
    { Issue := "1234", Source := SourcePullRequest, Version := "aabbccddeeff112233445566" }
    [{ Issue := "2", Source := SourceDiff }] rfl (by decide) rfl rfl
  refine ⟨by rw [h.1], ?_⟩
  rw [(h.2.2 rfl).2 (by decide)]
  decide

/-! ## The frame of the steps of the job -/

theorem AddError_eq (s : JobState) (err : Option String) :
    AddError s err = { s with errors := s.errors ++ err.toList } := by
  cases err <;> simp [AddError]

theorem logError_eq (s : JobState) (err : Option String) (msg : String) :
    logError s err msg = { s with errors := s.errors ++ (err.map (fun e => msg ++ ": " ++ e)).toList } := by
  cases err <;> simp [logError, AddError]

theorem dequeue_eq (s : JobState) (item : CommitQueueItem) :
    dequeue s item =
      { s with
        cq := { s.cq with Queue := s.cq.Queue.eraseP (fun i => i.Issue == item.Issue) },
        errors := s.errors ++
          (if item.Issue ∈ s.cq.Queue.map (fun i => i.Issue) then []
           else [("error dequeuing item \x27" ++ item.Issue ++ "\x27") ++ ": " ++
                  ("item " ++ item.Issue ++ " not found in the queue")]),
        removeCalls := s.removeCalls ++ [item.Issue] } := by
  by_cases h : item.Issue ∈ s.cq.Queue.map (fun i => i.Issue)
  · have hfind : ∃ x, s.cq.Queue.find? (fun i => i.Issue == item.Issue) = some x := by
      cases hf : s.cq.Queue.find? (fun i => i.Issue == item.Issue) with
      | some x => exact ⟨x, rfl⟩
      | none =>
        exfalso
        rw [List.find?_eq_none] at hf
        obtain ⟨i, hi, hEq⟩ := List.mem_map.mp h
        exact hf i hi (by simp [hEq])
    obtain ⟨x, hx⟩ := hfind
    simp [dequeue, CommitQueue.Remove, hx, logError, h]
  · rw [dequeue_absent s item h]
    have he : s.cq.Queue.eraseP (fun i => i.Issue == item.Issue) = s.cq.Queue := by
      apply List.eraseP_of_forall_not
      intro i hi hEq
      exact h (List.mem_map.mpr ⟨i, hi, by simpa using hEq⟩)
    simp [h, he]

theorem cq_eq_of (q q2 : CommitQueue) (h1 : q2.ProjectID = q.ProjectID) (tail : List CommitQueueItem)
    (h2 : q2.Queue = tail) : q2 = { q with Queue := tail } := by
  cases q; cases q2; simp at h1 h2; simp [h1, h2]

/-! ## The claim on the frame of the unstick monitor -/

/-- C11: for every queue with pairwise distinct issues, the queue after
`TryUnstick` is the queue before or the queue before without its first item,
the other items being kept as they are and in their order; and when the queue
is empty or the version of the head is empty, `TryUnstick` changes nothing at
all. -/
theorem C11_only_the_head_is_acted_upon (env : Env) (projectRef : ProjectRef)
    (githubToken : String) (s : JobState)
    (hnodup : (s.cq.Queue.map (fun i => i.Issue)).Nodup) :
    ((TryUnstick env projectRef githubToken s).cq = s.cq ∨
      ∃ head tail, s.cq.Queue = head :: tail ∧
        (TryUnstick env projectRef githubToken s).cq = { s.cq with Queue := tail }) ∧
    ((s.cq.Queue = [] ∨ ∃ head tail, s.cq.Queue = head :: tail ∧ head.Version = "") →
      TryUnstick env projectRef githubToken s = s) := by
  have hfix : (s.cq.Queue = [] ∨ ∃ head tail, s.cq.Queue = head :: tail ∧ head.Version = "") →
      TryUnstick env projectRef githubToken s = s := by
    rintro (h | ⟨head, tail, h, hv⟩)
    · simp [TryUnstick, CommitQueue.Next, h]
    · simp [TryUnstick, CommitQueue.Next, h, hv]
  refine ⟨?_, hfix⟩
  cases hq : s.cq.Queue with
  | nil => exact Or.inl (by rw [hfix (Or.inl hq)])
  | cons head tail =>
    have hnot : head.Issue ∉ tail.map (fun i => i.Issue) := by
      rw [hq] at hnodup
      simpa using (List.nodup_cons.mp hnodup).1
    by_cases hv : head.Version = ""
    · exact Or.inl (by rw [hfix (Or.inr ⟨head, tail, hq, hv⟩)])
    · cases hvalid : env.IsValidId head.Version with
      | false =>
        refine Or.inr ⟨head, tail, rfl, ?_⟩
        simp [TryUnstick, CommitQueue.Next, hq, hv, hvalid, logError_eq, dequeue_head s head tail hq]
      | true =>
        cases hp : env.FindOne head.Version with
        | error err =>
          refine Or.inl ?_
          simp [TryUnstick, CommitQueue.Next, hq, hv, hvalid, hp, AddError_eq]
        | ok found =>
          cases found with
          | none =>
            refine Or.inr ⟨head, tail, rfl, ?_⟩
            simp only [TryUnstick, CommitQueue.Next, hq, hv, hvalid, hp, logError_eq,
              dequeue_head s head tail hq, AddError_eq, SendCommitQueueGithubStatus]
            simp only [Bool.not_true, Bool.false_eq_true, if_false]
            split
            · split <;> rfl
            · rfl
          | some patchDoc =>
            rw [TryUnstick_of_patch env projectRef githubToken s head tail patchDoc hq hv hvalid hp]
            obtain ⟨b1, b2, _, _⟩ := mergeTaskChecks_spec env s head tail hnot hq _ rfl
            split
            · obtain ⟨c1, _, _⟩ := evict_conclude _ head tail
                (if patchDoc.Status = PatchFailed then MergeTestFailed else MergeTestSucceeded) hnot b1
              refine Or.inr ⟨head, tail, rfl, ?_⟩
              rw [c1]
              exact cq_eq_of _ _ (by simpa using b2) tail rfl
            · rcases b1 with b1 | b1
              · refine Or.inl ?_
                have := cq_eq_of s.cq _ b2 (head :: tail) b1
                rw [this, ← hq]
              · exact Or.inr ⟨head, tail, rfl, cq_eq_of s.cq _ b2 tail b1⟩

/-- C11, witness: on `processingQueue` with a finished patch the head is
removed and the second item is kept as it is. -/
theorem C11_only_the_head_is_acted_upon_witness :
    ((TryUnstick (constEnv true (.ok (some { FinishTime := 1 })) (.ok none) (.ok []))
        mciRef "" processingQueue).cq = processingQueue.cq ∨
      ∃ head tail, processingQueue.cq.Queue = head :: tail ∧
        (TryUnstick (constEnv true (.ok (some { FinishTime := 1 })) (.ok none) (.ok []))
          mciRef "" processingQueue).cq = { processingQueue.cq with Queue := tail }) ∧
    (TryUnstick (constEnv true (.ok (some { FinishTime := 1 })) (.ok none) (.ok []))
        mciRef "" processingQueue).cq.Queue = [{ Issue := "2", Source := SourceDiff }] :=
  ⟨(C11_only_the_head_is_acted_upon
      (constEnv true (.ok (some { FinishTime := 1 })) (.ok none) (.ok [])) mciRef "" processingQueue
      (by decide)).1, by decide⟩

/-! ## The claims on the merge task and on the refresh of a patch -/

/-- C17: on a patch document whose change to the module `sample` comes before
the change to the project itself, `updatePatch` succeeds and sets the commit
of the patch document to the tip `aaa` of the branch of the project, but the
entry with the empty module name gets the tip `bbb` of the branch of the
module, not the tip of the branch of the project. -/
theorem C17_project_entry_after_module_entry_gets_module_tip :
    (updatePatch moduleEnv {} "" evergreenRef moduleFirstPatch).1.Githash = "aaa" ∧
    (updatePatch moduleEnv {} "" evergreenRef moduleFirstPatch).1.Patches =
      [{ ModuleName := "sample", Githash := "bbb" }, { ModuleName := "", Githash := "bbb" }] ∧
    (updatePatch moduleEnv {} "" evergreenRef moduleFirstPatch).2.toOption.isSome = true := by
  decide

/-- C18: `getMergeTaskCommands` returns for the source `diff` the two
commands `git.get_project` (of type setup, in the directory `src`, with the
committer name and e-mail of the commit queue settings) and `git.push` (in
the directory `src`), in this order and without error; for the source of a
pull request the single command `git.merge_pr` without error; and it returns
an error if and only if the source is neither of the two, and then no
command. -/
theorem C18_merge_task_commands_by_source (settings : Settings) (source : String) :
    getMergeTaskCommands settings SourceDiff =
      ([{ Command := "git.get_project", CommandType := CommandTypeSetup,
          Params := [("directory", "src"),
                     ("committer_name", settings.CommitQueue.CommitterName),
                     ("committer_email", settings.CommitQueue.CommitterEmail)] },
        { Command := "git.push", CommandType := "", Params := [("directory", "src")] }], none) ∧
    getMergeTaskCommands settings SourcePullRequest =
      ([{ Command := "git.merge_pr", CommandType := "", Params := [] }], none) ∧
    ((getMergeTaskCommands settings source).2 ≠ none ↔
      (source ≠ SourceDiff ∧ source ≠ SourcePullRequest)) ∧
    ((getMergeTaskCommands settings source).2 ≠ none →
      (getMergeTaskCommands settings source).1 = []) := by
  have hne : SourcePullRequest ≠ SourceDiff := by decide
  refine ⟨by simp [getMergeTaskCommands], by simp [getMergeTaskCommands, hne], ?_, ?_⟩
  · by_cases h1 : source = SourceDiff
    · simp [getMergeTaskCommands, h1]
    · by_cases h2 : source = SourcePullRequest
      · simp [getMergeTaskCommands, h2, hne]
      · simp [getMergeTaskCommands, h1, h2]
  · by_cases h1 : source = SourceDiff
    · simp [getMergeTaskCommands, h1]
    · by_cases h2 : source = SourcePullRequest
      · simp [getMergeTaskCommands, h2, hne]
      · simp [getMergeTaskCommands, h1, h2]

/-- C18, witness: an unknown source gives an error and no command. -/
theorem C18_merge_task_commands_by_source_witness :
    (getMergeTaskCommands {} "cli").2 ≠ none ∧ (getMergeTaskCommands {} "cli").1 = [] :=
  ⟨by decide,
   (C18_merge_task_commands_by_source {} "cli").2.2.2 (by decide)⟩

/-- The result of `AddMergeTaskAndVariant` when the settings are found and
the source is known. -/
theorem AddMergeTaskAndVariant_of_commands (env : Env) (patchDoc : Patch) (project : Project)
    (projectRef : ProjectRef) (source : String) (settings : Settings)
    (cmds : List PluginCommandConf)
    (hconf : env.GetConfig = .ok settings)
    (hcmds : getMergeTaskCommands settings source = (cmds, none)) :
    ∃ bv t project2,
      bv.Name = MergeTaskVariant ∧
      bv.Tasks = [{ Name := MergeTaskGroup, IsGroup := true, CommitQueueMerge := true }] ∧
      t.Name = MergeTaskName ∧
      t.DependsOn = patchDoc.VariantsTasks.flatMap (fun vt =>
        vt.Tasks.map (fun n => { Name := n, Variant := vt.Variant, Status := "" })) ∧
      t.Commands = cmds ∧
      project2 = { project with
        BuildVariants := project.BuildVariants ++ [bv],
        Tasks := project.Tasks ++ [t],
        TaskGroups := project.TaskGroups ++
          [{ Name := MergeTaskGroup, Tasks := [MergeTaskName], MaxHosts := 1 }] } ∧
      (AddMergeTaskAndVariant env patchDoc project projectRef source =
          ({ patchDoc with
              PatchedParserProject := ((env.Marshal project2).toOption.getD ""),
              BuildVariants := patchDoc.BuildVariants ++ [MergeTaskVariant],
              Tasks := patchDoc.Tasks ++ [MergeTaskName],
              VariantsTasks := patchDoc.VariantsTasks ++
                [{ Variant := MergeTaskVariant, Tasks := [MergeTaskName] }] },
           project2, none) ∨
       ∃ err, AddMergeTaskAndVariant env patchDoc project projectRef source =
          (patchDoc, project2, some err)) := by
  refine ⟨{ Name := MergeTaskVariant, DisplayName := "Commit Queue Merge",
            RunOn := [settings.CommitQueue.MergeTaskDistro],
            Tasks := [{ Name := MergeTaskGroup, IsGroup := true, CommitQueueMerge := true }],
            Modules := (patchDoc.Patches.filter (fun m => m.ModuleName != "")).map
              (fun m => m.ModuleName) },
          { Name := MergeTaskName,
            DependsOn := patchDoc.VariantsTasks.flatMap (fun vt =>
              vt.Tasks.map (fun n => { Name := n, Variant := vt.Variant, Status := "" })),
            Commands := cmds },
          _, rfl, rfl, rfl, rfl, rfl, rfl, ?_⟩
  unfold AddMergeTaskAndVariant
  simp only [hconf, hcmds]
  split
  · exact Or.inr ⟨_, rfl⟩
  · split
    · exact Or.inr ⟨_, rfl⟩
    · rename_i yamlBytes hy
      left
      simp only [hy, Except.toOption, Option.getD]

theorem AddMergeTaskAndVariant_unknown_source (env : Env) (patchDoc : Patch) (project : Project)
    (projectRef : ProjectRef) (source : String)
    (h : source ≠ SourceDiff ∧ source ≠ SourcePullRequest) :
    (AddMergeTaskAndVariant env patchDoc project projectRef source).1 = patchDoc ∧
    (AddMergeTaskAndVariant env patchDoc project projectRef source).2.1 = project ∧
    (AddMergeTaskAndVariant env patchDoc project projectRef source).2.2 ≠ none := by
  unfold AddMergeTaskAndVariant
  cases hconf : env.GetConfig with
  | error err => simp
  | ok settings => simp [getMergeTaskCommands, h.1, h.2]

theorem AddMergeTaskAndVariant_success (env : Env) (patchDoc : Patch) (project : Project)
    (projectRef : ProjectRef) (source : String)
    (h : (AddMergeTaskAndVariant env patchDoc project projectRef source).2.2 = none) :
    ∃ settings cmds, env.GetConfig = .ok settings ∧
      getMergeTaskCommands settings source = (cmds, none) := by
  cases hconf : env.GetConfig with
  | error err => simp [AddMergeTaskAndVariant, hconf] at h
  | ok settings =>
    obtain ⟨cmds, e, hc⟩ : ∃ cmds e, getMergeTaskCommands settings source = (cmds, e) := ⟨_, _, rfl⟩
    cases e with
    | some err => simp [AddMergeTaskAndVariant, hconf, hc] at h
    | none => exact ⟨settings, cmds, rfl, hc⟩

/-- C19: whenever `AddMergeTaskAndVariant` succeeds, each of the three lists
of the project and of the three lists of the patch document is the list
before the call with one element appended: a build variant named
`MergeTaskVariant` whose only task unit is the group `MergeTaskGroup` flagged
`CommitQueueMerge`, a task named `MergeTaskName`, the task group
`MergeTaskGroup` of that task alone with `MaxHosts` 1 and no setup or
teardown hooks; and `MergeTaskVariant`, `MergeTaskName` and the pair of the
variant with the task. -/
theorem C19_success_appends_one_element_to_each_list (env : Env) (patchDoc : Patch)
    (project : Project) (projectRef : ProjectRef) (source : String)
    (patchDoc2 : Patch) (project2 : Project)
    (h : AddMergeTaskAndVariant env patchDoc project projectRef source = (patchDoc2, project2, none)) :
    (∃ bv, project2.BuildVariants = project.BuildVariants ++ [bv] ∧ bv.Name = MergeTaskVariant ∧
      bv.Tasks = [{ Name := MergeTaskGroup, IsGroup := true, CommitQueueMerge := true }]) ∧
    (∃ t, project2.Tasks = project.Tasks ++ [t] ∧ t.Name = MergeTaskName) ∧
    project2.TaskGroups = project.TaskGroups ++
      [{ Name := MergeTaskGroup, Tasks := [MergeTaskName], MaxHosts := 1,
         SetupGroup := [], TeardownGroup := [], SetupTask := [], TeardownTask := [] }] ∧
    patchDoc2.BuildVariants = patchDoc.BuildVariants ++ [MergeTaskVariant] ∧
    patchDoc2.Tasks = patchDoc.Tasks ++ [MergeTaskName] ∧
    patchDoc2.VariantsTasks = patchDoc.VariantsTasks ++
      [{ Variant := MergeTaskVariant, Tasks := [MergeTaskName] }] := by
  obtain ⟨settings, cmds, hconf, hcmds⟩ :=
    AddMergeTaskAndVariant_success env patchDoc project projectRef source (by rw [h])
  obtain ⟨bv, t, p2, hbv, hbvt, ht, _, _, hp2, hres⟩ :=
    AddMergeTaskAndVariant_of_commands env patchDoc project projectRef source settings cmds hconf hcmds
  rcases hres with hres | ⟨err, hres⟩
  · rw [h] at hres
    simp only [Prod.mk.injEq] at hres
    obtain ⟨h1, h2, _⟩ := hres
    subst h1 h2 hp2
    exact ⟨⟨bv, rfl, hbv, hbvt⟩, ⟨t, rfl, ht⟩, rfl, rfl, rfl, rfl⟩
  · rw [h] at hres
    simp at hres

/-- C19, witness: the call of `TestAddMergeTaskAndVariant` on an empty
project and an empty patch document. -/
theorem C19_success_appends_one_element_to_each_list_witness :
    (∃ bv, (AddMergeTaskAndVariant mergeDistroEnv {} {} {} SourceDiff).2.1.BuildVariants = [] ++ [bv] ∧
      bv.Name = MergeTaskVariant ∧
      bv.Tasks = [{ Name := MergeTaskGroup, IsGroup := true, CommitQueueMerge := true }]) ∧
    (AddMergeTaskAndVariant mergeDistroEnv {} {} {} SourceDiff).1.BuildVariants = [] ++ [MergeTaskVariant] :=
  have h := C19_success_appends_one_element_to_each_list mergeDistroEnv {} {} {} SourceDiff
    (AddMergeTaskAndVariant mergeDistroEnv {} {} {} SourceDiff).1
    (AddMergeTaskAndVariant mergeDistroEnv {} {} {} SourceDiff).2.1 (by decide)
  ⟨h.1, h.2.2.2.1⟩

/-- C20: when the validator reports an error on the project with the merge
task, `AddMergeTaskAndVariant` returns an error and leaves the patch document
as it was, but the project in memory has the merge build variant, the merge
task and the merge task group that it had not before the call. -/
theorem C20_rejected_project_keeps_the_merge_task :
    (AddMergeTaskAndVariant rejectingEnv {} {} {} SourceDiff).2.2 =
      some "validating project: task has no commands" ∧
    (AddMergeTaskAndVariant rejectingEnv {} {} {} SourceDiff).1 = {} ∧
    ((AddMergeTaskAndVariant rejectingEnv {} {} {} SourceDiff).2.1.BuildVariants.map (fun v => v.Name) =
      [MergeTaskVariant]) ∧
    ((AddMergeTaskAndVariant rejectingEnv {} {} {} SourceDiff).2.1.Tasks.map (fun t => t.Name) =
      [MergeTaskName]) ∧
    ((AddMergeTaskAndVariant rejectingEnv {} {} {} SourceDiff).2.1.TaskGroups.map (fun g => g.Name) =
      [MergeTaskGroup]) ∧
    ({} : Project).BuildVariants = [] ∧ ({} : Project).Tasks = [] ∧ ({} : Project).TaskGroups = [] := by
  decide

/-- C20: whenever `AddMergeTaskAndVariant` returns an error, the patch
document is exactly what it was before the call; the project in memory is
what it was when the settings cannot be read or the source is unknown, and
otherwise (a validation error of level `Error`, or a failure to marshal) it
is the project before the call with the merge build variant, the merge task
and the merge task group appended. -/
theorem C20_failure_keeps_the_patch_document (env : Env) (patchDoc : Patch)
    (project : Project) (projectRef : ProjectRef) (source : String)
    (h : (AddMergeTaskAndVariant env patchDoc project projectRef source).2.2 ≠ none) :
    (AddMergeTaskAndVariant env patchDoc project projectRef source).1 = patchDoc ∧
    ((∀ settings, env.GetConfig ≠ .ok settings) →
      (AddMergeTaskAndVariant env patchDoc project projectRef source).2.1 = project) ∧
    ((source ≠ SourceDiff ∧ source ≠ SourcePullRequest) →
      (AddMergeTaskAndVariant env patchDoc project projectRef source).2.1 = project) ∧
    ((∃ settings, env.GetConfig = .ok settings) → (source = SourceDiff ∨ source = SourcePullRequest) →
      ∃ bv t, bv.Name = MergeTaskVariant ∧ t.Name = MergeTaskName ∧
        (AddMergeTaskAndVariant env patchDoc project projectRef source).2.1 =
          { project with
            BuildVariants := project.BuildVariants ++ [bv],
            Tasks := project.Tasks ++ [t],
            TaskGroups := project.TaskGroups ++
              [{ Name := MergeTaskGroup, Tasks := [MergeTaskName], MaxHosts := 1 }] }) := by
  have hknown : ∀ settings, env.GetConfig = .ok settings →
      (source = SourceDiff ∨ source = SourcePullRequest) →
      ∃ cmds, getMergeTaskCommands settings source = (cmds, none) := by
    intro settings _ hs
    have hne : SourcePullRequest ≠ SourceDiff := by decide
    rcases hs with hs | hs
    · exact ⟨(getMergeTaskCommands settings source).1, by simp [getMergeTaskCommands, hs]⟩
    · exact ⟨(getMergeTaskCommands settings source).1, by simp [getMergeTaskCommands, hs, hne]⟩
  refine ⟨?_, ?_, ?_, ?_⟩
  · cases hconf : env.GetConfig with
    | error err => simp [AddMergeTaskAndVariant, hconf]
    | ok settings =>
      by_cases hs : source = SourceDiff ∨ source = SourcePullRequest
      · obtain ⟨cmds, hcmds⟩ := hknown settings hconf hs
        obtain ⟨bv, t, p2, _, _, _, _, _, _, hres⟩ :=
          AddMergeTaskAndVariant_of_commands env patchDoc project projectRef source settings cmds
            hconf hcmds
        rcases hres with hres | ⟨err, hres⟩
        · rw [hres] at h; simp at h
        · rw [hres]
      · exact (AddMergeTaskAndVariant_unknown_source env patchDoc project projectRef source
          (by simpa [not_or] using hs)).1
  · intro hno
    cases hconf : env.GetConfig with
    | error err => simp [AddMergeTaskAndVariant, hconf]
    | ok settings => exact absurd hconf (hno settings)
  · intro hs
    exact (AddMergeTaskAndVariant_unknown_source env patchDoc project projectRef source hs).2.1
  · rintro ⟨settings, hconf⟩ hs
    obtain ⟨cmds, hcmds⟩ := hknown settings hconf hs
    obtain ⟨bv, t, p2, hbv, _, ht, _, _, hp2, hres⟩ :=
      AddMergeTaskAndVariant_of_commands env patchDoc project projectRef source settings cmds
        hconf hcmds
    refine ⟨bv, t, hbv, ht, ?_⟩
    rcases hres with hres | ⟨err, hres⟩
    · rw [hres] at h; simp at h
    · rw [hres, ← hp2]

/-- C20, witness: an unknown source gives an error and leaves the patch
document and the project as they were. -/
theorem C20_failure_keeps_the_patch_document_witness :
    (AddMergeTaskAndVariant mergeDistroEnv {} {} {} "cli").2.2 ≠ none ∧
    (AddMergeTaskAndVariant mergeDistroEnv {} {} {} "cli").1 = {} ∧
    (AddMergeTaskAndVariant mergeDistroEnv {} {} {} "cli").2.1 = {} :=
  have h := C20_failure_keeps_the_patch_document mergeDistroEnv {} {} {} "cli" (by decide)
  ⟨by decide, h.1, h.2.2.1 (by decide)⟩

/-! ## The calls recorded by the steps of the processors -/

theorem FinalizePatch_fst (env : Env) (s : JobState) (patchDoc : Patch) (requester githubToken : String) :
    (FinalizePatch env s patchDoc requester githubToken).1 =
      { s with
        calls := s.calls ++ [Call.FinalizePatch patchDoc],
        tasks := s.tasks ++
          (match env.FinalizePatch patchDoc requester githubToken with
            | .ok (_, created) => created
            | .error _ => []) } := by
  unfold FinalizePatch
  cases h : env.FinalizePatch patchDoc requester githubToken with
  | error err => simp [JobState.record]
  | ok r => simp [JobState.record]

theorem FinalizePatch_snd (env : Env) (s : JobState) (patchDoc : Patch) (requester githubToken : String) :
    (FinalizePatch env s patchDoc requester githubToken).2 =
      (env.FinalizePatch patchDoc requester githubToken).map (fun r => r.1) := by
  unfold FinalizePatch
  cases h : env.FinalizePatch patchDoc requester githubToken with
  | error err => rfl
  | ok r => rfl

theorem UpdateVersion_fst (env : Env) (s : JobState) (item : CommitQueueItem) :
    (UpdateVersion env s item).1 =
      { s with
        calls := s.calls ++ [Call.UpdateVersion item],
        cq := if env.UpdateVersion s.cq item = none then s.cq.UpdateVersion item else s.cq } := by
  unfold UpdateVersion
  cases h : env.UpdateVersion s.cq item with
  | none => simp [JobState.record, h]
  | some err => simp [JobState.record, h]

theorem UpdateVersion_snd (env : Env) (s : JobState) (item : CommitQueueItem) :
    (UpdateVersion env s item).2 = env.UpdateVersion s.cq item := by
  unfold UpdateVersion
  cases h : env.UpdateVersion s.cq item with
  | none => simp [JobState.record, h]
  | some err => simp [JobState.record, h]

theorem setDefaultNotification_frame (env : Env) (s : JobState) (username : String) :
    (setDefaultNotification env s username).1.calls = s.calls ∧
    (setDefaultNotification env s username).1.cq = s.cq ∧
    (setDefaultNotification env s username).1.errors = s.errors ∧
    (setDefaultNotification env s username).1.events = s.events ∧
    (setDefaultNotification env s username).1.statuses = s.statuses ∧
    (setDefaultNotification env s username).1.tasks = s.tasks := by
  unfold setDefaultNotification
  repeat' (first | split | simp only [])
  all_goals simp

theorem foldl_frame {α β : Type} (proj : JobState → β) (f : JobState → α → JobState)
    (hf : ∀ s a, proj (f s a) = proj s) (l : List α) (s : JobState) :
    proj (l.foldl f s) = proj s := by
  induction l generalizing s with
  | nil => rfl
  | cons a rest ih => rw [List.foldl_cons, ih, hf]

theorem processCLIPatchItem_stages (env : Env) (projectRef : ProjectRef) (githubToken : String)
    (s : JobState) (nextItem : CommitQueueItem) :
    (processCLIPatchItem env projectRef githubToken s nextItem).calls.filter Call.isStage =
      s.calls.filter Call.isStage ++ [Call.processCLIPatchItem nextItem.Issue] := by
  unfold processCLIPatchItem failCLIPatchItem
  repeat' (first | split | simp only [])
  all_goals
    simp [dequeue_eq, logError_eq, AddError_eq, LogCommitQueueEnqueueFailed,
      LogCommitQueueStartTestEvent, JobState.record, FinalizePatch_fst, UpdateVersion_fst,
      (setDefaultNotification_frame env _ _).1, Call.isStage, List.filter_append]

theorem processGitHubPRItem_stages (env : Env) (projectRef : ProjectRef) (githubToken : String)
    (s : JobState) (nextItem : CommitQueueItem) :
    (processGitHubPRItem env projectRef githubToken s nextItem).calls.filter Call.isStage =
      s.calls.filter Call.isStage ++ [Call.processGitHubPRItem nextItem.Issue] := by
  unfold processGitHubPRItem
  repeat' (first | split | simp only [])
  all_goals
    first
    | (simp [dequeue_eq, logError_eq, AddError_eq, SendCommitQueueGithubStatus,
        JobState.record, FinalizePatch_fst, UpdateVersion_fst, Call.isStage, List.filter_append]; done)
    | (simp only [LogCommitQueueStartTestEvent]
       rw [foldl_frame (fun s => s.calls) _
         (by intro s a; simp [AddError_eq, SendCommitQueueGithubStatus])]
       simp [dequeue_eq, logError_eq, AddError_eq, SendCommitQueueGithubStatus,
        JobState.record, FinalizePatch_fst, UpdateVersion_fst, Call.isStage, List.filter_append])

/-! ## The loop of the scheduler -/

theorem linkMergeTasks_calls (s : JobState) :
    (linkMergeTasks s).calls = s.calls ++ [Call.addMergeTaskDependencies s.cq.Queue] ∧
    (linkMergeTasks s).cq = s.cq := by
  simp [linkMergeTasks, AddError_eq]

theorem stageOf_pull_request (item : CommitQueueItem) (h : item.Source = SourcePullRequest) :
    stageOf item = some (Call.processGitHubPRItem item.Issue) := by
  simp [stageOf, h]

theorem stageOf_diff (item : CommitQueueItem) (h1 : item.Source ≠ SourcePullRequest)
    (h2 : item.Source = SourceDiff) :
    stageOf item = some (Call.processCLIPatchItem item.Issue) := by
  simp only [stageOf, if_neg h1, if_pos h2]

theorem stageOf_unknown (item : CommitQueueItem) (h1 : item.Source ≠ SourcePullRequest)
    (h2 : item.Source ≠ SourceDiff) : stageOf item = none := by
  simp [stageOf, h1, h2]

/-- The stages of the loop of `Run`: the processors of the items before the
first item that has a version, in the order of the batch, then one run of the
linker over the queue as it is then. -/
theorem processBatch_stages (env : Env) (projectRef : ProjectRef) (githubToken : String)
    (batch : List CommitQueueItem) (s : JobState) :
    (processBatch env projectRef githubToken batch s).calls.filter Call.isStage =
      s.calls.filter Call.isStage ++
        (batch.takeWhile (fun i => i.Version == "")).filterMap stageOf ++
        [Call.addMergeTaskDependencies (processBatch env projectRef githubToken batch s).cq.Queue] := by
  induction batch generalizing s with
  | nil =>
    simp [processBatch, (linkMergeTasks_calls s).1, (linkMergeTasks_calls s).2, List.filter_append,
      Call.isStage]
  | cons item rest ih =>
    by_cases hv : item.Version = ""
    · have htake : (item :: rest).takeWhile (fun i => i.Version == "") =
          item :: rest.takeWhile (fun i => i.Version == "") := by
        simp [List.takeWhile_cons, hv]
      rw [htake]
      by_cases h1 : item.Source = SourcePullRequest
      · simp only [processBatch, hv, h1, ne_eq, not_true_eq_false, if_false, if_true]
        rw [ih, processGitHubPRItem_stages, List.filterMap_cons, stageOf_pull_request item h1]
        simp
      · by_cases h2 : item.Source = SourceDiff
        · simp only [processBatch, hv, ne_eq, not_true_eq_false, if_false, if_neg h1, if_pos h2]
          rw [ih, processCLIPatchItem_stages, List.filterMap_cons, stageOf_diff item h1 h2]
          simp
        · simp only [processBatch, hv, ne_eq, not_true_eq_false, if_false, if_neg h1, if_neg h2]
          rw [ih, List.filterMap_cons, stageOf_unknown item h1 h2]
    · have htake : (item :: rest).takeWhile (fun i => i.Version == "") = [] := by
        simp [List.takeWhile_cons, hv]
      rw [htake]
      simp [processBatch, hv, (linkMergeTasks_calls s).1, (linkMergeTasks_calls s).2,
        List.filter_append, Call.isStage]

theorem takeWhile_all {α : Type} (p : α → Bool) (l : List α) (h : ∀ x ∈ l, p x = true) :
    l.takeWhile p = l := by
  induction l with
  | nil => rfl
  | cons a rest ih =>
    rw [List.takeWhile_cons, h a (List.mem_cons_self a rest), if_pos rfl,
      ih (fun x hx => h x (List.mem_cons_of_mem a hx))]

theorem takeWhile_until {α : Type} (p : α → Bool) (pre : List α) (a : α) (rest : List α)
    (h : ∀ x ∈ pre, p x = true) (ha : p a = false) :
    (pre ++ a :: rest).takeWhile p = pre := by
  induction pre with
  | nil => simp [List.takeWhile_cons, ha]
  | cons b pre ih =>
    rw [List.cons_append, List.takeWhile_cons, h b (List.mem_cons_self b pre), if_pos rfl,
      ih (fun x hx => h x (List.mem_cons_of_mem b hx))]

theorem processBatch_until (env : Env) (projectRef : ProjectRef) (githubToken : String)
    (pre : List CommitQueueItem) (item : CommitQueueItem) (rest : List CommitQueueItem)
    (s : JobState) (hpre : ∀ i ∈ pre, i.Version = "") (hitem : item.Version ≠ "") :
    processBatch env projectRef githubToken (pre ++ item :: rest) s =
      processBatch env projectRef githubToken pre s := by
  induction pre generalizing s with
  | nil => simp [processBatch, hitem]
  | cons b pre ih =>
    have hb : b.Version = "" := hpre b (List.mem_cons_self b pre)
    have hrest : ∀ i ∈ pre, i.Version = "" := fun i hi => hpre i (List.mem_cons_of_mem b hi)
    simp only [List.cons_append, processBatch, hb, ne_eq, not_true_eq_false, if_false]
    split
    · exact ih _ hrest
    · split
      · exact ih _ hrest
      · exact ih _ hrest

theorem unstickMergeTask_calls (env : Env) (s : JobState) (nextItem : CommitQueueItem)
    (mergeTask : Task) : (unstickMergeTask env s nextItem mergeTask).calls = s.calls := by
  unfold unstickMergeTask
  repeat' (first | split | simp only [])
  all_goals simp [dequeue_eq, logError_eq, AddError_eq, LogCommitQueueConcludeTest]

theorem TryUnstick_calls (env : Env) (projectRef : ProjectRef) (githubToken : String)
    (s : JobState) : (TryUnstick env projectRef githubToken s).calls = s.calls := by
  unfold TryUnstick
  repeat' (first | split | simp only [])
  all_goals
    simp [dequeue_eq, logError_eq, AddError_eq, LogCommitQueueConcludeTest,
      SendCommitQueueGithubStatus, unstickMergeTask_calls]

theorem NextUnprocessed_unversioned (q : CommitQueue) (n : Int) :
    ∀ i ∈ q.NextUnprocessed n, i.Version = "" := by
  intro i hi
  have := List.mem_of_mem_take hi
  simpa using (List.mem_filter.mp this).2

/-! ## The claims on the scheduler -/

/-- A run of `Run` that reaches the batch (the commit queue is enabled, the
project, the queue, the settings and the token are found, and the queue is
not processing after `TryUnstick`) is the loop over the batch of unprocessed
items, started in the state that `TryUnstick` leaves. -/
theorem Run_of_batch (env : Env) (s : JobState)
    (flags : ServiceFlags) (projectRef : ProjectRef) (cq : CommitQueue) (conf : Settings)
    (githubToken : String)
    (hflags : env.GetServiceFlags = .ok flags) (hon : flags.CommitQueueDisabled = false)
    (href : env.FindMergedProjectRef s.QueueID = .ok (some projectRef))
    (henabled : projectRef.CommitQueue.IsEnabled = true)
    (hcq : env.FindQueueById s.QueueID = .ok (some cq))
    (hconf : env.GetConfig = .ok conf)
    (htoken : env.GetGithubOauthToken conf = .ok githubToken)
    (hproc : (TryUnstick env projectRef githubToken { s with cq := cq }).cq.Processing = false)
    (hbatch : (TryUnstick env projectRef githubToken { s with cq := cq }).cq.NextUnprocessed
        (if conf.CommitQueue.BatchSize < 1 then 1 else conf.CommitQueue.BatchSize) ≠ []) :
    Run env s =
      processBatch env projectRef githubToken
        ((TryUnstick env projectRef githubToken { s with cq := cq }).cq.NextUnprocessed
          (if conf.CommitQueue.BatchSize < 1 then 1 else conf.CommitQueue.BatchSize))
        (TryUnstick env projectRef githubToken { s with cq := cq }) := by
  unfold Run
  simp only [hflags, hon, href, henabled, hcq, hconf, htoken, hproc, Bool.not_true,
    Bool.false_eq_true, if_false]
  rw [if_neg]
  intro hlen
  exact hbatch (List.length_eq_zero.mp hlen)

/-- C12, at the failing input: a run on three unprocessed diff items of which
the first has no patch document.  The first item fails and is evicted, the
two items after it are handed to their processor all the same and get their
versions, and the linker then runs once over the queue that is left: the
merge task of the third item depends on the merge task of the second, which
has one dependent.  But the failure of the first item has added no error to
the job: all there is of it is the event of the failed enqueue, recorded
without an error. -/
theorem C12_failed_item_leaves_no_error_on_the_job :
    (Run oneMissingPatchEnv evergreenJob).calls.filter Call.isStage =
      [Call.processCLIPatchItem "1", Call.processCLIPatchItem "2", Call.processCLIPatchItem "3",
       Call.addMergeTaskDependencies
         [{ Issue := "2", Source := SourceDiff, Version := "v2" },
          { Issue := "3", Source := SourceDiff, Version := "v3" }]] ∧
    (Run oneMissingPatchEnv evergreenJob).cq.Queue =
      [{ Issue := "2", Source := SourceDiff, Version := "v2" },
       { Issue := "3", Source := SourceDiff, Version := "v3" }] ∧
    (Run oneMissingPatchEnv evergreenJob).tasks =
      [{ Id := "merge2", Version := "v2", CommitQueueMerge := true, NumDependents := 1 },
       { Id := "merge3", Version := "v3", CommitQueueMerge := true,
         DependsOn := [{ TaskId := "merge2", Status := AllStatuses }] }] ∧
    (Run oneMissingPatchEnv evergreenJob).events =
      [Event.CommitQueueEnqueueFailed "1" none, Event.CommitQueueStartTest "v2",
       Event.CommitQueueStartTest "v3"] ∧
    (Run oneMissingPatchEnv evergreenJob).errors = [] := by
  decide

/-- C13: on a batch whose first item carries a version, the loop of `Run`
calls the linker and ends the run: the unprocessed diff item after it is not
handed to its processor. -/
theorem C13_items_after_a_versioned_item_are_not_processed :
    (processBatch missingPatchesEnv mciEnabledRef "" versionedFirst
        { cq := { ProjectID := "mci", Queue := versionedFirst } }).calls =
      [Call.addMergeTaskDependencies versionedFirst] ∧
    Call.processCLIPatchItem "2" ∉
      (processBatch missingPatchesEnv mciEnabledRef "" versionedFirst
        { cq := { ProjectID := "mci", Queue := versionedFirst } }).calls := by
  decide

/-- C13: if an item of the batch carries a non-empty version, the loop of
`Run` stops at that item: the outcome is that of the batch of the items
before it alone, so that no processor is called for that item nor for the
items after it, the items before it are handed to the processors of their
sources, and the linker runs exactly once, over the queue as the run leaves
it. -/
theorem C13_versioned_item_ends_the_batch (env : Env) (projectRef : ProjectRef)
    (githubToken : String) (pre : List CommitQueueItem) (item : CommitQueueItem)
    (rest : List CommitQueueItem) (s : JobState)
    (hpre : ∀ i ∈ pre, i.Version = "") (hitem : item.Version ≠ "") :
    processBatch env projectRef githubToken (pre ++ item :: rest) s =
      processBatch env projectRef githubToken pre s ∧
    (processBatch env projectRef githubToken (pre ++ item :: rest) s).calls.filter Call.isStage =
      s.calls.filter Call.isStage ++ pre.filterMap stageOf ++
        [Call.addMergeTaskDependencies
          (processBatch env projectRef githubToken (pre ++ item :: rest) s).cq.Queue] := by
  refine ⟨processBatch_until env projectRef githubToken pre item rest s hpre hitem, ?_⟩
  rw [processBatch_stages, takeWhile_until _ pre item rest (fun i hi => by simp [hpre i hi])
    (by simpa using hitem)]

/-- C13, witness: the batch `versionedFirst` ends at its first item. -/
theorem C13_versioned_item_ends_the_batch_witness :
    processBatch missingPatchesEnv mciEnabledRef "" versionedFirst
        { cq := { ProjectID := "mci", Queue := versionedFirst } } =
      processBatch missingPatchesEnv mciEnabledRef "" []
        { cq := { ProjectID := "mci", Queue := versionedFirst } } :=
  (C13_versioned_item_ends_the_batch missingPatchesEnv mciEnabledRef "" []
    { Issue := "1", Source := SourceDiff, Version := "v1" } [{ Issue := "2", Source := SourceDiff }]
    { cq := { ProjectID := "mci", Queue := versionedFirst } } (by simp) (by decide)).1

/-! ## Evictions by the item processors -/

theorem eraseP_issue_not_mem (l : List CommitQueueItem) (issue : String)
    (hnodup : (l.map (fun i => i.Issue)).Nodup) :
    issue ∉ (l.eraseP (fun i => i.Issue == issue)).map (fun i => i.Issue) := by
  induction l with
  | nil => simp
  | cons a rest ih =>
    have hn : a.Issue ∉ rest.map (fun i => i.Issue) ∧ (rest.map (fun i => i.Issue)).Nodup := by
      rw [List.map_cons] at hnodup
      exact List.nodup_cons.mp hnodup
    by_cases ha : a.Issue = issue
    · have : (a :: rest).eraseP (fun i => i.Issue == issue) = rest := by
        simp [List.eraseP_cons, ha]
      rw [this, ← ha]
      exact hn.1
    · have : (a :: rest).eraseP (fun i => i.Issue == issue) =
          a :: rest.eraseP (fun i => i.Issue == issue) := by
        simp [List.eraseP_cons, ha]
      rw [this]
      simp only [List.map_cons, List.mem_cons, not_or]
      exact ⟨fun h => ha h.symm, ih hn.2⟩

theorem evicted_of_eq (q q2 : CommitQueue) (issue : String)
    (hnodup : (q.Queue.map (fun i => i.Issue)).Nodup)
    (h : q2 = { q with Queue := q.Queue.eraseP (fun i => i.Issue == issue) }) :
    Evicted q q2 issue := by
  refine ⟨h, ?_⟩
  rw [h]
  exact eraseP_issue_not_mem q.Queue issue hnodup

theorem checkPR_not_a_number (env : Env) (githubToken issue owner repo : String)
    (h : Atoi issue = none) :
    checkPR env githubToken issue owner repo =
      (none, true, some ("parsing issue \x27" ++ issue ++ "\x27 as int")) := by
  simp [checkPR, h]

theorem checkPR_unfetchable (env : Env) (githubToken issue owner repo : String) (n : Int)
    (err : String) (h : Atoi issue = some n)
    (hfetch : env.GetGithubPullRequest githubToken owner repo n = .error err) :
    checkPR env githubToken issue owner repo =
      (none, false, some ("getting PR from GitHub: " ++ err)) := by
  simp [checkPR, h, hfetch]

theorem checkPR_incomplete (env : Env) (githubToken issue owner repo : String) (n : Int)
    (pr : PullRequest) (err : String) (h : Atoi issue = some n)
    (hfetch : env.GetGithubPullRequest githubToken owner repo n = .ok pr)
    (hvalid : env.ValidatePR pr = some err) :
    checkPR env githubToken issue owner repo =
      (none, true, some ("GitHub returned an incomplete PR: " ++ err)) := by
  simp [checkPR, h, hfetch, hvalid]

theorem checkPR_valid (env : Env) (githubToken issue owner repo : String) (n : Int)
    (pr : PullRequest) (h : Atoi issue = some n)
    (hfetch : env.GetGithubPullRequest githubToken owner repo n = .ok pr)
    (hvalid : env.ValidatePR pr = none) :
    checkPR env githubToken issue owner repo = (some pr, false, none) := by
  simp [checkPR, h, hfetch, hvalid]

/-- The run of `processGitHubPRItem` on an item whose check gives an error
and no pull request: the error is logged, and the item is dequeued when the
check says so. -/
theorem processGitHubPRItem_of_check_error (env : Env) (projectRef : ProjectRef)
    (githubToken : String) (s : JobState) (nextItem : CommitQueueItem) (dq : Bool) (err : String)
    (hin : nextItem.Issue ∈ s.cq.Queue.map (fun i => i.Issue))
    (h : checkPR env githubToken nextItem.Issue projectRef.Owner projectRef.Repo =
      (none, dq, some err)) :
    processGitHubPRItem env projectRef githubToken s nextItem =
      { s with
        cq := if dq then
            { s.cq with Queue := s.cq.Queue.eraseP (fun i => i.Issue == nextItem.Issue) }
          else s.cq,
        errors := s.errors ++ ["PR not valid for merge" ++ ": " ++ err],
        removeCalls := if dq then s.removeCalls ++ [nextItem.Issue] else s.removeCalls,
        calls := s.calls ++ [Call.processGitHubPRItem nextItem.Issue] } := by
  unfold processGitHubPRItem
  simp only [h]
  cases dq with
  | true =>
    have hin2 : nextItem.Issue ∈ List.map (fun i => i.Issue) s.cq.Queue := hin
    simp [dequeue_eq, logError_eq, JobState.record, hin2]
  | false => simp [logError_eq, JobState.record]

/-- C14, counterexample: the review system cannot be reached while the pull
request item of `pullRequestQueue` is processed; `processGitHubPRItem` leaves
the item in the queue and posts no status for it. -/
theorem C14_unfetchable_pull_request_stays_in_the_queue :
    (processGitHubPRItem unreachableGithubEnv mciRef "" pullRequestQueue
        { Issue := "1234", Source := SourcePullRequest }).cq.Queue =
      [{ Issue := "1234", Source := SourcePullRequest }] ∧
    (processGitHubPRItem unreachableGithubEnv mciRef "" pullRequestQueue
        { Issue := "1234", Source := SourcePullRequest }).statuses = [] := by
  decide

/-- C14, amended: for every pull request item of a queue with pairwise
distinct issues: when its issue is not a number or the pull request fetched
fails the validation, `processGitHubPRItem` evicts the item and adds the
error to the job; when the pull request cannot be fetched, it leaves the
queue as it is, adds the error to the job and posts no status. -/
theorem C14_invalid_is_evicted_and_unfetchable_is_kept (env : Env) (projectRef : ProjectRef)
    (githubToken : String) (s : JobState) (nextItem : CommitQueueItem)
    (hin : nextItem.Issue ∈ s.cq.Queue.map (fun i => i.Issue))
    (hnodup : (s.cq.Queue.map (fun i => i.Issue)).Nodup) :
    ((Atoi nextItem.Issue = none ∨
        ∃ n pr err, Atoi nextItem.Issue = some n ∧
          env.GetGithubPullRequest githubToken projectRef.Owner projectRef.Repo n = .ok pr ∧
          env.ValidatePR pr = some err) →
      Evicted s.cq (processGitHubPRItem env projectRef githubToken s nextItem).cq nextItem.Issue ∧
      ∃ err, (processGitHubPRItem env projectRef githubToken s nextItem).errors =
        s.errors ++ ["PR not valid for merge" ++ ": " ++ err]) ∧
    ((∃ n err, Atoi nextItem.Issue = some n ∧
          env.GetGithubPullRequest githubToken projectRef.Owner projectRef.Repo n = .error err) →
      (processGitHubPRItem env projectRef githubToken s nextItem).cq = s.cq ∧
      (processGitHubPRItem env projectRef githubToken s nextItem).statuses = s.statuses ∧
      ∃ err, (processGitHubPRItem env projectRef githubToken s nextItem).errors =
        s.errors ++ ["PR not valid for merge" ++ ": " ++ err]) := by
  constructor
  · intro h
    have hcheck : ∃ err, checkPR env githubToken nextItem.Issue projectRef.Owner projectRef.Repo =
        (none, true, some err) := by
      rcases h with h | ⟨n, pr, err, h1, h2, h3⟩
      · exact ⟨_, checkPR_not_a_number env githubToken _ _ _ h⟩
      · exact ⟨_, checkPR_incomplete env githubToken _ _ _ n pr err h1 h2 h3⟩
    obtain ⟨err, hcheck⟩ := hcheck
    rw [processGitHubPRItem_of_check_error env projectRef githubToken s nextItem true err hin hcheck]
    exact ⟨evicted_of_eq _ _ _ hnodup (by simp), err, rfl⟩
  · rintro ⟨n, err, h1, h2⟩
    rw [processGitHubPRItem_of_check_error env projectRef githubToken s nextItem false _ hin
      (checkPR_unfetchable env githubToken _ _ _ n err h1 h2)]
    exact ⟨by simp, rfl, _, rfl⟩

/-- C14, witness: the item of `malformedIssueQueue`, whose issue is not a
number, is evicted. -/
theorem C14_invalid_is_evicted_and_unfetchable_is_kept_witness :
    Evicted malformedIssueQueue.cq
      (processGitHubPRItem (constEnv true (.ok none) (.ok none) (.ok [])) mciRef "" malformedIssueQueue
        { Issue := "not-a-number", Source := SourcePullRequest }).cq "not-a-number" :=
  ((C14_invalid_is_evicted_and_unfetchable_is_kept
    (constEnv true (.ok none) (.ok none) (.ok [])) mciRef "" malformedIssueQueue
    { Issue := "not-a-number", Source := SourcePullRequest } (by decide) (by decide)).1
    (Or.inl (by decide))).1

theorem failCLIPatchItem_eq (s : JobState) (item : CommitQueueItem) (err : Option String)
    (msg : String) (hin : item.Issue ∈ s.cq.Queue.map (fun i => i.Issue)) :
    failCLIPatchItem s item err msg =
      { s with
        cq := { s.cq with Queue := s.cq.Queue.eraseP (fun i => i.Issue == item.Issue) },
        errors := s.errors ++ (err.map (fun e => msg ++ ": " ++ e)).toList,
        events := s.events ++ [Event.CommitQueueEnqueueFailed item.Issue err],
        removeCalls := s.removeCalls ++ [item.Issue] } := by
  have hin2 : item.Issue ∈ List.map (fun i => i.Issue) s.cq.Queue := hin
  simp [failCLIPatchItem, dequeue_eq, logError_eq, LogCommitQueueEnqueueFailed, hin2]

theorem updatePatch_of_branch_error (env : Env) (settings : Settings) (githubToken : String)
    (projectRef : ProjectRef) (patchDoc : Patch) (err : String)
    (h : env.GetBranchEvent githubToken projectRef.Owner projectRef.Repo projectRef.Branch =
      .error err) :
    updatePatch env settings githubToken projectRef patchDoc =
      (patchDoc, .error ("getting branch: " ++ err)) := by
  simp [updatePatch, h]

theorem updatePatch_of_config_error (env : Env) (settings : Settings) (githubToken : String)
    (projectRef : ProjectRef) (patchDoc : Patch) (sha err : String)
    (h : env.GetBranchEvent githubToken projectRef.Owner projectRef.Repo projectRef.Branch =
      .ok (some { Commit := some { SHA := some sha } }))
    (hconfig : env.GetPatchedProject settings
      { patchDoc with
        Githash := sha, ProjectStorageMethod := "", PatchedParserProject := "",
        PatchedProjectConfig := "" } githubToken = .error err) :
    (updatePatch env settings githubToken projectRef patchDoc).2 =
      .error ("getting updated project config: " ++ err) := by
  simp [updatePatch, h, validateBranch, branchCommitSHA, hconfig]

/-- The run of `processCLIPatchItem` on an item of the queue whose patch
document is found and cannot be refreshed. -/
theorem processCLIPatchItem_of_update_error (env : Env) (projectRef : ProjectRef)
    (githubToken : String) (s : JobState) (nextItem : CommitQueueItem) (patchDoc : Patch)
    (err : String)
    (hin : nextItem.Issue ∈ s.cq.Queue.map (fun i => i.Issue))
    (hfind : env.FindOneId nextItem.Issue = .ok (some patchDoc))
    (h : (updatePatch env env.Settings githubToken projectRef patchDoc).2 = .error err) :
    processCLIPatchItem env projectRef githubToken s nextItem =
      { s with
        cq := { s.cq with Queue := s.cq.Queue.eraseP (fun i => i.Issue == nextItem.Issue) },
        errors := s.errors ++ ["can\x27t update patch" ++ ": " ++ err],
        events := s.events ++ [Event.CommitQueueEnqueueFailed nextItem.Issue (some err)],
        removeCalls := s.removeCalls ++ [nextItem.Issue],
        calls := s.calls ++ [Call.processCLIPatchItem nextItem.Issue] } := by
  obtain ⟨p, r, hup⟩ : ∃ p r, updatePatch env env.Settings githubToken projectRef patchDoc = (p, r) :=
    ⟨_, _, rfl⟩
  rw [hup] at h
  simp only at h
  subst h
  unfold processCLIPatchItem
  simp only [hfind, hup]
  rw [failCLIPatchItem_eq _ _ _ _ (by simpa [JobState.record] using hin)]
  simp [JobState.record]

theorem processCLIPatchItem_of_find_error (env : Env) (projectRef : ProjectRef)
    (githubToken : String) (s : JobState) (nextItem : CommitQueueItem) (err : String)
    (hin : nextItem.Issue ∈ s.cq.Queue.map (fun i => i.Issue))
    (hfind : env.FindOneId nextItem.Issue = .error err) :
    processCLIPatchItem env projectRef githubToken s nextItem =
      { s with
        cq := { s.cq with Queue := s.cq.Queue.eraseP (fun i => i.Issue == nextItem.Issue) },
        errors := s.errors ++ ["can\x27t find patch" ++ ": " ++ err],
        events := s.events ++ [Event.CommitQueueEnqueueFailed nextItem.Issue (some err)],
        removeCalls := s.removeCalls ++ [nextItem.Issue],
        calls := s.calls ++ [Call.processCLIPatchItem nextItem.Issue] } := by
  unfold processCLIPatchItem
  simp only [hfind]
  rw [failCLIPatchItem_eq _ _ _ _ (by simpa [JobState.record] using hin)]
  simp [JobState.record]

theorem processCLIPatchItem_of_missing_patch (env : Env) (projectRef : ProjectRef)
    (githubToken : String) (s : JobState) (nextItem : CommitQueueItem)
    (hin : nextItem.Issue ∈ s.cq.Queue.map (fun i => i.Issue))
    (hfind : env.FindOneId nextItem.Issue = .ok none) :
    processCLIPatchItem env projectRef githubToken s nextItem =
      { s with
        cq := { s.cq with Queue := s.cq.Queue.eraseP (fun i => i.Issue == nextItem.Issue) },
        events := s.events ++ [Event.CommitQueueEnqueueFailed nextItem.Issue none],
        removeCalls := s.removeCalls ++ [nextItem.Issue],
        calls := s.calls ++ [Call.processCLIPatchItem nextItem.Issue] } := by
  unfold processCLIPatchItem
  simp only [hfind]
  rw [failCLIPatchItem_eq _ _ _ _ (by simpa [JobState.record] using hin)]
  simp [JobState.record]

/-! ## The claim on transient failures -/

/-- C15: the patch collection cannot be reached while a diff item is
processed; the lookup of the patch document fails before any other step, and
`processCLIPatchItem` evicts the item. -/
theorem C15_unreachable_patch_store_evicts_the_item :
    (processCLIPatchItem patchStoreDownEnv mciRef "" diffQueue
        { Issue := "aabbccddeeff112233445566", Source := SourceDiff }).cq.Queue = [] ∧
    (processCLIPatchItem patchStoreDownEnv mciRef "" diffQueue
        { Issue := "aabbccddeeff112233445566", Source := SourceDiff }).errors =
      ["can\x27t find patch: connection reset by peer"] ∧
    diffQueue.cq.Queue = [{ Issue := "aabbccddeeff112233445566", Source := SourceDiff }] := by
  decide

/-- C15: for every item of a queue with pairwise distinct issues, a failed
fetch of the pull request in `processGitHubPRItem` and a failed lookup of the
patch of the head in `TryUnstick` leave the queue as it is, the item in place
with its version, and add the error to the job; a failed lookup of the patch
document in either processor, and a failed lookup of the tip of the branch
or a failed fetch of the patched configuration in `processCLIPatchItem`,
add the error to the job and evict the item. -/
theorem C15_which_failed_lookups_keep_the_item (env : Env) (projectRef : ProjectRef)
    (githubToken : String) (s : JobState) (nextItem : CommitQueueItem)
    (hin : nextItem.Issue ∈ s.cq.Queue.map (fun i => i.Issue))
    (hnodup : (s.cq.Queue.map (fun i => i.Issue)).Nodup) :
    (∀ n err, Atoi nextItem.Issue = some n →
      env.GetGithubPullRequest githubToken projectRef.Owner projectRef.Repo n = .error err →
      (processGitHubPRItem env projectRef githubToken s nextItem).cq = s.cq ∧
      (processGitHubPRItem env projectRef githubToken s nextItem).errors =
        s.errors ++ ["PR not valid for merge" ++ ": " ++ ("getting PR from GitHub: " ++ err)]) ∧
    (∀ tail err, s.cq.Queue = nextItem :: tail → nextItem.Version ≠ "" →
      env.IsValidId nextItem.Version = true → env.FindOne nextItem.Version = .error err →
      (TryUnstick env projectRef githubToken s).cq = s.cq ∧
      (TryUnstick env projectRef githubToken s).errors =
        s.errors ++ ["finding patch \x27" ++ nextItem.Version ++ "\x27 for commit queue \x27" ++
          s.QueueID ++ "\x27: " ++ err]) ∧
    (∀ err, env.FindOneId nextItem.Issue = .error err →
      Evicted s.cq (processCLIPatchItem env projectRef githubToken s nextItem).cq nextItem.Issue ∧
      (processCLIPatchItem env projectRef githubToken s nextItem).errors =
        s.errors ++ ["can\x27t find patch" ++ ": " ++ err]) ∧
    (∀ patchDoc err, env.FindOneId nextItem.Issue = .ok (some patchDoc) →
      env.GetBranchEvent githubToken projectRef.Owner projectRef.Repo projectRef.Branch =
        .error err →
      Evicted s.cq (processCLIPatchItem env projectRef githubToken s nextItem).cq nextItem.Issue ∧
      (processCLIPatchItem env projectRef githubToken s nextItem).errors =
        s.errors ++ ["can\x27t update patch" ++ ": " ++ ("getting branch: " ++ err)]) ∧
    (∀ patchDoc sha err, env.FindOneId nextItem.Issue = .ok (some patchDoc) →
      env.GetBranchEvent githubToken projectRef.Owner projectRef.Repo projectRef.Branch =
        .ok (some { Commit := some { SHA := some sha } }) →
      env.GetPatchedProject env.Settings
        { patchDoc with
          Githash := sha, ProjectStorageMethod := "", PatchedParserProject := "",
          PatchedProjectConfig := "" } githubToken = .error err →
      Evicted s.cq (processCLIPatchItem env projectRef githubToken s nextItem).cq nextItem.Issue ∧
      (processCLIPatchItem env projectRef githubToken s nextItem).errors =
        s.errors ++ ["can\x27t update patch" ++ ": " ++ ("getting updated project config: " ++ err)]) ∧
    (∀ n pr err, Atoi nextItem.Issue = some n →
      env.GetGithubPullRequest githubToken projectRef.Owner projectRef.Repo n = .ok pr →
      env.ValidatePR pr = none → env.FindOneId nextItem.PatchId = .error err →
      Evicted s.cq (processGitHubPRItem env projectRef githubToken s nextItem).cq nextItem.Issue ∧
      ("finding patch \x27" ++ nextItem.Version ++ "\x27: " ++ err) ∈
        (processGitHubPRItem env projectRef githubToken s nextItem).errors) := by
  refine ⟨?_, ?_, ?_, ?_, ?_, ?_⟩
  · intro n err h1 h2
    rw [processGitHubPRItem_of_check_error env projectRef githubToken s nextItem false _ hin
      (checkPR_unfetchable env githubToken _ _ _ n err h1 h2)]
    exact ⟨by simp, rfl⟩
  · intro tail err hq hv hvalid hp
    simp [TryUnstick, CommitQueue.Next, hq, hv, hvalid, hp, AddError_eq]
  · intro err hfind
    rw [processCLIPatchItem_of_find_error env projectRef githubToken s nextItem err hin hfind]
    exact ⟨evicted_of_eq _ _ _ hnodup rfl, rfl⟩
  · intro patchDoc err hfind hbranch
    rw [processCLIPatchItem_of_update_error env projectRef githubToken s nextItem patchDoc _ hin
      hfind (by rw [updatePatch_of_branch_error env _ _ _ _ err hbranch])]
    exact ⟨evicted_of_eq _ _ _ hnodup rfl, rfl⟩
  · intro patchDoc sha err hfind hbranch hconfig
    rw [processCLIPatchItem_of_update_error env projectRef githubToken s nextItem patchDoc _ hin
      hfind (updatePatch_of_config_error env _ _ _ _ sha err hbranch hconfig)]
    exact ⟨evicted_of_eq _ _ _ hnodup rfl, rfl⟩
  · intro n pr err h1 h2 h3 hfind
    have hin2 : nextItem.Issue ∈ List.map (fun i => i.Issue) s.cq.Queue := hin
    have hr : processGitHubPRItem env projectRef githubToken s nextItem =
        { s with
          cq := { s.cq with Queue := s.cq.Queue.eraseP (fun i => i.Issue == nextItem.Issue) },
          errors := s.errors ++ ["finding patch \x27" ++ nextItem.Version ++ "\x27: " ++ err] ++
            (env.SendCommitQueueGithubStatus (some pr) GithubStateFailure "no patch found" "").toList,
          statuses := s.statuses ++
            [{ pr := some pr, state := GithubStateFailure, description := "no patch found",
               versionID := "" }],
          removeCalls := s.removeCalls ++ [nextItem.Issue],
          calls := s.calls ++ [Call.processGitHubPRItem nextItem.Issue] } := by
      unfold processGitHubPRItem
      simp only [checkPR_valid env githubToken _ _ _ n pr h1 h2 h3, hfind]
      simp [dequeue_eq, AddError_eq, SendCommitQueueGithubStatus, JobState.record, hin2]
    rw [hr]
    exact ⟨evicted_of_eq _ _ _ hnodup rfl, by simp⟩

/-- C15, witness: the review system cannot be reached while the item of
`pullRequestQueue` is processed; the item stays in the queue and the error is
added to the job. -/
theorem C15_which_failed_lookups_keep_the_item_witness :
    (processGitHubPRItem unreachableGithubEnv mciRef "" pullRequestQueue
        { Issue := "1234", Source := SourcePullRequest }).cq = pullRequestQueue.cq ∧
    (processGitHubPRItem unreachableGithubEnv mciRef "" pullRequestQueue
        { Issue := "1234", Source := SourcePullRequest }).errors =
      [] ++ ["PR not valid for merge" ++ ": " ++ ("getting PR from GitHub: " ++ "connection timed out")] :=
  (C15_which_failed_lookups_keep_the_item unreachableGithubEnv mciRef "" pullRequestQueue
    { Issue := "1234", Source := SourcePullRequest } (by decide) (by decide)).1
    1234 "connection timed out" (by decide) rfl

/-! ## The claim on the failures of the processor of diff items -/

theorem failCLIPatchItem_evicts (s s2 : JobState) (item : CommitQueueItem) (err : Option String)
    (msg : String) (hcq : s2.cq = s.cq)
    (hin : item.Issue ∈ s.cq.Queue.map (fun i => i.Issue))
    (hnodup : (s.cq.Queue.map (fun i => i.Issue)).Nodup) :
    Evicted s.cq (failCLIPatchItem s2 item err msg).cq item.Issue ∧
    (failCLIPatchItem s2 item err msg).calls = s2.calls ∧
    (failCLIPatchItem s2 item err msg).events =
      s2.events ++ [Event.CommitQueueEnqueueFailed item.Issue err] := by
  rw [failCLIPatchItem_eq s2 item err msg (by rw [hcq]; exact hin)]
  exact ⟨evicted_of_eq _ _ _ hnodup (by simp [hcq]), rfl, rfl⟩

theorem FinalizePatch_of_error (env : Env) (s : JobState) (patchDoc : Patch)
    (requester githubToken err : String)
    (h : env.FinalizePatch patchDoc requester githubToken = .error err) :
    FinalizePatch env s patchDoc requester githubToken =
      (s.record (Call.FinalizePatch patchDoc), .error err) := by
  simp [FinalizePatch, h]

theorem FinalizePatch_of_ok (env : Env) (s : JobState) (patchDoc : Patch)
    (requester githubToken : String) (v : Version) (created : List Task)
    (h : env.FinalizePatch patchDoc requester githubToken = .ok (v, created)) :
    FinalizePatch env s patchDoc requester githubToken =
      ({ s.record (Call.FinalizePatch patchDoc) with tasks := s.tasks ++ created }, .ok v) := by
  simp [FinalizePatch, h, JobState.record]

theorem UpdateVersion_of_error (env : Env) (s : JobState) (item : CommitQueueItem) (err : String)
    (h : env.UpdateVersion s.cq item = some err) :
    UpdateVersion env s item = (s.record (Call.UpdateVersion item), some err) := by
  simp [UpdateVersion, h, JobState.record]

theorem UpdateVersion_of_ok (env : Env) (s : JobState) (item : CommitQueueItem)
    (h : env.UpdateVersion s.cq item = none) :
    UpdateVersion env s item =
      ({ s.record (Call.UpdateVersion item) with cq := s.cq.UpdateVersion item }, none) := by
  simp [UpdateVersion, h, JobState.record]

/-- C16: for every diff item of a queue with pairwise distinct issues,
whichever step of `processCLIPatchItem` fails first (the lookup of the patch
document, which is missing or unreadable; `updatePatch`;
`AddMergeTaskAndVariant`; saving the patch; the upsert of the parser project;
`FinalizePatch`; saving the version), the item is evicted, the other items
being kept, and the calls recorded in the run are those before the failure and
the failing one, none after it: `FinalizePatch` and `UpdateVersion` are not
called after an earlier failure, no start of a test is logged, and after a
failure to save the version the users are left as they are. -/
theorem C16_failed_step_evicts_and_stops (env : Env) (projectRef : ProjectRef)
    (githubToken : String) (s : JobState) (nextItem : CommitQueueItem)
    (hin : nextItem.Issue ∈ s.cq.Queue.map (fun i => i.Issue))
    (hnodup : (s.cq.Queue.map (fun i => i.Issue)).Nodup) :
    ((∀ patchDoc, env.FindOneId nextItem.Issue ≠ .ok (some patchDoc)) →
      Evicted s.cq (processCLIPatchItem env projectRef githubToken s nextItem).cq nextItem.Issue ∧
      (processCLIPatchItem env projectRef githubToken s nextItem).calls =
        s.calls ++ [Call.processCLIPatchItem nextItem.Issue] ∧
      ∃ e, (processCLIPatchItem env projectRef githubToken s nextItem).events =
        s.events ++ [Event.CommitQueueEnqueueFailed nextItem.Issue e]) ∧
    (∀ p0, env.FindOneId nextItem.Issue = .ok (some p0) →
      (∀ err, (updatePatch env env.Settings githubToken projectRef p0).2 = .error err →
        Evicted s.cq (processCLIPatchItem env projectRef githubToken s nextItem).cq nextItem.Issue ∧
        (processCLIPatchItem env projectRef githubToken s nextItem).calls =
          s.calls ++ [Call.processCLIPatchItem nextItem.Issue] ∧
        (processCLIPatchItem env projectRef githubToken s nextItem).events =
          s.events ++ [Event.CommitQueueEnqueueFailed nextItem.Issue (some err)]) ∧
      (∀ p1 project pp,
        updatePatch env env.Settings githubToken projectRef p0 = (p1, .ok (project, pp)) →
        (∀ err, (AddMergeTaskAndVariant env p1 project projectRef SourceDiff).2.2 = some err →
          Evicted s.cq (processCLIPatchItem env projectRef githubToken s nextItem).cq nextItem.Issue ∧
          (processCLIPatchItem env projectRef githubToken s nextItem).calls =
            s.calls ++ [Call.processCLIPatchItem nextItem.Issue] ∧
          (processCLIPatchItem env projectRef githubToken s nextItem).events =
            s.events ++ [Event.CommitQueueEnqueueFailed nextItem.Issue (some err)]) ∧
        (∀ p2, (AddMergeTaskAndVariant env p1 project projectRef SourceDiff).1 = p2 →
          (AddMergeTaskAndVariant env p1 project projectRef SourceDiff).2.2 = none →
          (∀ err, env.UpdateGithashProjectAndTasks p2 = some err →
            Evicted s.cq (processCLIPatchItem env projectRef githubToken s nextItem).cq nextItem.Issue ∧
            (processCLIPatchItem env projectRef githubToken s nextItem).calls =
              s.calls ++ [Call.processCLIPatchItem nextItem.Issue,
                Call.UpdateGithashProjectAndTasks p2] ∧
            (processCLIPatchItem env projectRef githubToken s nextItem).events =
              s.events ++ [Event.CommitQueueEnqueueFailed nextItem.Issue (some err)]) ∧
          (env.UpdateGithashProjectAndTasks p2 = none →
            (∀ err, env.ParserProjectUpsertOneWithS3Fallback env.Settings ProjectStorageMethodDB
                (pp.Init p2.Id p2.CreateTime) = .error err →
              Evicted s.cq (processCLIPatchItem env projectRef githubToken s nextItem).cq nextItem.Issue ∧
              (processCLIPatchItem env projectRef githubToken s nextItem).calls =
                s.calls ++ [Call.processCLIPatchItem nextItem.Issue,
                  Call.UpdateGithashProjectAndTasks p2,
                  Call.ParserProjectUpsertOneWithS3Fallback (pp.Init p2.Id p2.CreateTime)] ∧
              (processCLIPatchItem env projectRef githubToken s nextItem).events =
                s.events ++ [Event.CommitQueueEnqueueFailed nextItem.Issue (some err)]) ∧
            (∀ method, env.ParserProjectUpsertOneWithS3Fallback env.Settings ProjectStorageMethodDB
                (pp.Init p2.Id p2.CreateTime) = .ok method →
              (∀ err, env.FinalizePatch { p2 with ProjectStorageMethod := method }
                  MergeTestRequester githubToken = .error err →
                Evicted s.cq (processCLIPatchItem env projectRef githubToken s nextItem).cq
                  nextItem.Issue ∧
                (processCLIPatchItem env projectRef githubToken s nextItem).calls =
                  s.calls ++ [Call.processCLIPatchItem nextItem.Issue,
                    Call.UpdateGithashProjectAndTasks p2,
                    Call.ParserProjectUpsertOneWithS3Fallback (pp.Init p2.Id p2.CreateTime),
                    Call.FinalizePatch { p2 with ProjectStorageMethod := method }] ∧
                (processCLIPatchItem env projectRef githubToken s nextItem).events =
                  s.events ++ [Event.CommitQueueEnqueueFailed nextItem.Issue (some err)]) ∧
              (∀ v created err, env.FinalizePatch { p2 with ProjectStorageMethod := method }
                  MergeTestRequester githubToken = .ok (v, created) →
                env.UpdateVersion s.cq
                  { nextItem with Version := v.Id, ProcessingStartTime := env.Now } = some err →
                Evicted s.cq (processCLIPatchItem env projectRef githubToken s nextItem).cq
                  nextItem.Issue ∧
                (processCLIPatchItem env projectRef githubToken s nextItem).calls =
                  s.calls ++ [Call.processCLIPatchItem nextItem.Issue,
                    Call.UpdateGithashProjectAndTasks p2,
                    Call.ParserProjectUpsertOneWithS3Fallback (pp.Init p2.Id p2.CreateTime),
                    Call.FinalizePatch { p2 with ProjectStorageMethod := method },
                    Call.UpdateVersion
                      { nextItem with Version := v.Id, ProcessingStartTime := env.Now }] ∧
                (processCLIPatchItem env projectRef githubToken s nextItem).events =
                  s.events ∧
                (processCLIPatchItem env projectRef githubToken s nextItem).users =
                  s.users)))))) := by
  refine ⟨?_, ?_⟩
  · intro hno
    cases hf : env.FindOneId nextItem.Issue with
    | error err =>
      rw [processCLIPatchItem_of_find_error env projectRef githubToken s nextItem err hin hf]
      exact ⟨evicted_of_eq _ _ _ hnodup rfl, rfl, _, rfl⟩
    | ok found =>
      cases found with
      | none =>
        rw [processCLIPatchItem_of_missing_patch env projectRef githubToken s nextItem hin hf]
        exact ⟨evicted_of_eq _ _ _ hnodup rfl, rfl, _, rfl⟩
      | some patchDoc => exact absurd hf (hno patchDoc)
  · intro p0 h0
    refine ⟨?_, ?_⟩
    · intro err h1
      rw [processCLIPatchItem_of_update_error env projectRef githubToken s nextItem p0 err hin h0 h1]
      exact ⟨evicted_of_eq _ _ _ hnodup rfl, rfl, rfl⟩
    · intro p1 project pp h1
      obtain ⟨pa, pj, ea, hA⟩ : ∃ pa pj ea,
          AddMergeTaskAndVariant env p1 project projectRef SourceDiff = (pa, pj, ea) := ⟨_, _, _, rfl⟩
      rw [hA]
      refine ⟨?_, ?_⟩
      · intro err h2
        simp only at h2
        subst h2
        unfold processCLIPatchItem
        simp only [h0, h1, hA]
        obtain ⟨e1, e2, e3⟩ := failCLIPatchItem_evicts s
          (s.record (Call.processCLIPatchItem nextItem.Issue)) nextItem (some err)
          "can\x27t set patch project config" rfl hin hnodup
        exact ⟨e1, by rw [e2]; rfl, by rw [e3]; rfl⟩
      · intro p2 hp2 h2
        simp only at hp2 h2
        subst hp2 h2
        refine ⟨?_, ?_⟩
        · intro err h3
          unfold processCLIPatchItem
          simp only [h0, h1, hA, h3]
          obtain ⟨e1, e2, e3⟩ := failCLIPatchItem_evicts s
            ((s.record (Call.processCLIPatchItem nextItem.Issue)).record
              (Call.UpdateGithashProjectAndTasks pa)) nextItem (some err)
            "can\x27t update patch in db" rfl hin hnodup
          exact ⟨e1, by rw [e2]; simp [JobState.record], by rw [e3]; rfl⟩
        · intro h3
          refine ⟨?_, ?_⟩
          · intro err h4
            unfold processCLIPatchItem
            simp only [h0, h1, hA, h3, h4]
            obtain ⟨e1, e2, e3⟩ := failCLIPatchItem_evicts s
              (((s.record (Call.processCLIPatchItem nextItem.Issue)).record
                (Call.UpdateGithashProjectAndTasks pa)).record
                (Call.ParserProjectUpsertOneWithS3Fallback (pp.Init pa.Id pa.CreateTime)))
              nextItem (some err) "cannot upsert parser project for patch" rfl hin hnodup
            exact ⟨e1, by rw [e2]; simp [JobState.record], by rw [e3]; rfl⟩
          · intro method h4
            refine ⟨?_, ?_⟩
            · intro err h5
              unfold processCLIPatchItem
              simp only [h0, h1, hA, h3, h4, FinalizePatch_of_error env _ _ _ _ err h5]
              obtain ⟨e1, e2, e3⟩ := failCLIPatchItem_evicts s
                ((((s.record (Call.processCLIPatchItem nextItem.Issue)).record
                  (Call.UpdateGithashProjectAndTasks pa)).record
                  (Call.ParserProjectUpsertOneWithS3Fallback (pp.Init pa.Id pa.CreateTime))).record
                  (Call.FinalizePatch { pa with ProjectStorageMethod := method }))
                nextItem (some err) "can\x27t finalize patch" rfl hin hnodup
              exact ⟨e1, by rw [e2]; simp [JobState.record], by rw [e3]; rfl⟩
            · intro v created err h5 h6
              unfold processCLIPatchItem
              simp only [h0, h1, hA, h3, h4, FinalizePatch_of_ok env _ _ _ _ v created h5,
                UpdateVersion_snd, UpdateVersion_fst, JobState.record, h6, dequeue_eq, logError_eq]
              refine ⟨evicted_of_eq _ _ _ hnodup (by simp), ?_, ?_, ?_⟩ <;> simp

/-- C16, witness: the patch document of the item of `diffQueue` is found,
refreshed and saved, and the upsert of its parser project fails; the item is
evicted and `FinalizePatch` is not called. -/
theorem C16_failed_step_evicts_and_stops_witness :
    (processCLIPatchItem upsertFailsEnv evergreenRef "" diffQueue
        { Issue := "aabbccddeeff112233445566", Source := SourceDiff }).cq.Queue = [] ∧
    ∃ p2 pp, (processCLIPatchItem upsertFailsEnv evergreenRef "" diffQueue
        { Issue := "aabbccddeeff112233445566", Source := SourceDiff }).calls =
      [] ++ [Call.processCLIPatchItem "aabbccddeeff112233445566",
        Call.UpdateGithashProjectAndTasks p2, Call.ParserProjectUpsertOneWithS3Fallback pp] := by
  have h0 := (C16_failed_step_evicts_and_stops upsertFailsEnv evergreenRef "" diffQueue
    { Issue := "aabbccddeeff112233445566", Source := SourceDiff } (by decide) (by decide)).2
      { Id := "aabbccddeeff112233445566", Project := "evergreen" } rfl
  have h1 := h0.2 _ _ _ rfl
  have h2 := h1.2 _ rfl (by decide)
  have h3 := (h2.2 (by decide)).1 "document too large" rfl
  exact ⟨by decide, _, _, h3.2.1⟩

/-! ## The claims on the queue store -/

theorem find?_issue_of_nodup (l : List CommitQueueItem) (item : CommitQueueItem)
    (hnodup : (l.map (fun i => i.Issue)).Nodup) (hmem : item ∈ l) :
    l.find? (fun i => i.Issue == item.Issue) = some item := by
  induction l with
  | nil => simp at hmem
  | cons a rest ih =>
    rw [List.map_cons] at hnodup
    obtain ⟨hna, hnr⟩ := List.nodup_cons.mp hnodup
    rcases List.mem_cons.mp hmem with h | h
    · subst h
      simp
    · have hne : a.Issue ≠ item.Issue := by
        intro heq
        exact hna (heq ▸ List.mem_map_of_mem (fun i => i.Issue) h)
      simp [List.find?_cons, hne, ih hnr h]

theorem eraseP_issue_eq_filter (l : List CommitQueueItem) (issue : String)
    (hnodup : (l.map (fun i => i.Issue)).Nodup) :
    l.eraseP (fun i => i.Issue == issue) = l.filter (fun i => i.Issue != issue) := by
  induction l with
  | nil => rfl
  | cons a rest ih =>
    rw [List.map_cons] at hnodup
    obtain ⟨hna, hnr⟩ := List.nodup_cons.mp hnodup
    by_cases ha : a.Issue = issue
    · have hrest : rest.filter (fun i => i.Issue != issue) = rest := by
        rw [List.filter_eq_self]
        intro i hi
        have : i.Issue ≠ issue := by
          intro heq
          exact hna (by rw [ha, ← heq]; exact List.mem_map_of_mem (fun i => i.Issue) hi)
        simpa using this
      simp [List.eraseP_cons, List.filter_cons, ha, hrest]
    · simp [List.eraseP_cons, List.filter_cons, ha, ih hnr]

/-- C22: for every queue with pairwise distinct issues and every item whose
issue is not in it, an enqueue at the back returns the length of the queue as
the position and leaves the queue followed by the item, and an enqueue at the
front returns the position 0 and leaves the item followed by the queue in its
order, the issues staying pairwise distinct; an item whose issue is in the
queue already is rejected with an error, and the queue is left as it is. -/
theorem C22_enqueue_positions (q : CommitQueue) (item : CommitQueueItem)
    (hnodup : (q.Queue.map (fun i => i.Issue)).Nodup) :
    (item.Issue ∉ q.Queue.map (fun i => i.Issue) →
      EnqueueItem q item false =
        ((q.Queue.length, none), { q with Queue := q.Queue ++ [item] }) ∧
      EnqueueItem q item true = ((0, none), { q with Queue := item :: q.Queue }) ∧
      ∀ atFront, ((EnqueueItem q item atFront).2.Queue.map (fun i => i.Issue)).Nodup) ∧
    (item.Issue ∈ q.Queue.map (fun i => i.Issue) →
      ∀ atFront, (EnqueueItem q item atFront).1.2 ≠ none ∧ (EnqueueItem q item atFront).2 = q) := by
  constructor
  · intro hnew
    have hany : q.Queue.any (fun i => i.Issue == item.Issue) = false := by
      rw [Bool.eq_false_iff]
      intro h
      rw [List.any_eq_true] at h
      obtain ⟨i, hi, heq⟩ := h
      exact hnew (List.mem_map.mpr ⟨i, hi, by simpa using heq⟩)
    have hback : EnqueueItem q item false =
        ((q.Queue.length, none), { q with Queue := q.Queue ++ [item] }) := by
      simp [EnqueueItem, CommitQueue.Enqueue, hany]
    have hfront : EnqueueItem q item true = ((0, none), { q with Queue := item :: q.Queue }) := by
      simp [EnqueueItem, CommitQueue.Enqueue, hany]
    refine ⟨hback, hfront, ?_⟩
    intro atFront
    cases atFront with
    | false =>
      rw [hback]
      simp only [List.map_append, List.map_cons, List.map_nil]
      rw [List.nodup_append]
      refine ⟨hnodup, by simp, ?_⟩
      intro a ha hb
      rw [List.mem_singleton] at hb
      subst hb
      exact hnew ha
    | true =>
      rw [hfront]
      simp only [List.map_cons]
      exact List.nodup_cons.mpr ⟨hnew, hnodup⟩
  · intro hold atFront
    have hany : q.Queue.any (fun i => i.Issue == item.Issue) = true := by
      rw [List.any_eq_true]
      obtain ⟨i, hi, heq⟩ := List.mem_map.mp hold
      exact ⟨i, hi, by simp [heq]⟩
    simp [EnqueueItem, CommitQueue.Enqueue, hany]

/-- C22, witness: after `1234` and `5678`, the item `important` enqueued at
the front gets the position 0 and the queue is `important`, `1234`, `5678`. -/
theorem C22_enqueue_positions_witness :
    EnqueueItem { ProjectID := "mci", Queue := [{ Issue := "1234" }, { Issue := "5678" }] }
        { Issue := "important" } true =
      ((0, none),
       { ProjectID := "mci",
         Queue := [{ Issue := "important" }, { Issue := "1234" }, { Issue := "5678" }] }) :=
  ((C22_enqueue_positions { ProjectID := "mci", Queue := [{ Issue := "1234" }, { Issue := "5678" }] }
    { Issue := "important" } (by decide)).1 (by decide)).2.1

/-- C23: for every queue with pairwise distinct issues, removing the issue of
an item of the queue, with or without a version, returns that item without
error and leaves the other items in their order; removing an issue that is
not in the queue returns the not-found error and no item, and leaves the
queue as it is. -/
theorem C23_remove_by_issue (q : CommitQueue) (issue : String)
    (hnodup : (q.Queue.map (fun i => i.Issue)).Nodup) :
    (∀ item ∈ q.Queue, item.Issue = issue →
      CommitQueueRemoveItem q issue =
        ((some item, none), { q with Queue := q.Queue.filter (fun i => i.Issue != issue) })) ∧
    (issue ∉ q.Queue.map (fun i => i.Issue) →
      CommitQueueRemoveItem q issue =
        ((none, some ("item " ++ issue ++ " not found in the queue")), q)) := by
  constructor
  · intro item hmem hissue
    have hfind := find?_issue_of_nodup q.Queue item hnodup hmem
    rw [hissue] at hfind
    simp [CommitQueueRemoveItem, CommitQueue.Remove, hfind,
      eraseP_issue_eq_filter q.Queue issue hnodup]
  · intro habsent
    simp [CommitQueueRemoveItem, Remove_absent q issue habsent]

/-- C23, witness: removing the item `0` from the three finalized items leaves
the items `1` and `2`. -/
theorem C23_remove_by_issue_witness :
    CommitQueueRemoveItem threeFinalizedItems "0" =
      ((some { Issue := "0", Source := SourceDiff, Version := "v0" }, none),
       { ProjectID := "mci",
         Queue := [{ Issue := "1", Source := SourceDiff, Version := "v1" },
                   { Issue := "2", Source := SourceDiff, Version := "v2" }] }) :=
  (C23_remove_by_issue threeFinalizedItems "0" (by decide)).1
    { Issue := "0", Source := SourceDiff, Version := "v0" } (by decide) rfl

/-! ## The claim on the check of a pull request -/

/-- C24: `checkPR` returns `dequeue = true` exactly when the issue is not a
number or the pull request fetched fails the validation, and then an error and
no pull request; when the fetch itself fails it returns `dequeue = false`, an
error and no pull request; and it returns no error exactly when the issue is a
number and the fetch and the validation succeed, and then the pull request
fetched and `dequeue = false`. -/
theorem C24_checkPR_permanent_or_transient (env : Env) (githubToken issue owner repo : String) :
    ((checkPR env githubToken issue owner repo).2.1 = true ↔
      (Atoi issue = none ∨
        ∃ n pr err, Atoi issue = some n ∧
          env.GetGithubPullRequest githubToken owner repo n = .ok pr ∧
          env.ValidatePR pr = some err)) ∧
    ((checkPR env githubToken issue owner repo).2.1 = true →
      (checkPR env githubToken issue owner repo).2.2 ≠ none ∧
      (checkPR env githubToken issue owner repo).1 = none) ∧
    (∀ n err, Atoi issue = some n →
      env.GetGithubPullRequest githubToken owner repo n = .error err →
      checkPR env githubToken issue owner repo =
        (none, false, some ("getting PR from GitHub: " ++ err))) ∧
    ((checkPR env githubToken issue owner repo).2.2 = none ↔
      ∃ n pr, Atoi issue = some n ∧
        env.GetGithubPullRequest githubToken owner repo n = .ok pr ∧
        env.ValidatePR pr = none) ∧
    (∀ n pr, Atoi issue = some n →
      env.GetGithubPullRequest githubToken owner repo n = .ok pr →
      env.ValidatePR pr = none →
      checkPR env githubToken issue owner repo = (some pr, false, none)) := by
  refine ⟨?_, ?_, ?_, ?_, ?_⟩
  · cases h1 : Atoi issue with
    | none => simp [checkPR, h1]
    | some n =>
      cases h2 : env.GetGithubPullRequest githubToken owner repo n with
      | error err => simp [checkPR, h1, h2]
      | ok pr =>
        cases h3 : env.ValidatePR pr with
        | none => simp [checkPR, h1, h2, h3]
        | some err => simp [checkPR, h1, h2, h3]
  · cases h1 : Atoi issue with
    | none => simp [checkPR, h1]
    | some n =>
      cases h2 : env.GetGithubPullRequest githubToken owner repo n with
      | error err => simp [checkPR, h1, h2]
      | ok pr =>
        cases h3 : env.ValidatePR pr with
        | none => simp [checkPR, h1, h2, h3]
        | some err => simp [checkPR, h1, h2, h3]
  · intro n err h1 h2
    exact checkPR_unfetchable env githubToken issue owner repo n err h1 h2
  · cases h1 : Atoi issue with
    | none => simp [checkPR, h1]
    | some n =>
      cases h2 : env.GetGithubPullRequest githubToken owner repo n with
      | error err => simp [checkPR, h1, h2]
      | ok pr =>
        cases h3 : env.ValidatePR pr with
        | none => simp [checkPR, h1, h2, h3]
        | some err => simp [checkPR, h1, h2, h3]
  · intro n pr h1 h2 h3
    exact checkPR_valid env githubToken issue owner repo n pr h1 h2 h3

/-- C24, witness: when the review system cannot be reached, the check of the
pull request `1234` asks to keep the item. -/
theorem C24_checkPR_permanent_or_transient_witness :
    checkPR unreachableGithubEnv "" "1234" "baxterthehacker" "public-repo" =
      (none, false, some ("getting PR from GitHub: " ++ "connection timed out")) :=
  (C24_checkPR_permanent_or_transient unreachableGithubEnv "" "1234" "baxterthehacker"
    "public-repo").2.2.1 1234 "connection timed out" (by decide) rfl

/-! ## The claim on the validation of a branch -/

theorem validateBranch_eq_none (branch : Option Branch) :
    validateBranch branch = none ↔
      ∃ sha, branch = some { Commit := some { SHA := some sha } } := by
  cases branch with
  | none => simp [validateBranch]
  | some b =>
    cases b with
    | mk commit =>
      cases commit with
      | none => simp [validateBranch]
      | some c =>
        cases c with
        | mk sha =>
          cases sha with
          | none => simp [validateBranch]
          | some v => simp [validateBranch]

theorem ne_nilPointerDereference (c : Char) (pre e : String)
    (hpre : pre.data.head? = some c) (hc : c ≠ 'p') :
    pre ++ e ≠ nilPointerDereference := by
  intro h
  have h2 := congrArg (fun s => s.data.head?) h
  simp only [String.data_append] at h2
  cases hd : pre.data with
  | nil => rw [hd] at hpre; simp at hpre
  | cons a l =>
    rw [hd] at hpre h2
    simp only [List.head?_cons, Option.some.injEq] at hpre
    subst hpre
    have hp : nilPointerDereference.data.head? = some 'p' := by decide
    rw [hp] at h2
    simp only [List.cons_append, List.head?_cons, Option.some.injEq] at h2
    exact hc h2

theorem getBranchCommitHash_no_nil_dereference (env : Env) (repo moduleBranch token : String) :
    getBranchCommitHash env repo moduleBranch token ≠ .error nilPointerDereference := by
  unfold getBranchCommitHash
  cases h1 : env.ParseGitUrl repo with
  | error err =>
    simp only [ne_eq, Except.error.injEq]
    exact ne_nilPointerDereference 'r' "repo is misconfigured (malformed URL): " err (by decide)
      (by decide)
  | ok parsed =>
    obtain ⟨owner, name⟩ := parsed
    simp only
    cases h2 : env.GetBranchEvent token owner name moduleBranch with
    | error err =>
      simp only [ne_eq, Except.error.injEq]
      exact ne_nilPointerDereference 'g' "getting branch: " err (by decide) (by decide)
    | ok branch =>
      simp only
      cases h3 : validateBranch branch with
      | some err =>
        simp only [ne_eq, Except.error.injEq]
        exact ne_nilPointerDereference 'G' "GitHub returned invalid branch: " err (by decide)
          (by decide)
      | none =>
        obtain ⟨sha, hb⟩ := (validateBranch_eq_none branch).mp h3
        subst hb
        simp [branchCommitSHA]

theorem updatePatchModules_no_nil_dereference (env : Env) (project : Project)
    (githubToken : String) (mods : List ModulePatch) (sha : String) :
    (updatePatchModules env project githubToken mods sha).2 ≠ some nilPointerDereference := by
  induction mods generalizing sha with
  | nil => simp [updatePatchModules]
  | cons m rest ih =>
    unfold updatePatchModules
    by_cases hm : m.ModuleName = ""
    · simp only [hm, if_true]
      exact ih sha
    · simp only [hm, if_false]
      cases h1 : env.GetModuleByName project m.ModuleName with
      | error err =>
        simp only [ne_eq, Option.some.injEq]
        rw [String.append_assoc, String.append_assoc]
        exact ne_nilPointerDereference 'g' "getting module " _ (by decide) (by decide)
      | ok pm =>
        simp only []
        cases h2 : getBranchCommitHash env pm.Repo pm.Branch githubToken with
        | error err =>
          simp only [ne_eq, Option.some.injEq]
          rw [String.append_assoc, String.append_assoc]
          exact ne_nilPointerDereference 'g' "getting commit hash for branch " _ (by decide)
            (by decide)
        | ok sha2 =>
          simp only []
          exact ih sha2

theorem updatePatch_no_nil_dereference (env : Env) (settings : Settings) (githubToken : String)
    (projectRef : ProjectRef) (patchDoc : Patch) :
    (updatePatch env settings githubToken projectRef patchDoc).2 ≠ .error nilPointerDereference := by
  unfold updatePatch
  cases h1 : env.GetBranchEvent githubToken projectRef.Owner projectRef.Repo projectRef.Branch with
  | error err =>
    simp only [ne_eq, Except.error.injEq]
    exact ne_nilPointerDereference 'g' "getting branch: " err (by decide) (by decide)
  | ok branch =>
    simp only []
    cases h2 : validateBranch branch with
    | some err =>
      simp only [ne_eq, Except.error.injEq]
      exact ne_nilPointerDereference 'G' "GitHub returned an invalid branch: " err (by decide)
        (by decide)
    | none =>
      obtain ⟨sha, hb⟩ := (validateBranch_eq_none branch).mp h2
      subst hb
      have hj : (branchCommitSHA (some { Commit := some { SHA := some sha } })).join = some sha := rfl
      simp only [hj]
      cases h3 : env.GetPatchedProject settings
          { patchDoc with
            Githash := sha, ProjectStorageMethod := "", PatchedParserProject := "",
            PatchedProjectConfig := "" } githubToken with
      | error err =>
        simp only [ne_eq, Except.error.injEq]
        exact ne_nilPointerDereference 'g' "getting updated project config: " err (by decide)
          (by decide)
      | ok r =>
        obtain ⟨project, patchConfig⟩ := r
        simp only []
        have hm := updatePatchModules_no_nil_dereference env project githubToken patchDoc.Patches sha
        obtain ⟨patches, e, hmods⟩ : ∃ patches e,
            updatePatchModules env project githubToken patchDoc.Patches sha = (patches, e) :=
          ⟨_, _, rfl⟩
        rw [hmods] at hm
        rw [hmods]
        cases e with
        | none => simp
        | some err =>
          simp only [ne_eq, Except.error.injEq]
          intro h
          exact hm (by rw [h])

/-- C26: `validateBranch` returns no error if and only if the branch, its
commit and the hash of the commit are all there; then the dereferences of
`branch.Commit.SHA` find a value, and neither `updatePatch` nor
`getBranchCommitHash` ever ends in the failure of a nil dereference. -/
theorem C26_validated_branch_has_a_commit_hash (env : Env) (branch : Option Branch)
    (settings : Settings) (githubToken : String) (projectRef : ProjectRef) (patchDoc : Patch)
    (repo moduleBranch : String) :
    (validateBranch branch = none ↔
      ∃ b c sha, branch = some b ∧ b.Commit = some c ∧ c.SHA = some sha) ∧
    (validateBranch branch = none → ∃ sha, branchCommitSHA branch = some (some sha)) ∧
    (updatePatch env settings githubToken projectRef patchDoc).2 ≠ .error nilPointerDereference ∧
    getBranchCommitHash env repo moduleBranch githubToken ≠ .error nilPointerDereference := by
  refine ⟨?_, ?_, updatePatch_no_nil_dereference env settings githubToken projectRef patchDoc,
    getBranchCommitHash_no_nil_dereference env repo moduleBranch githubToken⟩
  · rw [validateBranch_eq_none]
    constructor
    · rintro ⟨sha, rfl⟩
      exact ⟨_, _, sha, rfl, rfl, rfl⟩
    · rintro ⟨b, c, sha, rfl, hc, hs⟩
      refine ⟨sha, ?_⟩
      cases b with
      | mk commit =>
        cases c with
        | mk s =>
          simp only at hc hs
          subst hc hs
          rfl
  · intro h
    obtain ⟨sha, rfl⟩ := (validateBranch_eq_none branch).mp h
    exact ⟨sha, rfl⟩

/-- C26, witness: the branch of `TestValidateBranch` with the hash `abcdef`
is valid and its hash is found. -/
theorem C26_validated_branch_has_a_commit_hash_witness :
    ∃ sha, branchCommitSHA (some { Commit := some { SHA := some "abcdef" } }) = some (some sha) :=
  (C26_validated_branch_has_a_commit_hash mergeDistroEnv
    (some { Commit := some { SHA := some "abcdef" } }) {} "" {} {} "" "").2.1 (by decide)

/-! ## The claim on the dependencies of the merge task -/

theorem length_flatMap_tasks (vts : List VariantTasks) :
    (vts.flatMap (fun vt =>
        vt.Tasks.map (fun n => ({ Name := n, Variant := vt.Variant, Status := "" } : TaskUnitDependency)))).length =
      (vts.map (fun vt => vt.Tasks.length)).sum := by
  induction vts with
  | nil => rfl
  | cons vt rest ih => simp [List.flatMap_cons, ih]

theorem onMergeTask_mem_flatMap (vts : List VariantTasks) :
    onMergeTask ∈ vts.flatMap (fun vt =>
        vt.Tasks.map (fun n => ({ Name := n, Variant := vt.Variant, Status := "" } : TaskUnitDependency))) ↔
      ∃ vt ∈ vts, vt.Variant = MergeTaskVariant ∧ MergeTaskName ∈ vt.Tasks := by
  simp only [List.mem_flatMap, List.mem_map, onMergeTask]
  constructor
  · rintro ⟨vt, hvt, n, hn, heq⟩
    simp only [TaskUnitDependency.mk.injEq] at heq
    exact ⟨vt, hvt, heq.2.1, heq.1 ▸ hn⟩
  · rintro ⟨vt, hvt, hv, hn⟩
    exact ⟨vt, hvt, MergeTaskName, hn, by rw [hv]⟩

/-- C27: on a patch document that already selects the merge task on the
merge variant, `AddMergeTaskAndVariant` succeeds with the accepting
collaborators and the merge task it adds to the project depends on the merge
task itself. -/
theorem C27_merge_task_may_depend_on_itself :
    (AddMergeTaskAndVariant mergeDistroEnv mergeSelectedPatch {} {} SourceDiff).2.2 = none ∧
    ((AddMergeTaskAndVariant mergeDistroEnv mergeSelectedPatch {} {} SourceDiff).2.1.Tasks.map
        (fun t => (t.Name, t.DependsOn))) =
      [(MergeTaskName,
        [{ Name := "compile", Variant := "ubuntu", Status := "" },
         { Name := "test", Variant := "ubuntu", Status := "" },
         { Name := MergeTaskName, Variant := MergeTaskVariant, Status := "" }])] := by
  decide

/-- C27: for every patch document, once the settings are read and the source
is known, the merge task that `AddMergeTaskAndVariant` appends to the project
has exactly one dependency per pair of a variant and a task of
`patchDoc.VariantsTasks` as it was before the call, in the same order, so that
their number is the sum of the numbers of tasks of the variants; the pair
appended by the call adds none; and the merge task depends on itself exactly
when the list before the call has `MergeTaskName` under `MergeTaskVariant`. -/
theorem C27_merge_task_depends_on_the_selected_tasks (env : Env) (patchDoc : Patch)
    (project : Project) (projectRef : ProjectRef) (source : String) (settings : Settings)
    (hconf : env.GetConfig = .ok settings)
    (hsource : source = SourceDiff ∨ source = SourcePullRequest) :
    ∃ t, (AddMergeTaskAndVariant env patchDoc project projectRef source).2.1.Tasks =
        project.Tasks ++ [t] ∧
      t.Name = MergeTaskName ∧
      t.DependsOn = patchDoc.VariantsTasks.flatMap (fun vt =>
        vt.Tasks.map (fun n => { Name := n, Variant := vt.Variant, Status := "" })) ∧
      t.DependsOn.length = (patchDoc.VariantsTasks.map (fun vt => vt.Tasks.length)).sum ∧
      (onMergeTask ∈ t.DependsOn ↔
        ∃ vt ∈ patchDoc.VariantsTasks, vt.Variant = MergeTaskVariant ∧ MergeTaskName ∈ vt.Tasks) := by
  have hne : SourcePullRequest ≠ SourceDiff := by decide
  have hcmds : ∃ cmds, getMergeTaskCommands settings source = (cmds, none) := by
    rcases hsource with hs | hs
    · exact ⟨(getMergeTaskCommands settings source).1, by simp [getMergeTaskCommands, hs]⟩
    · exact ⟨(getMergeTaskCommands settings source).1, by simp [getMergeTaskCommands, hs, hne]⟩
  obtain ⟨cmds, hcmds⟩ := hcmds
  obtain ⟨bv, t, p2, _, _, ht, hdeps, _, hp2, hres⟩ :=
    AddMergeTaskAndVariant_of_commands env patchDoc project projectRef source settings cmds
      hconf hcmds
  refine ⟨t, ?_, ht, hdeps, ?_, ?_⟩
  · rcases hres with hres | ⟨err, hres⟩ <;> rw [hres, hp2]
  · rw [hdeps]
    exact length_flatMap_tasks patchDoc.VariantsTasks
  · rw [hdeps]
    exact onMergeTask_mem_flatMap patchDoc.VariantsTasks

/-- C27, witness: the merge task added for a patch document that selects the
tasks `compile` and `test` on `ubuntu` has two dependencies. -/
theorem C27_merge_task_depends_on_the_selected_tasks_witness :
    ∃ t, (AddMergeTaskAndVariant mergeDistroEnv
        { VariantsTasks := [{ Variant := "ubuntu", Tasks := ["compile", "test"] }] } {} {}
        SourceDiff).2.1.Tasks = [] ++ [t] ∧
      t.DependsOn.length = 2 := by
  obtain ⟨t, h1, _, _, h4, _⟩ := C27_merge_task_depends_on_the_selected_tasks mergeDistroEnv
    { VariantsTasks := [{ Variant := "ubuntu", Tasks := ["compile", "test"] }] } {} {}
    SourceDiff { CommitQueue := { MergeTaskDistro := "d" } } rfl (Or.inl rfl)
  exact ⟨t, h1, h4⟩

/-! ## The claims on the evictions that the processors make -/

/-- C29: the pull request of the item is valid and its patch document is
found, and the fetch of the patched project fails.  `processGitHubPRItem`
evicts the item and posts a failure status, and goes on: `FinalizePatch` is
called for the item that is no longer in the queue.  When the patch is
finalized, the version is saved, a pending status is posted and the start of
its test is logged; when it is not, a second failure status is posted. -/
theorem C29_patch_is_finalized_after_the_eviction :
    (processGitHubPRItem configFetchFailsEnv mciRef "" pullRequestQueue
        { Issue := "1234", Source := SourcePullRequest }).cq.Queue = [] ∧
    (processGitHubPRItem configFetchFailsEnv mciRef "" pullRequestQueue
        { Issue := "1234", Source := SourcePullRequest }).calls =
      [Call.processGitHubPRItem "1234",
       Call.FinalizePatch { Id := "aabbccddeeff112233445566" },
       Call.UpdateVersion { Issue := "1234", Source := SourcePullRequest, Version := "v1234" }] ∧
    (processGitHubPRItem configFetchFailsEnv mciRef "" pullRequestQueue
        { Issue := "1234", Source := SourcePullRequest }).events =
      [Event.CommitQueueStartTest "v1234"] ∧
    ((processGitHubPRItem configFetchFailsEnv mciRef "" pullRequestQueue
        { Issue := "1234", Source := SourcePullRequest }).statuses.map
        (fun st => (st.state, st.description))) =
      [(GithubStateFailure, "can\x27t get project config"),
       (GithubStatePending, "preparing to test merge")] ∧
    (processGitHubPRItem configAndFinalizeFailEnv mciRef "" pullRequestQueue
        { Issue := "1234", Source := SourcePullRequest }).calls =
      [Call.processGitHubPRItem "1234",
       Call.FinalizePatch { Id := "aabbccddeeff112233445566" }] ∧
    ((processGitHubPRItem configAndFinalizeFailEnv mciRef "" pullRequestQueue
        { Issue := "1234", Source := SourcePullRequest }).statuses.map
        (fun st => (st.state, st.description))) =
      [(GithubStateFailure, "can\x27t get project config"),
       (GithubStateFailure, "can\x27t finalize patch")] ∧
    (processGitHubPRItem configAndFinalizeFailEnv mciRef "" pullRequestQueue
        { Issue := "1234", Source := SourcePullRequest }).removeCalls = ["1234", "1234"] := by
  decide

/-- C30: the patch document of the diff item does not exist (the lookup
returns no document and no error).  `processCLIPatchItem` evicts the item and
records that it could not be enqueued, and adds no error to the job. -/
theorem C30_missing_patch_is_evicted_without_error :
    diffQueue.cq.Queue = [{ Issue := "aabbccddeeff112233445566", Source := SourceDiff }] ∧
    (processCLIPatchItem (constEnv true (.ok none) (.ok none) (.ok [])) mciRef "" diffQueue
        { Issue := "aabbccddeeff112233445566", Source := SourceDiff }).cq.Queue = [] ∧
    (processCLIPatchItem (constEnv true (.ok none) (.ok none) (.ok [])) mciRef "" diffQueue
        { Issue := "aabbccddeeff112233445566", Source := SourceDiff }).errors = [] ∧
    (processCLIPatchItem (constEnv true (.ok none) (.ok none) (.ok [])) mciRef "" diffQueue
        { Issue := "aabbccddeeff112233445566", Source := SourceDiff }).events =
      [Event.CommitQueueEnqueueFailed "aabbccddeeff112233445566" none] := by
  decide

/-! ## The claim on the caches of a patch document -/

theorem find?_map_settings (users : List DBUser) (username : String) (u : DBUser)
    (settings : UserSettings)
    (h : users.find? (fun x => x.Id == username) = some u) :
    (users.map (fun stored =>
        if stored.Id = u.Id then { stored with Settings := settings } else stored)).find?
        (fun x => x.Id == username) = some { u with Settings := settings } := by
  have huid : u.Id = username := by
    have := List.find?_some h
    simpa using this
  induction users with
  | nil => simp at h
  | cons a rest ih =>
    rw [List.find?_cons] at h
    by_cases ha : a.Id = username
    · have hau : a = u := by simpa [ha] using h
      subst hau
      simp [List.find?_cons, ha]
    · have hne : ¬ a.Id = u.Id := by rw [huid]; exact ha
      have hb : (a.Id == username) = false := by simpa using ha
      have h2 : rest.find? (fun x => x.Id == username) = some u := by
        simp only [hb] at h
        exact h
      simp [List.find?_cons, ha, hne, ih h2]

/-- C21: the user `u1` has no commit queue preference and the subscription
cannot be created; `setDefaultNotification` returns the error and the stored
settings of `u1` are what they were. -/
theorem C21_failed_subscription_leaves_the_settings :
    (twoUsers.users.map (fun u => (u.Id, u.Settings.Notifications.CommitQueue))) =
      [("u1", ""), ("u2", "none")] ∧
    (setDefaultNotification subscriptionFailsEnv twoUsers "u1").2 =
      some "creating default email subscription: connection reset by peer" ∧
    (setDefaultNotification subscriptionFailsEnv twoUsers "u1").1 = twoUsers := by
  decide

/-- C21: `setDefaultNotification` returns an error for an unknown user and
changes nothing.  For a user with a non-empty commit queue preference it
returns no error and changes nothing: the settings stay, an empty
`CommitQueueID` included, and no subscription is created.  For a user with an
empty preference, when the subscription is created and the settings are
saved, it returns no error, the subscription is the one created, and the
stored settings of that user, and of no other, have the preference
`PreferenceEmail` and as `CommitQueueID` the id of the subscription, which is
not empty when the id given by the event store is not.  When the
subscription cannot be created, it returns that error and changes nothing;
when the settings cannot be saved, it returns that error and the stored users
are what they were, the empty preference included.  And the stored users or
the subscriptions change only for a user with an empty preference. -/
theorem C21_default_notification_for_an_empty_preference (env : Env) (s : JobState)
    (username : String) :
    (FindOneById s.users username = .ok none →
      (setDefaultNotification env s username).2 ≠ none ∧
      (setDefaultNotification env s username).1 = s) ∧
    (∀ u, FindOneById s.users username = .ok (some u) →
      (u.Settings.Notifications.CommitQueue ≠ "" →
        setDefaultNotification env s username = (s, none)) ∧
      (u.Settings.Notifications.CommitQueue = "" →
        ∀ sub, env.CreateOrUpdateGeneralSubscription GeneralSubscriptionCommitQueue ""
            (NewEmailSubscriber u.Email) u.Id = .ok sub →
          env.UpdateSettings u
            { u.Settings with Notifications :=
                { u.Settings.Notifications with
                  CommitQueue := PreferenceEmail, CommitQueueID := sub.ID } } = none →
          (setDefaultNotification env s username).2 = none ∧
          (setDefaultNotification env s username).1.subscriptions = s.subscriptions ++ [sub] ∧
          (setDefaultNotification env s username).1.users =
            s.users.map (fun stored =>
              if stored.Id = u.Id then
                { stored with Settings :=
                    { u.Settings with Notifications :=
                        { u.Settings.Notifications with
                          CommitQueue := PreferenceEmail, CommitQueueID := sub.ID } } }
              else stored) ∧
          FindOneById (setDefaultNotification env s username).1.users username =
            .ok (some { u with Settings :=
              { u.Settings with Notifications :=
                  { u.Settings.Notifications with
                    CommitQueue := PreferenceEmail, CommitQueueID := sub.ID } } }) ∧
          (sub.ID ≠ "" →
            ∃ stored, FindOneById (setDefaultNotification env s username).1.users username =
                .ok (some stored) ∧
              stored.Settings.Notifications.CommitQueue = PreferenceEmail ∧
              stored.Settings.Notifications.CommitQueueID ≠ "")) ∧
      (u.Settings.Notifications.CommitQueue = "" →
        ∀ err, env.CreateOrUpdateGeneralSubscription GeneralSubscriptionCommitQueue ""
            (NewEmailSubscriber u.Email) u.Id = .error err →
          setDefaultNotification env s username =
            (s, some ("creating default email subscription: " ++ err))) ∧
      (u.Settings.Notifications.CommitQueue = "" →
        ∀ sub err, env.CreateOrUpdateGeneralSubscription GeneralSubscriptionCommitQueue ""
            (NewEmailSubscriber u.Email) u.Id = .ok sub →
          env.UpdateSettings u
            { u.Settings with Notifications :=
                { u.Settings.Notifications with
                  CommitQueue := PreferenceEmail, CommitQueueID := sub.ID } } = some err →
          (setDefaultNotification env s username).2 = some err ∧
          (setDefaultNotification env s username).1.users = s.users ∧
          FindOneById (setDefaultNotification env s username).1.users username =
            .ok (some u))) ∧
    (((setDefaultNotification env s username).1.users ≠ s.users ∨
        (setDefaultNotification env s username).1.subscriptions ≠ s.subscriptions) →
      ∃ u, FindOneById s.users username = .ok (some u) ∧
        u.Settings.Notifications.CommitQueue = "") := by
  refine ⟨?_, ?_, ?_⟩
  · intro h
    simp [setDefaultNotification, h]
  · intro u h
    refine ⟨?_, ?_, ?_, ?_⟩
    · intro hpref
      simp [setDefaultNotification, h, hpref]
    rotate_left
    · intro hpref err hsub
      simp only [setDefaultNotification, h, hpref, if_true, hsub]
    · intro hpref sub err hsub hsave
      have hres : setDefaultNotification env s username =
          ({ s with subscriptions := s.subscriptions ++ [sub] }, some err) := by
        simp only [setDefaultNotification, h, hpref, if_true, hsub, hsave]
      rw [hres]
      exact ⟨rfl, rfl, h⟩
    · intro hpref sub hsub hsave
      have hfind : s.users.find? (fun x => x.Id == username) = some u := by
        simpa [FindOneById] using h
      have hres : setDefaultNotification env s username =
          ({ s with
              subscriptions := s.subscriptions ++ [sub],
              users := s.users.map (fun stored =>
                if stored.Id = u.Id then
                  { stored with Settings :=
                      { u.Settings with Notifications :=
                          { u.Settings.Notifications with
                            CommitQueue := PreferenceEmail, CommitQueueID := sub.ID } } }
                else stored) }, none) := by
        simp only [setDefaultNotification, h, hpref, if_true, hsub, hsave]
      have hafter := find?_map_settings s.users username u
        { u.Settings with Notifications :=
            { u.Settings.Notifications with
              CommitQueue := PreferenceEmail, CommitQueueID := sub.ID } } hfind
      rw [hres]
      refine ⟨rfl, rfl, rfl, ?_, ?_⟩
      · simp only [FindOneById, hafter]
      · intro hid
        refine ⟨{ u with Settings :=
          { u.Settings with Notifications :=
              { u.Settings.Notifications with
                CommitQueue := PreferenceEmail, CommitQueueID := sub.ID } } }, ?_, rfl, hid⟩
        simp only [FindOneById, hafter]
  · intro hchange
    cases hf : FindOneById s.users username with
    | error err => simp [FindOneById] at hf
    | ok found =>
      cases found with
      | none =>
        exfalso
        simp [setDefaultNotification, hf] at hchange
      | some u =>
        refine ⟨u, rfl, ?_⟩
        by_contra hpref
        simp [setDefaultNotification, hf, hpref] at hchange

/-- C21, witness: the two users of `TestSetDefaultNotification`: `u1` is
signed up for e-mail with the id of the subscription, `u2`, who opted out, is
not affected. -/
theorem C21_default_notification_for_an_empty_preference_witness :
    (setDefaultNotification subscribingEnv twoUsers "u1").1.users =
      [{ Id := "u1",
         Settings := { Notifications :=
           { CommitQueue := PreferenceEmail, CommitQueueID := "5f0c1a2b3c4d5e6f70819203" } } },
       { Id := "u2", Settings := { Notifications := { CommitQueue := "none" } } }] ∧
    setDefaultNotification subscribingEnv twoUsers "u2" = (twoUsers, none) :=
  ⟨((((C21_default_notification_for_an_empty_preference subscribingEnv twoUsers "u1").2.1
      { Id := "u1" } rfl).2.1 rfl _ rfl rfl).2.2.1).trans (by decide),
   ((C21_default_notification_for_an_empty_preference subscribingEnv twoUsers "u2").2.1
      { Id := "u2", Settings := { Notifications := { CommitQueue := "none" } } } rfl).1
      (by decide)⟩

/-! ## The frame of the linker -/

end Evergreen
